import Mathlib

/-!
# Ad-analytics backend: the AI-report pipeline of `routes/ai.js`

A shallow embedding of the report pipeline (metric aggregation, prompt
rendering, rate limiter, completion client with deterministic fallback,
report assembly) together with the properties stated about it.

## Numbers

JavaScript numbers are IEEE-754 doubles.  A finite double is represented by
its exact rational value; every arithmetic operation computes the exact
rational result and rounds it to the nearest double, ties to even
(`roundDouble`), with overflow to an infinity and gradual underflow.  The
sign of zero is not tracked: the only divisors of this program are sums that
start from `+0`, and such a sum is never `-0`.

The counts that a request supplies for a platform (impressions, clicks,
conversions) are natural numbers; their totals are sums of doubles like every
other sum of the program, so a total beyond `2 ^ 53` is rounded.  The call
counter of the rate limiter is a natural number (it never exceeds 20) and
timestamps are integers (milliseconds).
-/

/-! ## Doubles -/

/-- A JavaScript number: a finite value, `NaN`, `Infinity` or `-Infinity`. -/
inductive JSNum where
  | fin (q : ℚ)
  | nan
  | pinf
  | ninf
deriving DecidableEq, Repr

/-- Power of two with an integer exponent, as a rational. -/
def pow2 (e : ℤ) : ℚ :=
  if 0 ≤ e then ((2 ^ e.toNat : ℕ) : ℚ) else 1 / ((2 ^ (-e).toNat : ℕ) : ℚ)

/-- Nearest integer, ties to the even neighbour. -/
def roundHalfEven (q : ℚ) : ℤ :=
  if q - ⌊q⌋ < 1 / 2 then ⌊q⌋
  else if 1 / 2 < q - ⌊q⌋ then ⌊q⌋ + 1
  else if ⌊q⌋ % 2 = 0 then ⌊q⌋ else ⌊q⌋ + 1

/-- Number of binary digits of a natural number, by halving (`fuel` bounds the
number of halvings). -/
def bitLengthFuel : ℕ → ℕ → ℕ
  | 0, _ => 0
  | fuel + 1, n => if n = 0 then 0 else bitLengthFuel fuel (n / 2) + 1

/-- Number of binary digits of a natural number (`0` for `0`). -/
def bitLength (n : ℕ) : ℕ := bitLengthFuel n n

/-- Binary exponent of a positive rational: the `e` with `2 ^ e ≤ q < 2 ^ (e + 1)`. -/
def ilog2 (q : ℚ) : ℤ :=
  if pow2 ((bitLength q.num.natAbs : ℤ) - (bitLength q.den : ℤ)) ≤ q
  then (bitLength q.num.natAbs : ℤ) - (bitLength q.den : ℤ)
  else (bitLength q.num.natAbs : ℤ) - (bitLength q.den : ℤ) - 1

/-- Spacing of the doubles around a positive rational: 53 significant bits,
exponent not below `-1022` (subnormals share the spacing `2 ^ (-1074)`). -/
def quantum (q : ℚ) : ℚ := pow2 (max (ilog2 q) (-1022) - 52)

/-- Round a positive rational to the nearest double, ties to even; a result of
`2 ^ 1024` or more is an overflow. -/
def roundPos (q : ℚ) : JSNum :=
  if pow2 1024 ≤ (roundHalfEven (q / quantum q) : ℚ) * quantum q then JSNum.pinf
  else JSNum.fin ((roundHalfEven (q / quantum q) : ℚ) * quantum q)

/-- Negation of a JavaScript number. -/
def JSNum.neg : JSNum → JSNum
  | .fin q => .fin (-q)
  | .nan => .nan
  | .pinf => .ninf
  | .ninf => .pinf

/-- Round an exact rational result to the nearest double. -/
def roundDouble (q : ℚ) : JSNum :=
  if q = 0 then JSNum.fin 0
  else if 0 < q then roundPos q
  else (roundPos (-q)).neg

/-- The `+` of JavaScript on numbers. -/
def jsAdd : JSNum → JSNum → JSNum
  | .fin a, .fin b => roundDouble (a + b)
  | .nan, _ => .nan
  | _, .nan => .nan
  | .pinf, .ninf => .nan
  | .ninf, .pinf => .nan
  | .pinf, _ => .pinf
  | _, .pinf => .pinf
  | .ninf, _ => .ninf
  | _, .ninf => .ninf

/-- The `*` of JavaScript on numbers. -/
def jsMul : JSNum → JSNum → JSNum
  | .fin a, .fin b => roundDouble (a * b)
  | .nan, _ => .nan
  | _, .nan => .nan
  | .fin a, .pinf => if a = 0 then .nan else if 0 < a then .pinf else .ninf
  | .fin a, .ninf => if a = 0 then .nan else if 0 < a then .ninf else .pinf
  | .pinf, .fin b => if b = 0 then .nan else if 0 < b then .pinf else .ninf
  | .ninf, .fin b => if b = 0 then .nan else if 0 < b then .ninf else .pinf
  | .pinf, .pinf => .pinf
  | .ninf, .ninf => .pinf
  | .pinf, .ninf => .ninf
  | .ninf, .pinf => .ninf

/-- The `/` of JavaScript on numbers (a zero divisor is `+0`). -/
def jsDiv : JSNum → JSNum → JSNum
  | .nan, _ => .nan
  | _, .nan => .nan
  | .fin a, .fin b =>
      if b = 0 then (if a = 0 then .nan else if 0 < a then .pinf else .ninf)
      else roundDouble (a / b)
  | .fin _, .pinf => .fin 0
  | .fin _, .ninf => .fin 0
  | .pinf, .fin b => if 0 ≤ b then .pinf else .ninf
  | .ninf, .fin b => if 0 ≤ b then .ninf else .pinf
  | .pinf, .pinf => .nan
  | .pinf, .ninf => .nan
  | .ninf, .pinf => .nan
  | .ninf, .ninf => .nan

/-- The `>` of JavaScript on numbers (false whenever an operand is `NaN`). -/
def jsGt : JSNum → JSNum → Bool
  | .fin a, .fin b => decide (b < a)
  | .nan, _ => false
  | _, .nan => false
  | .pinf, .pinf => false
  | .pinf, _ => true
  | _, .pinf => false
  | .ninf, _ => false
  | .fin _, .ninf => true

/-- The sum of a sequence of doubles as JavaScript computes it: from `0`, left
to right, rounding after every addition. -/
def jsSum (xs : List ℚ) : JSNum :=
  xs.foldl (fun sum x => jsAdd sum (.fin x)) (.fin 0)

/-! ## Decimal rendering of numbers -/

/-- Decimal digits of a natural number, most significant first (`fuel` bounds
the number of digits). -/
def decimalDigitsFuel : ℕ → ℕ → List Char
  | 0, _ => []
  | fuel + 1, n =>
      if n < 10 then [Nat.digitChar n]
      else decimalDigitsFuel fuel (n / 10) ++ [Nat.digitChar (n % 10)]

/-- Decimal digits of a natural number, without leading zeros (`0` is `"0"`). -/
def decimalDigits (n : ℕ) : List Char := decimalDigitsFuel (n + 1) n

/-- Remove the zeros at the end of a digit list. -/
def stripTrailingZeros (ds : List Char) : List Char :=
  (ds.reverse.dropWhile (fun c => c == '0')).reverse

/-- Power of ten with an integer exponent, as a rational. -/
def pow10 (e : ℤ) : ℚ :=
  if 0 ≤ e then ((10 ^ e.toNat : ℕ) : ℚ) else 1 / ((10 ^ (-e).toNat : ℕ) : ℚ)

/-- For `0 < a < 1`: the least `j ≥ 1` with `1 ≤ a * 10 ^ j`, searched upward from `j`. -/
def leadingShiftFuel : ℕ → ℚ → ℕ → ℕ
  | 0, _, j => j
  | fuel + 1, a, j => if 1 ≤ a * (10 ^ j : ℕ) then j else leadingShiftFuel fuel a (j + 1)

/-- Decimal exponent of a positive rational: the `n` with `10 ^ (n - 1) ≤ a < 10 ^ n`. -/
def decimalExponent (a : ℚ) : ℤ :=
  if 1 ≤ a then ((decimalDigits ⌊a⌋.toNat).length : ℤ)
  else 1 - (leadingShiftFuel 400 a 1 : ℤ)

/-- The step of `Number::toString` that looks for a `k`-digit decimal
`s * 10 ^ (n - k)` that reads back as the double `a`: of the two `k`-digit
neighbours of `a` it returns the valid one closest to `a` (the even one on a
tie), as the pair of `s` and the exponent `n - k`. -/
def shortestCandidate (a : ℚ) (n : ℤ) (k : ℕ) : Option (ℕ × ℤ) :=
  let lo : ℕ := ⌊a / pow10 (n - k)⌋.toNat
  let okLo : Bool := decide (roundDouble (lo * pow10 (n - k)) = JSNum.fin a)
  let okHi : Bool := decide (roundDouble ((lo + 1 : ℕ) * pow10 (n - k)) = JSNum.fin a)
  let dLo : ℚ := a - lo * pow10 (n - k)
  let dHi : ℚ := (lo + 1 : ℕ) * pow10 (n - k) - a
  if okLo && okHi then
    (if dLo < dHi then some (lo, n - k)
     else if dHi < dLo then some (lo + 1, n - k)
     else if lo % 2 = 0 then some (lo, n - k) else some (lo + 1, n - k))
  else if okLo then some (lo, n - k)
  else if okHi then some (lo + 1, n - k)
  else none

/-- Search `k = k₀, k₀ + 1, …` for the shortest decimal that reads back as `a`. -/
def shortestSearch : ℕ → ℚ → ℤ → ℕ → Option (ℕ × ℤ)
  | 0, _, _, _ => none
  | fuel + 1, a, n, k =>
      match shortestCandidate a n k with
      | some r => some r
      | none => shortestSearch fuel a n (k + 1)

/-- The digits `s` (without trailing zeros) and the decimal exponent `n` that
`Number::toString` prints for a positive double `a`: `a` is printed as
`0.s × 10 ^ n`.  Seventeen digits always suffice for a double. -/
def shortestDecimal (a : ℚ) : List Char × ℤ :=
  match shortestSearch 17 a (decimalExponent a) 1 with
  | some (s, e) => (stripTrailingZeros (decimalDigits s), ((decimalDigits s).length : ℤ) + e)
  | none => (stripTrailingZeros (decimalDigits ⌊a / pow10 (decimalExponent a - 17) + 1 / 2⌋.toNat),
      decimalExponent a)

/-- Layout of `Number::toString` for the digits `ds` and decimal exponent `n`
of a positive number. -/
def layoutDecimal (ds : List Char) (n : ℤ) : List Char :=
  let k : ℤ := ds.length
  if k ≤ n ∧ n ≤ 21 then ds ++ List.replicate (n - k).toNat '0'
  else if 0 < n ∧ n ≤ 21 then ds.take n.toNat ++ '.' :: ds.drop n.toNat
  else if -6 < n ∧ n ≤ 0 then '0' :: '.' :: (List.replicate (-n).toNat '0' ++ ds)
  else
    let e : List Char :=
      'e' :: (if 0 ≤ n - 1 then '+' else '-') :: decimalDigits (n - 1).natAbs
    if ds.length = 1 then ds ++ e
    else ds.take 1 ++ '.' :: (ds.drop 1 ++ e)

/-- The string conversion of a number (`String(x)`, template literals). -/
def jsNumberToString : JSNum → String
  | .nan => "NaN"
  | .pinf => "Infinity"
  | .ninf => "-Infinity"
  | .fin q =>
      if q = 0 then "0"
      else if q < 0 then
        String.mk ('-' :: layoutDecimal (shortestDecimal (-q)).1 (shortestDecimal (-q)).2)
      else String.mk (layoutDecimal (shortestDecimal q).1 (shortestDecimal q).2)

/-- The rounding step of `Number.prototype.toFixed`: the integer `n` for which
`n / 10 ^ f` is closest to `a`, the larger one when two are equally close. -/
def toFixedInt (a : ℚ) (f : ℕ) : ℕ := ⌊a * (10 ^ f : ℕ) + 1 / 2⌋.toNat

/-- The digit layout of `Number.prototype.toFixed`: the digits of `n`, padded
with zeros on the left to `f + 1` digits, with a point before the last `f`. -/
def toFixedLayout (n f : ℕ) : List Char :=
  let m := decimalDigits n
  let m := if m.length ≤ f then List.replicate (f + 1 - m.length) '0' ++ m else m
  if f = 0 then m
  else m.take (m.length - f) ++ '.' :: m.drop (m.length - f)

/-- `Number.prototype.toFixed(f)`. -/
def jsToFixed (x : JSNum) (f : ℕ) : String :=
  match x with
  | .nan => "NaN"
  | .pinf => "Infinity"
  | .ninf => "-Infinity"
  | .fin q =>
      if 10 ^ 21 ≤ |q| then jsNumberToString (.fin q)
      else if q < 0 then String.mk ('-' :: toFixedLayout (toFixedInt (-q) f) f)
      else String.mk (toFixedLayout (toFixedInt q f) f)

/-! ## Metric aggregator (`calculateAggregatedMetrics`) -/

/-- Raw metrics of one platform, as supplied in the request body. -/
structure PlatformMetrics where
  spend : ℚ
  impressions : ℕ
  clicks : ℕ
  conversions : ℕ
  ctr : ℚ
  cpc : ℚ
  cpm : ℚ
  conversion_rate : ℚ
deriving DecidableEq, Repr

/-- The `analyticsData` object: its own entries in iteration order. -/
abbrev AnalyticsData := List (String × PlatformMetrics)

/-- `Object.values(analyticsData)`. -/
def objectValues (analyticsData : AnalyticsData) : List PlatformMetrics :=
  analyticsData.map Prod.snd

/-- One element of `platformBreakdown`: the platform name, the spread metrics
and the two share strings. -/
structure BreakdownRecord where
  platform : String
  metrics : PlatformMetrics
  shareOfSpend : String
  shareOfConversions : String
deriving DecidableEq, Repr

/-- Result of `calculateAggregatedMetrics`. -/
structure AggregatedMetrics where
  totalSpend : JSNum
  totalImpressions : JSNum
  totalClicks : JSNum
  totalConversions : JSNum
  overallCtr : String
  overallCpc : String
  overallConversionRate : String
  platformBreakdown : List BreakdownRecord
deriving DecidableEq, Repr

/-- `Object.values(analyticsData).reduce((sum, platform) => sum + platform.spend, 0)`. -/
def totalSpendOf (analyticsData : AnalyticsData) : JSNum :=
  (objectValues analyticsData).foldl (fun sum platform => jsAdd sum (.fin platform.spend)) (.fin 0)

/-- `Object.values(analyticsData).reduce((sum, platform) => sum + platform.impressions, 0)`. -/
def totalImpressionsOf (analyticsData : AnalyticsData) : JSNum :=
  (objectValues analyticsData).foldl
    (fun sum platform => jsAdd sum (.fin platform.impressions)) (.fin 0)

/-- `Object.values(analyticsData).reduce((sum, platform) => sum + platform.clicks, 0)`. -/
def totalClicksOf (analyticsData : AnalyticsData) : JSNum :=
  (objectValues analyticsData).foldl
    (fun sum platform => jsAdd sum (.fin platform.clicks)) (.fin 0)

/-- `Object.values(analyticsData).reduce((sum, platform) => sum + platform.conversions, 0)`. -/
def totalConversionsOf (analyticsData : AnalyticsData) : JSNum :=
  (objectValues analyticsData).foldl
    (fun sum platform => jsAdd sum (.fin platform.conversions)) (.fin 0)

/-- The number `(totalClicks / totalImpressions) * 100`. -/
def overallCtrValue (analyticsData : AnalyticsData) : JSNum :=
  jsMul (jsDiv (totalClicksOf analyticsData) (totalImpressionsOf analyticsData)) (.fin 100)

/-- The number `totalSpend / totalClicks`. -/
def overallCpcValue (analyticsData : AnalyticsData) : JSNum :=
  jsDiv (totalSpendOf analyticsData) (totalClicksOf analyticsData)

/-- The number `(totalConversions / totalClicks) * 100`. -/
def overallConversionRateValue (analyticsData : AnalyticsData) : JSNum :=
  jsMul (jsDiv (totalConversionsOf analyticsData) (totalClicksOf analyticsData)) (.fin 100)

/-- The number `(analyticsData[platform].spend / totalSpend) * 100`. -/
def shareOfSpendValue (totalSpend : JSNum) (metrics : PlatformMetrics) : JSNum :=
  jsMul (jsDiv (.fin metrics.spend) totalSpend) (.fin 100)

/-- The number `(analyticsData[platform].conversions / totalConversions) * 100`. -/
def shareOfConversionsValue (totalConversions : JSNum) (metrics : PlatformMetrics) : JSNum :=
  jsMul (jsDiv (.fin metrics.conversions) totalConversions) (.fin 100)

/-- The record that `platformBreakdown` holds for one entry. -/
def breakdownRecord (totalSpend : JSNum) (totalConversions : JSNum)
    (entry : String × PlatformMetrics) : BreakdownRecord :=
  { platform := entry.1
    metrics := entry.2
    shareOfSpend := jsToFixed (shareOfSpendValue totalSpend entry.2) 1
    shareOfConversions := jsToFixed (shareOfConversionsValue totalConversions entry.2) 1 }

/-- `calculateAggregatedMetrics(analyticsData)`.  `Object.keys(analyticsData).map`
with `analyticsData[platform]` visits every own entry once, in iteration order. -/
def calculateAggregatedMetrics (analyticsData : AnalyticsData) : AggregatedMetrics :=
  { totalSpend := totalSpendOf analyticsData
    totalImpressions := totalImpressionsOf analyticsData
    totalClicks := totalClicksOf analyticsData
    totalConversions := totalConversionsOf analyticsData
    overallCtr := jsToFixed (overallCtrValue analyticsData) 2
    overallCpc := jsToFixed (overallCpcValue analyticsData) 2
    overallConversionRate := jsToFixed (overallConversionRateValue analyticsData) 2
    platformBreakdown :=
      analyticsData.map
        (breakdownRecord (totalSpendOf analyticsData) (totalConversionsOf analyticsData)) }

/-! ## Rate limiter (`rateLimit`, `checkRateLimit`) -/

/-- The mutable fields of the module-level `rateLimit` object. -/
structure RateLimit where
  lastCall : ℤ
  callsThisMinute : ℕ
  resetTime : ℤ
deriving DecidableEq, Repr

/-- `rateLimit.minInterval`. -/
def minInterval : ℤ := 2000

/-- `rateLimit.maxCallsPerMinute`. -/
def maxCallsPerMinute : ℕ := 20

/-- The `rateLimit` object as the module creates it at load time `loadTime`. -/
def initialRateLimit (loadTime : ℤ) : RateLimit :=
  { lastCall := 0, callsThisMinute := 0, resetTime := loadTime + 60000 }

/-- The first step of `checkRateLimit`: reset the counter if a minute has passed. -/
def resetIfElapsed (rateLimit : RateLimit) (now : ℤ) : RateLimit :=
  if now > rateLimit.resetTime then
    { rateLimit with callsThisMinute := 0, resetTime := now + 60000 }
  else rateLimit

/-- Message of the error thrown at the window cap. -/
def capMessage : String := "Rate limit exceeded. Please try again in a minute."

/-- `Math.ceil(waitTime / 1000)` for an integer `waitTime`. -/
def waitSeconds (waitTime : ℤ) : ℤ := ⌈(waitTime : ℚ) / 1000⌉

/-- Decimal rendering of an integer inside a template literal. -/
def intToString (n : ℤ) : String :=
  if n < 0 then String.mk ('-' :: decimalDigits n.natAbs) else String.mk (decimalDigits n.natAbs)

/-- Message of the error thrown when the minimum spacing is violated. -/
def waitMessage (seconds : ℤ) : String :=
  "Please wait " ++ intToString seconds ++ " seconds before making another request."

/-- `checkRateLimit()` at clock reading `now`: the state it leaves behind, and
the message of the error it throws (`none` when it returns normally).  The
window reset is kept even when the call then throws. -/
def checkRateLimit (rateLimit : RateLimit) (now : ℤ) : RateLimit × Option String :=
  if (resetIfElapsed rateLimit now).callsThisMinute ≥ maxCallsPerMinute then
    (resetIfElapsed rateLimit now, some capMessage)
  else if now - (resetIfElapsed rateLimit now).lastCall < minInterval then
    (resetIfElapsed rateLimit now,
      some (waitMessage (waitSeconds (minInterval - (now - (resetIfElapsed rateLimit now).lastCall)))))
  else
    ({ resetIfElapsed rateLimit now with
        lastCall := now
        callsThisMinute := (resetIfElapsed rateLimit now).callsThisMinute + 1 }, none)

/-- Whether a `checkRateLimit` call returned normally. -/
def accepted (result : RateLimit × Option String) : Bool := result.2.isNone

/-- A sequence of `checkRateLimit` calls at the given clock readings: the final
state and, for each call in order, whether it was accepted. -/
def runCalls : RateLimit → List ℤ → RateLimit × List Bool
  | rateLimit, [] => (rateLimit, [])
  | rateLimit, now :: rest =>
      ((runCalls (checkRateLimit rateLimit now).1 rest).1,
        accepted (checkRateLimit rateLimit now) :: (runCalls (checkRateLimit rateLimit now).1 rest).2)

/-- Clock readings of the accepted calls of a sequence of `checkRateLimit` calls. -/
def acceptedTimes : RateLimit → List ℤ → List ℤ
  | _, [] => []
  | rateLimit, now :: rest =>
      if accepted (checkRateLimit rateLimit now) then
        now :: acceptedTimes (checkRateLimit rateLimit now).1 rest
      else acceptedTimes (checkRateLimit rateLimit now).1 rest

/-- Number of accepted calls of a sequence whose clock reading lies in the
interval of length 60 s that starts at `start`. -/
def acceptedWithinMinute (rateLimit : RateLimit) (times : List ℤ) (start : ℤ) : ℕ :=
  ((acceptedTimes rateLimit times).filter (fun t => decide (start ≤ t ∧ t < start + 60000))).length

/-! ## More of the JavaScript number library -/

/-- The double that a decimal literal of the request body denotes (`JSON.parse`
rounds the written value to the nearest double). -/
def jsonNumber (written : ℚ) : ℚ :=
  match roundDouble written with
  | .fin q => q
  | _ => 0

/-- Insert a comma before every group of three digits, counted from the right. -/
def groupThousands (ds : List Char) : List Char :=
  (ds.reverse.enum.foldl
    (fun acc ic => if ic.1 ≠ 0 ∧ ic.1 % 3 = 0 then ic.2 :: ',' :: acc else ic.2 :: acc) [])

/-- The three fraction digits of `n / 1000`, without the zeros at the end. -/
def fractionDigits3 (n : ℕ) : List Char :=
  stripTrailingZeros
    [Nat.digitChar (n % 1000 / 100), Nat.digitChar (n % 100 / 10), Nat.digitChar (n % 10)]

/-- Value of a decimal digit character. -/
def digitValue (c : Char) : ℕ := c.toNat - '0'.toNat

/-- Value of a string of decimal digits. -/
def digitsValue (ds : List Char) : ℕ := ds.foldl (fun acc c => acc * 10 + digitValue c) 0

/-- The decimal that the locale formatter rounds and prints for a double
`a ≥ 0`: the shortest decimal numeral that reads back as `a` (a whole number
below `2 ^ 53` is its own numeral).  The formatter of the runtime works on this
numeral, not on the binary value, so that `1.0005` is printed as `1.001`. -/
def shortestDecimalValue (a : ℚ) : ℚ :=
  if a.den = 1 ∧ a < 2 ^ 53 then a
  else (digitsValue (shortestDecimal a).1 : ℚ)
    * pow10 ((shortestDecimal a).2 - ((shortestDecimal a).1.length : ℤ))

/-- `Number.prototype.toLocaleString()` in the `en-US` locale with the default
options: grouping commas, at most three fraction digits, half rounded away from
zero. -/
def jsToLocaleString : JSNum → String
  | .nan => "NaN"
  | .pinf => "∞"
  | .ninf => "-∞"
  | .fin q =>
      String.mk
        ((if q < 0 then ['-'] else []) ++
          groupThousands (decimalDigits (toFixedInt (shortestDecimalValue |q|) 3 / 1000)) ++
          (if fractionDigits3 (toFixedInt (shortestDecimalValue |q|) 3) = [] then []
           else '.' :: fractionDigits3 (toFixedInt (shortestDecimalValue |q|) 3)))

/-- The regular-expression class `\d`. -/
def isDigit (c : Char) : Bool := decide ('0'.toNat ≤ c.toNat ∧ c.toNat ≤ '9'.toNat)

/-- White space that `parseFloat` skips at the start of its argument. -/
def isWhiteSpace (c : Char) : Bool :=
  c == ' ' || c == '\t' || c == '\n' || c == '\r' || c.toNat == 11 || c.toNat == 12 ||
    c.toNat == 160 || c.toNat == 65279 || c.toNat == 8232 || c.toNat == 8233

/-- The exponent part of a decimal literal (`e`, optional sign, digits): its
value, `0` when the text does not start with a complete exponent part. -/
def exponentPart : List Char → ℤ
  | c :: '+' :: rest =>
      if (c == 'e' || c == 'E') && !(rest.takeWhile isDigit).isEmpty
      then (digitsValue (rest.takeWhile isDigit) : ℤ) else 0
  | c :: '-' :: rest =>
      if (c == 'e' || c == 'E') && !(rest.takeWhile isDigit).isEmpty
      then -(digitsValue (rest.takeWhile isDigit) : ℤ) else 0
  | c :: rest =>
      if (c == 'e' || c == 'E') && !(rest.takeWhile isDigit).isEmpty
      then (digitsValue (rest.takeWhile isDigit) : ℤ) else 0
  | [] => 0

/-- The unsigned part of `parseFloat`: the longest prefix that is a decimal
literal (`Infinity`, or digits with an optional fraction and exponent). -/
def parseUnsigned (s : List Char) : JSNum :=
  if "Infinity".toList.isPrefixOf s then .pinf
  else
    let intDigits := s.takeWhile isDigit
    let rest := s.dropWhile isDigit
    match rest with
    | '.' :: afterPoint =>
        let fracDigits := afterPoint.takeWhile isDigit
        if intDigits.isEmpty && fracDigits.isEmpty then .nan
        else roundDouble ((digitsValue (intDigits ++ fracDigits) : ℚ)
          * pow10 (exponentPart (afterPoint.dropWhile isDigit) - fracDigits.length))
    | _ =>
        if intDigits.isEmpty then .nan
        else roundDouble ((digitsValue intDigits : ℚ) * pow10 (exponentPart rest))

/-- `parseFloat(s)`. -/
def jsParseFloat (s : String) : JSNum :=
  match s.toList.dropWhile isWhiteSpace with
  | '-' :: rest => (parseUnsigned rest).neg
  | '+' :: rest => parseUnsigned rest
  | rest => parseUnsigned rest

/-- First match of a regular expression of the shape `literal([class]+)` or
`literal([class]+)follow`, where `follow` is a character outside the class:
the capture group of the leftmost match.  The group is greedy, and giving
characters back cannot help because the character after a shorter run is in
the class, so at each start position the only candidate is the maximal run. -/
def regexCapture (literal : List Char) (cls : Char → Bool) (follow : Option Char) :
    List Char → Option (List Char)
  | [] => none
  | c :: rest =>
      if literal.isPrefixOf (c :: rest)
          && !(((c :: rest).drop literal.length).takeWhile cls).isEmpty
          && (match follow with
              | none => true
              | some f =>
                  (((c :: rest).drop literal.length).dropWhile cls).head? == some f) then
        some (((c :: rest).drop literal.length).takeWhile cls)
      else regexCapture literal cls follow rest

/-- `str.replace(/,/g, "")`. -/
def removeCommas (s : List Char) : List Char := s.filter (fun c => c != ',')

/-! ## JSON values and objects -/

/-- A JavaScript value of the kind `JSON.parse` produces. -/
inductive Json where
  | null
  | bool (b : Bool)
  | num (x : JSNum)
  | str (s : String)
  | arr (items : List Json)
  | obj (fields : List (String × Json))

/-- Assignment `o[key] = value` on the own properties of an object: an existing
property keeps its position, a new one is added at the end. -/
def setField (key : String) (value : Json) : List (String × Json) → List (String × Json)
  | [] => [(key, value)]
  | (k, v) :: rest =>
      if k = key then (k, value) :: rest else (k, v) :: setField key value rest

/-- Property read `o[key]` on own properties (`none` is `undefined`). -/
def getField (key : String) : List (String × Json) → Option Json
  | [] => none
  | (k, v) :: rest => if k = key then some v else getField key rest

/-- The own enumerable properties that a spread `...value` copies. -/
def spreadFields : Json → List (String × Json)
  | .obj fields => fields
  | .arr items => items.enum.map (fun iv => (String.mk (decimalDigits iv.1), iv.2))
  | .str s => s.toList.enum.map (fun ic => (String.mk (decimalDigits ic.1), Json.str (String.mk [ic.2])))
  | _ => []

/-- An object literal `{ ...fields, ...more }`: later properties overwrite.
(JavaScript lists integer-like keys first; no property here observes the order.) -/
def mergeFields (fields more : List (String × Json)) : List (String × Json) :=
  more.foldl (fun acc kv => setField kv.1 kv.2 acc) fields

/-- Truthiness of a value. -/
def truthy : Json → Bool
  | .null => false
  | .bool b => b
  | .num (.fin q) => decide (q ≠ 0)
  | .num .nan => false
  | .num _ => true
  | .str s => decide (s ≠ "")
  | .arr _ => true
  | .obj _ => true

/-- Whether an object value has an own property of the given name. -/
def hasField (key : String) : Json → Bool
  | .obj fields => (getField key fields).isSome
  | _ => false

/-! ## Deterministic analysis generator (`generateStructuredAnalysis`) -/

/-- An element of `insights`. -/
structure Insight where
  insightType : String
  title : String
  description : String
  impact : String
  recommendation : String
deriving DecidableEq, Repr

/-- An element of `recommendations`. -/
structure Recommendation where
  priority : String
  category : String
  title : String
  description : String
  expectedImpact : String
  implementation : String
deriving DecidableEq, Repr

/-- An element of `trends`. -/
structure Trend where
  metric : String
  trend : String
  change : String
  period : String
  insight : String
deriving DecidableEq, Repr

/-- The object that `generateStructuredAnalysis` returns. -/
structure Analysis where
  source : String
  insights : List Insight
  recommendations : List Recommendation
  trends : List Trend
deriving DecidableEq, Repr

/-- `prompt.match(/Total Spend: \$([\d,]+)/)`, then
`parseFloat(dataMatch[1].replace(/,/g, ""))`, with the default `28890`. -/
def extractTotalSpend (prompt : String) : JSNum :=
  match regexCapture "Total Spend: $".toList (fun c => isDigit c || c == ',') none prompt.toList with
  | some group => jsParseFloat (String.mk (removeCommas group))
  | none => .fin 28890

/-- `prompt.match(/Overall CTR: ([\d.]+)%/)`, then `parseFloat(ctrMatch[1])`,
with the default `1.15`. -/
def extractOverallCtr (prompt : String) : JSNum :=
  match regexCapture "Overall CTR: ".toList (fun c => isDigit c || c == '.') (some '%')
      prompt.toList with
  | some group => jsParseFloat (String.mk group)
  | none => .fin (jsonNumber (115 / 100))

/-- `prompt.match(/Overall Conversion Rate: ([\d.]+)%/)`, then
`parseFloat(conversionMatch[1])`, with the default `4.2`. -/
def extractOverallConversionRate (prompt : String) : JSNum :=
  match regexCapture "Overall Conversion Rate: ".toList (fun c => isDigit c || c == '.') (some '%')
      prompt.toList with
  | some group => jsParseFloat (String.mk group)
  | none => .fin (jsonNumber (42 / 10))

/-- The `insights` array of `generateStructuredAnalysis`. -/
def mockInsights (totalSpend overallConversionRate : JSNum) : List Insight :=
  [ { insightType := "performance"
      title :=
        if jsGt overallConversionRate (.fin 4) then "Strong Conversion Performance"
        else "Conversion Rate Optimization Needed"
      description :=
        if jsGt overallConversionRate (.fin 4) then
          "Your overall conversion rate of " ++ jsNumberToString overallConversionRate ++
            "% is above industry average (2.5%). This indicates effective targeting and compelling ad messaging."
        else
          "Your conversion rate of " ++ jsNumberToString overallConversionRate ++
            "% is below industry average. Focus on improving landing page experience and ad relevance."
      impact := if jsGt overallConversionRate (.fin 4) then "positive" else "warning"
      recommendation :=
        if jsGt overallConversionRate (.fin 4) then
          "Consider increasing budget allocation to high-converting campaigns and expanding to similar audience segments."
        else "Implement A/B testing for landing pages and review ad targeting parameters." },
    { insightType := "cost"
      title := "Cost Efficiency Analysis"
      description :=
        "Total spend of $" ++ jsToLocaleString totalSpend ++
          " across platforms. Monitor cost per acquisition trends and optimize underperforming campaigns."
      impact := "warning"
      recommendation :=
        "Review bidding strategies and consider automated bidding for better cost efficiency." },
    { insightType := "reach"
      title := "Cross-Platform Performance"
      description :=
        "Multi-platform approach shows good reach distribution. Each platform contributes to overall campaign success."
      impact := "positive"
      recommendation :=
        "Maintain diversified platform strategy while optimizing individual platform performance." } ]

/-- The `recommendations` array of `generateStructuredAnalysis`. -/
def mockRecommendations : List Recommendation :=
  [ { priority := "high"
      category := "budget_optimization"
      title := "Reallocate Budget to High-Performing Campaigns"
      description :=
        "Identify top-performing campaigns and increase their budget allocation by 20-30%."
      expectedImpact := "Increase overall conversion rate by 0.3-0.5%"
      implementation := "Review campaign performance data and adjust daily budgets accordingly" },
    { priority := "medium"
      category := "creative_optimization"
      title := "Optimize Ad Creatives and Messaging"
      description := "Test new creative formats and messaging to improve engagement rates."
      expectedImpact := "Improve CTR by 0.2-0.3%"
      implementation := "Create A/B tests with new ad creatives and copy variations" },
    { priority := "low"
      category := "audience_expansion"
      title := "Explore New Audience Segments"
      description := "Use lookalike audiences and similar targeting to expand reach."
      expectedImpact := "Increase qualified leads by 15-20%"
      implementation := "Create lookalike audiences based on existing converters" } ]

/-- The `trends` array of `generateStructuredAnalysis`. -/
def mockTrends (overallConversionRate : JSNum) : List Trend :=
  [ { metric := "Conversion Rate"
      trend := if jsGt overallConversionRate (.fin 4) then "up" else "down"
      change := if jsGt overallConversionRate (.fin 4) then "+0.8%" else "-0.3%"
      period := "vs last period"
      insight :=
        if jsGt overallConversionRate (.fin 4) then "Improved targeting and messaging"
        else "Need to optimize landing pages" },
    { metric := "Cost per Click"
      trend := "down"
      change := "-0.3%"
      period := "vs last period"
      insight := "Improved bidding efficiency" },
    { metric := "Total Spend"
      trend := "up"
      change := "+12.5%"
      period := "vs last period"
      insight := "Increased campaign activity" } ]

/-- `generateStructuredAnalysis(prompt)`.  (`overallCtr` is extracted by the
source but not used afterwards.) -/
def generateStructuredAnalysis (prompt : String) : Analysis :=
  { source := "mock"
    insights := mockInsights (extractTotalSpend prompt) (extractOverallConversionRate prompt)
    recommendations := mockRecommendations
    trends := mockTrends (extractOverallConversionRate prompt) }

/-- An insight as a JavaScript object. -/
def Insight.toJson (i : Insight) : Json :=
  .obj [("type", .str i.insightType), ("title", .str i.title), ("description", .str i.description),
    ("impact", .str i.impact), ("recommendation", .str i.recommendation)]

/-- A recommendation as a JavaScript object. -/
def Recommendation.toJson (r : Recommendation) : Json :=
  .obj [("priority", .str r.priority), ("category", .str r.category), ("title", .str r.title),
    ("description", .str r.description), ("expectedImpact", .str r.expectedImpact),
    ("implementation", .str r.implementation)]

/-- A trend as a JavaScript object. -/
def Trend.toJson (t : Trend) : Json :=
  .obj [("metric", .str t.metric), ("trend", .str t.trend), ("change", .str t.change),
    ("period", .str t.period), ("insight", .str t.insight)]

/-- The returned object `{ source, insights, recommendations, trends }`. -/
def Analysis.toJson (a : Analysis) : Json :=
  .obj [("source", .str a.source),
    ("insights", .arr (a.insights.map Insight.toJson)),
    ("recommendations", .arr (a.recommendations.map Recommendation.toJson)),
    ("trends", .arr (a.trends.map Trend.toJson))]

/-! ## Prompt builder (`generateAnalysisPrompt`) -/

/-- `Array.prototype.join(separator)` on strings. -/
def joinWith (separator : String) : List String → String
  | [] => ""
  | [s] => s
  | s :: rest => s ++ separator ++ joinWith separator rest

/-- `String.prototype.toUpperCase()` for names written in ASCII: the letters
`a` to `z` are mapped to capitals.  Characters outside ASCII are left as they
are here, whereas the library also maps those that have a capital form. -/
def toUpperCase (s : String) : String := String.mk (s.toList.map Char.toUpper)

/-- The paragraph that the prompt holds for one platform entry. -/
def platformParagraph (entry : String × PlatformMetrics) : String :=
  "\n" ++
  toUpperCase entry.1 ++
  ":\n- Spend: $" ++
  jsToLocaleString (.fin entry.2.spend) ++
  "\n- Impressions: " ++
  jsToLocaleString (.fin entry.2.impressions) ++
  "\n- Clicks: " ++
  jsToLocaleString (.fin entry.2.clicks) ++
  "\n- Conversions: " ++
  jsNumberToString (.fin entry.2.conversions) ++
  "\n- CTR: " ++
  jsNumberToString (.fin entry.2.ctr) ++
  "%\n- CPC: $" ++
  jsNumberToString (.fin entry.2.cpc) ++
  "\n- CPM: $" ++
  jsNumberToString (.fin entry.2.cpm) ++
  "\n- Conversion Rate: " ++
  jsNumberToString (.fin entry.2.conversion_rate) ++
  "%\n"

/-- `generateAnalysisPrompt(platforms, timeframe, analyticsData, aggregatedData)`. -/
def generateAnalysisPrompt (platforms : List String) (timeframe : String)
    (analyticsData : AnalyticsData) (aggregatedData : AggregatedMetrics) : String :=
  "You are an expert digital advertising analyst. Analyze the following advertising " ++
  "data and provide professional insights and recommendations.\n\nCONTEXT:\n" ++
  "- Timeframe: " ++
  timeframe ++
  "\n- Platforms: " ++
  joinWith ", " platforms ++
  "\n- Total Spend: $" ++
  jsToLocaleString aggregatedData.totalSpend ++
  "\n- Total Impressions: " ++
  jsToLocaleString aggregatedData.totalImpressions ++
  "\n- Total Clicks: " ++
  jsToLocaleString aggregatedData.totalClicks ++
  "\n- Total Conversions: " ++
  jsNumberToString aggregatedData.totalConversions ++
  "\n- Overall CTR: " ++
  aggregatedData.overallCtr ++
  "%\n- Overall CPC: $" ++
  aggregatedData.overallCpc ++
  "\n- Overall Conversion Rate: " ++
  aggregatedData.overallConversionRate ++
  "%\n\nPLATFORM DATA:\n" ++
  joinWith "\n" (analyticsData.map platformParagraph) ++
  "\n\nTASK:\nProvide a comprehensive analysis including:\n1. Key Performance " ++
  "Insights (3-4 insights with positive/warning/negative impact indicators)\n" ++
  "2. Specific Recommendations (3-4 actionable recommendations with priority " ++
  "levels)\n3. Performance Trends (3 key metrics with trend analysis)\n4. " ++
  "Budget Optimization Suggestions\n5. Creative and Targeting Recommendations\n" ++
  "\nFormat the response as JSON with the following structure:\n\x7b\n  \"insights\": " ++
  "[\n    \x7b\n      \"type\": \"performance|cost|reach|conversion\",\n " ++
  "     \"title\": \"Insight Title\",\n      \"description\": \"Detailed " ++
  "description\",\n      \"impact\": \"positive|warning|negative\",\n    " ++
  "  \"recommendation\": \"Actionable recommendation\"\n    \x7d\n  ],\n " ++
  " \"recommendations\": [\n    \x7b\n      \"priority\": \"high|medium|low\",\n" ++
  "      \"category\": \"budget_optimization|creative_optimization|audience_expansion|bidding_strategy\",\n" ++
  "      \"title\": \"Recommendation Title\",\n      \"description\": \"Detailed " ++
  "description\",\n      \"expectedImpact\": \"Expected outcome\",\n     " ++
  " \"implementation\": \"Implementation steps\"\n    \x7d\n  ],\n  \"trends\": " ++
  "[\n    \x7b\n      \"metric\": \"Metric Name\",\n      \"trend\": \"up|down\",\n" ++
  "      \"change\": \"Change percentage\",\n      \"period\": \"Comparison " ++
  "period\",\n      \"insight\": \"Trend explanation\"\n    \x7d\n  ]\n\x7d\n" ++
  "\nFocus on actionable insights that can improve performance and ROI."

/-! ## Completion client (`callChatGPT`) -/

/-- What the request to the completion provider does, as far as `callChatGPT`
can tell: `axios.post` throws (with the status of the response when there was
one), reading `response.data.choices[0].message.content` throws, `JSON.parse`
throws, or `JSON.parse` returns a value. -/
inductive ApiOutcome where
  | requestFailed (status : Option ℕ)
  | unreadable
  | unparsable
  | parsed (value : Json)

/-- Everything outside the program that one `callChatGPT` invocation reads. -/
structure Environment where
  apiKey : Option String
  now : ℤ
  api : ApiOutcome

/-- `!openaiApiKey`: the variable is unset or empty. -/
def apiKeyMissing (env : Environment) : Bool :=
  match env.apiKey with
  | none => true
  | some key => decide (key = "")

/-- `mockResponse.source = "mock"`. -/
def withSourceMock : Json → Json
  | .obj fields => .obj (setField "source" (.str "mock") fields)
  | other => other

/-- `callChatGPT(prompt)`: the returned value and the rate-limiter state it
leaves behind.  The pacing delays (`setTimeout`) are not modelled. -/
def callChatGPT (env : Environment) (rateLimit : RateLimit) (prompt : String) :
    Json × RateLimit :=
  if apiKeyMissing env then ((generateStructuredAnalysis prompt).toJson, rateLimit)
  else
    match (checkRateLimit rateLimit env.now).2 with
    | some _ =>
        (withSourceMock (generateStructuredAnalysis prompt).toJson,
          (checkRateLimit rateLimit env.now).1)
    | none =>
        match env.api with
        | .parsed value => (value, (checkRateLimit rateLimit env.now).1)
        | .unparsable =>
            (withSourceMock (generateStructuredAnalysis prompt).toJson,
              (checkRateLimit rateLimit env.now).1)
        | .unreadable =>
            (withSourceMock (generateStructuredAnalysis prompt).toJson,
              (checkRateLimit rateLimit env.now).1)
        | .requestFailed _ =>
            (withSourceMock (generateStructuredAnalysis prompt).toJson,
              (checkRateLimit rateLimit env.now).1)

/-! ## Report assembler (`parseChatGPTResponse`) and the `/generate-report` handler -/

/-- The metrics of a platform as a JavaScript object. -/
def PlatformMetrics.toFields (m : PlatformMetrics) : List (String × Json) :=
  [("spend", .num (.fin m.spend)), ("impressions", .num (.fin m.impressions)),
    ("clicks", .num (.fin m.clicks)), ("conversions", .num (.fin m.conversions)),
    ("ctr", .num (.fin m.ctr)), ("cpc", .num (.fin m.cpc)), ("cpm", .num (.fin m.cpm)),
    ("conversion_rate", .num (.fin m.conversion_rate))]

/-- A breakdown record as a JavaScript object:
`{ platform, ...analyticsData[platform], shareOfSpend, shareOfConversions }`. -/
def BreakdownRecord.toJson (r : BreakdownRecord) : Json :=
  .obj (mergeFields (mergeFields [("platform", .str r.platform)] r.metrics.toFields)
    [("shareOfSpend", .str r.shareOfSpend), ("shareOfConversions", .str r.shareOfConversions)])

/-- The aggregated metrics as a JavaScript object. -/
def AggregatedMetrics.toJson (a : AggregatedMetrics) : Json :=
  .obj [("totalSpend", .num a.totalSpend), ("totalImpressions", .num a.totalImpressions),
    ("totalClicks", .num a.totalClicks),
    ("totalConversions", .num a.totalConversions),
    ("overallCtr", .str a.overallCtr), ("overallCpc", .str a.overallCpc),
    ("overallConversionRate", .str a.overallConversionRate),
    ("platformBreakdown", .arr (a.platformBreakdown.map BreakdownRecord.toJson))]

/-- `parseChatGPTResponse(response, aggregatedData, platforms, timeframe)` at the
clock reading `now`, whose ISO-8601 rendering is `isoTimestamp`. -/
def parseChatGPTResponse (now : ℤ) (isoTimestamp : String) (response : Json)
    (aggregatedData : AggregatedMetrics) (platforms : List String) (timeframe : String) :
    List (String × Json) :=
  mergeFields
    [("id", .num (.fin now)), ("timestamp", .str isoTimestamp), ("timeframe", .str timeframe),
      ("platforms", .arr (platforms.map Json.str)), ("summary", aggregatedData.toJson)]
    (spreadFields response)

/-- The property read `chatGPTResponse.source`: `none` when the read throws
(`null` has no properties), `some none` when the result is `undefined`. -/
def readSource : Json → Option (Option Json)
  | .null => none
  | .obj fields => some (getField "source" fields)
  | _ => some none

/-- `chatGPTResponse.source || "openai"`, given the result of the property read. -/
def sourceOrOpenai : Option Json → Json
  | some value => if truthy value then value else .str "openai"
  | none => .str "openai"

/-- What the handler sends: a JSON body with status 200, or an error status. -/
inductive Response where
  | ok (body : Json)
  | error (status : ℕ) (message : String)

/-- The body of the `POST /generate-report` handler after validation: the
response and the rate-limiter state it leaves behind.  `reportTime` and
`isoTimestamp` are the clock readings of `parseChatGPTResponse`. -/
def generateReport (env : Environment) (reportTime : ℤ) (isoTimestamp : String)
    (rateLimit : RateLimit) (platforms : List String) (timeframe : String)
    (analyticsData : AnalyticsData) : Response × RateLimit :=
  let aggregatedData := calculateAggregatedMetrics analyticsData
  let prompt := generateAnalysisPrompt platforms timeframe analyticsData aggregatedData
  let chatGPTResponse := callChatGPT env rateLimit prompt
  let aiReport :=
    parseChatGPTResponse reportTime isoTimestamp chatGPTResponse.1 aggregatedData platforms timeframe
  match readSource chatGPTResponse.1 with
  | none => (.error 500 "Failed to generate AI report", chatGPTResponse.2)
  | some source => (.ok (.obj (setField "source" (sourceOrOpenai source) aiReport)), chatGPTResponse.2)

/-! ## Reading a report -/

/-- The body of a successful response. -/
def Response.body? : Response → Option Json
  | .ok body => some body
  | .error _ _ => none

/-- The property `key` of an object value. -/
def Json.field? (key : String) : Json → Option Json
  | .obj fields => getField key fields
  | _ => none

/-- The string that a value is, if it is one. -/
def Json.string? : Json → Option String
  | .str s => some s
  | _ => none

/-- The number that a value is, if it is one. -/
def Json.number? : Json → Option JSNum
  | .num x => some x
  | _ => none

/-- The length of an array value. -/
def Json.arrayLength? : Json → Option ℕ
  | .arr items => some items.length
  | _ => none

/-! ## The end-to-end scenario of the specification -/

/-- The request data of the end-to-end scenario: one platform, `facebook`. -/
def facebookScenario : AnalyticsData :=
  [("facebook",
    { spend := 12500, impressions := 600000, clicks := 7200, conversions := 290,
      ctr := jsonNumber (12 / 10), cpc := jsonNumber (174 / 100),
      cpm := jsonNumber (2083 / 100), conversion_rate := jsonNumber (403 / 100) })]

/-- An object with the four fields of a completion result. -/
def hasCompletionFields (value : Json) : Prop :=
  hasField "insights" value = true ∧ hasField "recommendations" value = true ∧
    hasField "trends" value = true ∧ hasField "source" value = true

/-! ## Reading decimal numerals -/

/-- The number written by an unsigned decimal numeral `digits` or `digits.digits`. -/
def unsignedWrittenNumber (s : List Char) : ℚ :=
  (digitsValue (s.takeWhile isDigit) : ℚ)
    + (digitsValue ((s.dropWhile isDigit).drop 1) : ℚ)
        / (10 ^ ((s.dropWhile isDigit).drop 1).length : ℕ)

/-- The number written by a decimal numeral with an optional minus sign. -/
def writtenNumber (s : String) : ℚ :=
  match s.toList with
  | '-' :: rest => -unsignedWrittenNumber rest
  | chars => unsignedWrittenNumber chars

/-- The decimal numeral with exactly two fraction digits of `n / 100`. -/
def twoDecimals (n : ℕ) : String :=
  String.mk (decimalDigits (n / 100) ++ ['.', Nat.digitChar (n / 10 % 10), Nat.digitChar (n % 10)])

/-- The decimal numeral with exactly one fraction digit of `n / 10`. -/
def oneDecimal (n : ℕ) : String :=
  String.mk (decimalDigits (n / 10) ++ ['.', Nat.digitChar (n % 10)])

/-! ## Sign of a number -/

/-- The number is not negative: a finite value `≥ 0`, `Infinity` or `NaN`. -/
def JSNum.notNegative : JSNum → Prop
  | .fin q => 0 ≤ q
  | .ninf => False
  | _ => True

/-! ## Example requests -/

/-- One platform with 201 clicks out of 20000 impressions: a click-through
rate of exactly 1.005 %. -/
def tieScenario : AnalyticsData :=
  [("facebook",
    { spend := 12500, impressions := 20000, clicks := 201, conversions := 10,
      ctr := jsonNumber (1005 / 1000), cpc := jsonNumber (6219 / 100),
      cpm := 625, conversion_rate := jsonNumber (498 / 100) })]

/-- Metrics of a platform of which only the spend matters. -/
def spendOnly (spend : ℚ) : PlatformMetrics :=
  { spend := spend, impressions := 1000, clicks := 10, conversions := 1,
    ctr := 1, cpc := spend / 10, cpm := spend, conversion_rate := 10 }

/-- Three platforms that spent 0.1, 0.2 and 0.3. -/
def fractionalSpends : AnalyticsData :=
  [("facebook", spendOnly (jsonNumber (1 / 10))), ("google", spendOnly (jsonNumber (2 / 10))),
    ("tiktok", spendOnly (jsonNumber (3 / 10)))]

/-- Six platforms that spent 1 each. -/
def sixEqualSpends : AnalyticsData :=
  [("a", spendOnly 1), ("b", spendOnly 1), ("c", spendOnly 1), ("d", spendOnly 1),
    ("e", spendOnly 1), ("f", spendOnly 1)]

/-- Three platforms with whole-number spends. -/
def wholeSpends : AnalyticsData :=
  [("facebook", spendOnly 12500), ("google", spendOnly 8900), ("tiktok", spendOnly 7490)]

/-- Three platforms with whole-number spends whose impressions are `2 ^ 53`, 1
and 1. -/
def largeCounts : AnalyticsData :=
  [("facebook",
    { spend := 10, impressions := 2 ^ 53, clicks := 10, conversions := 1,
      ctr := 0, cpc := 1, cpm := 0, conversion_rate := 10 }),
   ("google",
    { spend := 10, impressions := 1, clicks := 10, conversions := 1,
      ctr := 1000, cpc := 1, cpm := 10000, conversion_rate := 10 }),
   ("tiktok",
    { spend := 10, impressions := 1, clicks := 10, conversions := 1,
      ctr := 1000, cpc := 1, cpm := 10000, conversion_rate := 10 })]

/-- The sum over all `platformBreakdown` records of `shareOfSpend`, each read
back as the number it writes. -/
def shareOfSpendSum (aggregated : AggregatedMetrics) : ℚ :=
  (aggregated.platformBreakdown.map (fun record => writtenNumber record.shareOfSpend)).sum

/-- One platform that spent `10 ^ 21` on a single click. -/
def hugeSpendScenario : AnalyticsData :=
  [("facebook",
    { spend := 10 ^ 21, impressions := 100, clicks := 1, conversions := 1,
      ctr := 1, cpc := 10 ^ 21, cpm := 10 ^ 22, conversion_rate := 100 })]

/-! ## Error bounds of double arithmetic -/

/-- Largest relative error of one rounding to a double: `2 ^ (-53)`. -/
def unitRoundoff : ℚ := 1 / 2 ^ 53

/-- Largest absolute error of one rounding in the subnormal range: `2 ^ (-1075)`. -/
def underflowUnit : ℚ := 1 / 2 ^ 1075

/-! ## Example inputs of the generator and the assembler -/

/-- A prompt whose conversion-rate marker reads exactly `4.0`. -/
def rateAtThresholdPrompt : String := "- Overall Conversion Rate: 4.0%\n"

/-- A prompt whose conversion-rate marker reads `4.01`. -/
def rateAboveThresholdPrompt : String := "- Overall Conversion Rate: 4.01%\n"

/-- A completion result that carries a `summary` field of its own. -/
def responseWithSummary : Json :=
  .obj [("insights", .arr []), ("recommendations", .arr []), ("trends", .arr []),
    ("summary", .str "written by the provider")]

/-- The fields that `parseChatGPTResponse` writes before it spreads the
completion result. -/
def assemblerFields (now : ℤ) (isoTimestamp : String) (aggregatedData : AggregatedMetrics)
    (platforms : List String) (timeframe : String) : List (String × Json) :=
  [("id", .num (.fin now)), ("timestamp", .str isoTimestamp), ("timeframe", .str timeframe),
    ("platforms", .arr (platforms.map Json.str)), ("summary", aggregatedData.toJson)]

/-- The last property of the given name in a list of properties that are
assigned one after the other. -/
def lastField (key : String) (fields : List (String × Json)) : Option Json :=
  getField key fields.reverse

/-- A configured key and a provider that answers the request with status 429. -/
def providerSays429 : Environment :=
  { apiKey := some "sk-test", now := 100000, api := .requestFailed (some 429) }

/-- Title and impact of the first insight. -/
def firstInsightHeading (a : Analysis) : Option (String × String) :=
  a.insights.head?.map (fun insight => (insight.title, insight.impact))

/-- Direction and change of the first trend. -/
def firstTrendChange (a : Analysis) : Option (String × String) :=
  a.trends.head?.map (fun trend => (trend.trend, trend.change))

/-- A prompt whose conversion-rate marker reads `5`. -/
def rateFivePrompt : String := "- Overall Conversion Rate: 5%\n"

/-- A prompt whose conversion-rate marker reads `6`. -/
def rateSixPrompt : String := "- Overall Conversion Rate: 6%\n"

/-- The analysis without the two texts that interpolate extracted numbers: the
descriptions of the first and of the second insight. -/
def Analysis.withoutInterpolatedText (a : Analysis) : Analysis :=
  { a with
    insights :=
      match a.insights with
      | first :: second :: rest =>
          { first with description := "" } :: { second with description := "" } :: rest
      | other => other }

/-- Two platforms, one of them without any click. -/
def oneIdlePlatform : AnalyticsData :=
  [("facebook",
    { spend := 100, impressions := 1000, clicks := 0, conversions := 0,
      ctr := 0, cpc := 0, cpm := 100, conversion_rate := 0 }),
   ("google",
    { spend := 50, impressions := 1000, clicks := 10, conversions := 1,
      ctr := 1, cpc := 5, cpm := 50, conversion_rate := 10 })]

/-- One platform without any click. -/
def noClicksAtAll : AnalyticsData :=
  [("facebook",
    { spend := 100, impressions := 1000, clicks := 0, conversions := 0,
      ctr := 0, cpc := 0, cpm := 100, conversion_rate := 0 })]

/-- A configured key and a provider whose answer names its model in a `source`
field. -/
def providerNamesItself : Environment :=
  { apiKey := some "sk-test", now := 100000,
    api := .parsed (.obj [("insights", .arr []), ("recommendations", .arr []),
      ("trends", .arr []), ("source", .str "gpt-3.5-turbo")]) }

/-- No key configured. -/
def noKeyConfigured : Environment :=
  { apiKey := none, now := 100000, api := .requestFailed none }

/-- The `source` field of the report that the handler sends. -/
def reportSource (response : Response) : Option Json :=
  response.body?.bind (Json.field? "source")

/-! ## Markers in a prompt -/

/-- The text holds a marker: `literal`, then a non-empty run of characters of
the class `cls`, then (when a closing character is given) that character. -/
def hasMarker (literal : List Char) (cls : Char → Bool) (closing : Option Char)
    (text : List Char) : Prop :=
  ∃ before run after, text = before ++ literal ++ run ++ after ∧ run ≠ [] ∧
    (∀ c ∈ run, cls c = true) ∧ ∀ f, closing = some f → after.head? = some f

/-- A prompt without any digit in which `Total Spend: $` is followed by a comma
and `Overall Conversion Rate: ` by a point. -/
def digitlessPrompt : String := "- Total Spend: $,\n- Overall Conversion Rate: .%\n"

/-- A prompt with a click-through-rate marker only. -/
def ctrOnlyPrompt : String := "- Overall CTR: 2.5%\n"

/-! ## Reading the rendered prompt back -/

/-- The end-to-end scenario with a spend of 12500.5 instead of 12500. -/
def halfDollarScenario : AnalyticsData :=
  [("facebook",
    { spend := 25001 / 2, impressions := 600000, clicks := 7200, conversions := 290,
      ctr := jsonNumber (12 / 10), cpc := jsonNumber (174 / 100),
      cpm := jsonNumber (2083 / 100), conversion_rate := jsonNumber (403 / 100) })]

/-- The prompt that the handler renders for a request. -/
def renderedPrompt (platforms : List String) (timeframe : String)
    (analyticsData : AnalyticsData) : String :=
  generateAnalysisPrompt platforms timeframe analyticsData
    (calculateAggregatedMetrics analyticsData)

/-- The two texts differ at a position that both of them have. -/
def differsFrom : List Char → List Char → Bool
  | a :: as, b :: bs => a != b || differsFrom as bs
  | _, _ => false

/-- At no position of `text` does a text begin that agrees with `literal` as
far as both go: wherever `text` is put, no occurrence of `literal` starts
inside it. -/
def noStartOf (literal : List Char) : List Char → Bool
  | [] => true
  | c :: rest => differsFrom literal (c :: rest) && noStartOf literal rest

/-- `text.includes(literal)`. -/
def containsText (literal : List Char) : List Char → Bool
  | [] => literal.isEmpty
  | c :: rest => literal.isPrefixOf (c :: rest) || containsText literal rest

/-- The three literal texts that the patterns of the generator begin with. -/
def markerTexts : List (List Char) :=
  ["Total Spend: $".toList, "Overall CTR: ".toList, "Overall Conversion Rate: ".toList]

/-- A character with which none of the marker texts begins. -/
def plainChar (c : Char) : Bool := c != 'T' && c != 'O'

/-- The text of the prompt before the timeframe. -/
def promptOpening : String :=
  "You are an expert digital advertising analyst. Analyze the following advertising " ++
  "data and provide professional insights and recommendations.\n\nCONTEXT:\n" ++
  "- Timeframe: "

/-! ## Example states of the rate limiter -/

/-- A window that is full, with the last call 500 ms before the clock reading
1500. -/
def fullWindowState : RateLimit :=
  { lastCall := 1000, callsThisMinute := 20, resetTime := 60000 }

/-- A window with three calls, the last of them at clock reading 1000. -/
def threeCallsState : RateLimit :=
  { lastCall := 1000, callsThisMinute := 3, resetTime := 60000 }

/-! ## Enumerations of the data model -/

/-- The values of `type` of an insight. -/
def insightTypes : List String := ["performance", "cost", "reach", "conversion"]

/-- The values of `impact` of an insight. -/
def impactValues : List String := ["positive", "warning", "negative"]

/-- The values of `priority` of a recommendation. -/
def priorityValues : List String := ["high", "medium", "low"]

/-- The values of `category` of a recommendation. -/
def categoryValues : List String :=
  ["budget_optimization", "creative_optimization", "audience_expansion", "bidding_strategy"]

/-- The values of `trend` of a trend. -/
def trendValues : List String := ["up", "down"]

/-! ## Subscription guard (`requireSubscription`, `middleware/auth.js`) -/

/-- `Array.prototype.indexOf` on strings, searched from position `start`: the
position of the first element equal to the value, `-1` when there is none. -/
def indexOfFrom : List String → String → ℕ → ℤ
  | [], _, _ => -1
  | item :: rest, value, start =>
      if item = value then (start : ℤ) else indexOfFrom rest value (start + 1)

/-- `items.indexOf(value)`. -/
def jsIndexOf (items : List String) (value : String) : ℤ := indexOfFrom items value 0

/-- `subscriptionPlans`, lowest plan first. -/
def subscriptionPlans : List String := ["free", "basic", "pro", "enterprise"]

/-- What the guard reads of `req.user`: `user.subscription.plan`. -/
structure AuthUser where
  plan : String
deriving DecidableEq, Repr

/-- What a middleware does with a request: it calls `next()`, or it responds
with a status and an error message. -/
inductive GuardOutcome where
  | next
  | respond (status : ℕ) (error : String)
deriving DecidableEq, Repr

/-- `requireSubscription(plan)` applied to a request whose `req.user` is `user`
(`none` when no user is attached to the request). -/
def requireSubscription (plan : String) (user : Option AuthUser) : GuardOutcome :=
  match user with
  | none => .respond 401 "Authentication required."
  | some u =>
      if jsIndexOf subscriptionPlans u.plan < jsIndexOf subscriptionPlans plan then
        .respond 403 ("This feature requires a " ++ plan ++ " subscription or higher.")
      else .next

/-- The routes of `routes/ai.js` with the plan that each of them requires. -/
def aiRoutes : List (String × String) :=
  [("/generate-report", "basic"), ("/platform-insights", "basic"),
    ("/optimization-recommendations", "basic")]

/-- Rank of a plan in the order free < basic < pro < enterprise. -/
def planRank : String → Option ℕ
  | "free" => some 0
  | "basic" => some 1
  | "pro" => some 2
  | "enterprise" => some 3
  | _ => none

/-- The plan of the user is the required plan or a higher one in the order. -/
def planAtLeast (userPlan required : String) : Prop :=
  ∃ a b, planRank userPlan = some a ∧ planRank required = some b ∧ b ≤ a

/-! ## JSON output of a user (`userSchema.methods.toJSON`, `models/User.js`) -/

/-- `delete o[key]` on the own properties of a plain object. -/
def deleteField (key : String) (fields : List (String × Json)) : List (String × Json) :=
  fields.filter (fun kv => kv.1 != key)

/-- `userSchema.methods.toJSON`, given the plain object that `this.toObject()`
returns for the document. -/
def userToJSON (plainObject : List (String × Json)) : List (String × Json) :=
  deleteField "password" plainObject

/-- The plain object of a user document with a password hash. -/
def sampleUserObject : List (String × Json) :=
  [("email", .str "ada@example.com"), ("password", .str "$2a$12$hash"),
    ("firstName", .str "Ada"), ("lastName", .str "Lovelace"),
    ("subscription", .obj [("plan", .str "free"), ("status", .str "active")]),
    ("isActive", .bool true)]

/-! ## Platform analytics (`GET /platform/:platform`, `routes/analytics.js`) -/

/-- A campaign of the mock data. -/
def mockCampaign (id name : String) (spend impressions clicks conversions : ℕ) : Json :=
  .obj [("id", .str id), ("name", .str name), ("status", .str "active"),
    ("spend", .num (.fin spend)), ("impressions", .num (.fin impressions)),
    ("clicks", .num (.fin clicks)), ("conversions", .num (.fin conversions))]

/-- The own properties of the object literal `platformData`. -/
def platformData : List (String × Json) :=
  [("facebook",
      .obj [("spend", .num (.fin 12500)), ("impressions", .num (.fin 600000)),
        ("clicks", .num (.fin 7200)), ("conversions", .num (.fin 290)),
        ("ctr", .num (.fin (jsonNumber (12 / 10)))), ("cpc", .num (.fin (jsonNumber (174 / 100)))),
        ("cpm", .num (.fin (jsonNumber (2083 / 100)))),
        ("conversion_rate", .num (.fin (jsonNumber (403 / 100)))),
        ("campaigns", .arr [
          mockCampaign "fb_camp_001" "Summer Sale Campaign" 8500 400000 4800 192,
          mockCampaign "fb_camp_002" "Retargeting Campaign" 4000 200000 2400 98])]),
    ("google",
      .obj [("spend", .num (.fin 8900)), ("impressions", .num (.fin 450000)),
        ("clicks", .num (.fin 4800)), ("conversions", .num (.fin 190)),
        ("ctr", .num (.fin (jsonNumber (107 / 100)))), ("cpc", .num (.fin (jsonNumber (185 / 100)))),
        ("cpm", .num (.fin (jsonNumber (1978 / 100)))),
        ("conversion_rate", .num (.fin (jsonNumber (396 / 100)))),
        ("campaigns", .arr [
          mockCampaign "google_camp_001" "Brand Awareness" 6200 300000 3200 128,
          mockCampaign "google_camp_002" "Search Campaign" 2700 150000 1600 62])]),
    ("tiktok",
      .obj [("spend", .num (.fin 7490)), ("impressions", .num (.fin 200000)),
        ("clicks", .num (.fin 2500)), ("conversions", .num (.fin 100)),
        ("ctr", .num (.fin (jsonNumber (125 / 100)))), ("cpc", .num (.fin 3)),
        ("cpm", .num (.fin (jsonNumber (3745 / 100)))),
        ("conversion_rate", .num (.fin 4)),
        ("campaigns", .arr [
          mockCampaign "tiktok_camp_001" "Product Launch" 7490 200000 2500 100])])]

/-- The names of the properties that every plain object inherits from
`Object.prototype`. -/
def objectPrototypeNames : List String :=
  ["constructor", "__defineGetter__", "__defineSetter__", "hasOwnProperty",
    "__lookupGetter__", "__lookupSetter__", "isPrototypeOf", "propertyIsEnumerable",
    "toString", "valueOf", "__proto__", "toLocaleString"]

/-- The result of a property read on a plain object: an own property, a member
inherited from `Object.prototype` (a function, or for `__proto__` the prototype
object itself), or `undefined`. -/
inductive PropertyRead where
  | own (value : Json)
  | inherited (name : String)
  | undefined
deriving Inhabited

/-- `platformData[platform]`: own properties first, then the prototype. -/
def readPlatform (platform : String) : PropertyRead :=
  match getField platform platformData with
  | some value => .own value
  | none => if platform ∈ objectPrototypeNames then .inherited platform else .undefined

/-- The body that `res.json` sends for `{ success: true, data }` when `data` is
an inherited member: `JSON.stringify` leaves out a property whose value is a
function, and writes the prototype object as an empty object. -/
def inheritedBody (name : String) : Json :=
  if name = "__proto__" then .obj [("success", .bool true), ("data", .obj [])]
  else .obj [("success", .bool true)]

/-- The handler of `GET /platform/:platform` for an authenticated request:
status and body of the response.  Every inherited member is truthy, so `!data`
is true only for `undefined`. -/
def platformHandler (platform : String) : ℕ × Json :=
  match readPlatform platform with
  | .own value => (200, .obj [("success", .bool true), ("data", value)])
  | .inherited name => (200, inheritedBody name)
  | .undefined => (404, .obj [("success", .bool false), ("error", .str "Platform not found")])

/-! ## The end of the prompt -/

/-- The text of the prompt after the platform paragraphs. -/
def promptTask : String :=
  "\n\nTASK:\nProvide a comprehensive analysis including:\n1. Key Performance " ++
  "Insights (3-4 insights with positive/warning/negative impact indicators)\n" ++
  "2. Specific Recommendations (3-4 actionable recommendations with priority " ++
  "levels)\n3. Performance Trends (3 key metrics with trend analysis)\n4. " ++
  "Budget Optimization Suggestions\n5. Creative and Targeting Recommendations\n" ++
  "\nFormat the response as JSON with the following structure:\n\x7b\n  \"insights\": " ++
  "[\n    \x7b\n      \"type\": \"performance|cost|reach|conversion\",\n " ++
  "     \"title\": \"Insight Title\",\n      \"description\": \"Detailed " ++
  "description\",\n      \"impact\": \"positive|warning|negative\",\n    " ++
  "  \"recommendation\": \"Actionable recommendation\"\n    \x7d\n  ],\n " ++
  " \"recommendations\": [\n    \x7b\n      \"priority\": \"high|medium|low\",\n" ++
  "      \"category\": \"budget_optimization|creative_optimization|audience_expansion|bidding_strategy\",\n" ++
  "      \"title\": \"Recommendation Title\",\n      \"description\": \"Detailed " ++
  "description\",\n      \"expectedImpact\": \"Expected outcome\",\n     " ++
  " \"implementation\": \"Implementation steps\"\n    \x7d\n  ],\n  \"trends\": " ++
  "[\n    \x7b\n      \"metric\": \"Metric Name\",\n      \"trend\": \"up|down\",\n" ++
  "      \"change\": \"Change percentage\",\n      \"period\": \"Comparison " ++
  "period\",\n      \"insight\": \"Trend explanation\"\n    \x7d\n  ]\n\x7d\n" ++
  "\nFocus on actionable insights that can improve performance and ROI."

/-- The text can be skipped by the search for the pattern: wherever it stands,
the search finds in it no match and goes on behind it. -/
def skippable (literal : List Char) (cls : Char → Bool) (follow : Option Char)
    (text : List Char) : Prop :=
  ∀ tail, regexCapture literal cls follow (text ++ tail) = regexCapture literal cls follow tail

/-- A request without any click, with two conversions recorded. -/
def conversionsWithoutClicks : AnalyticsData :=
  [("facebook",
    { spend := 100, impressions := 1000, clicks := 0, conversions := 2,
      ctr := 0, cpc := 0, cpm := 100, conversion_rate := 0 })]

/-! ## The first marker of a prompt -/

/-- The occurrence of `literal` that follows `before` is the first occurrence
of `literal` in the text: the text goes on with `literal` after `before`, and
wherever else `literal` stands in the text, it stands further to the right. -/
def firstOccurrence (literal before text : List Char) : Prop :=
  (∃ tail, text = before ++ literal ++ tail) ∧
    ∀ before' tail', text = before' ++ literal ++ tail' → before.length ≤ before'.length

/-- A plain numeral: decimal digits, at least one, optionally followed by a
point and further digits. -/
def plainNumeral (run : List Char) : Prop :=
  ∃ ds fs, ds ≠ [] ∧ (∀ c ∈ ds, isDigit c = true) ∧ (∀ c ∈ fs, isDigit c = true) ∧
    (run = ds ∨ run = ds ++ '.' :: fs)

/-- A prompt with a total-spend marker only. -/
def spendOnlyPrompt : String := "- Total Spend: $12,500\n"


/-! # Properties -/

/-! ## Decimal digits -/

theorem decimalDigitsFuel_eq (fuel₁ fuel₂ n : ℕ) (h₁ : n < fuel₁) (h₂ : n < fuel₂) :
    decimalDigitsFuel fuel₁ n = decimalDigitsFuel fuel₂ n := by
  induction fuel₁ generalizing fuel₂ n with
  | zero => omega
  | succ f₁ ih =>
    cases fuel₂ with
    | zero => omega
    | succ f₂ =>
      simp only [decimalDigitsFuel]
      split_ifs with h
      · rfl
      · rw [ih f₂ (n / 10) (by omega) (by omega)]

theorem decimalDigits_of_lt (n : ℕ) (h : n < 10) : decimalDigits n = [Nat.digitChar n] := by
  simp [decimalDigits, decimalDigitsFuel, h]

theorem decimalDigits_of_ge (n : ℕ) (h : 10 ≤ n) :
    decimalDigits n = decimalDigits (n / 10) ++ [Nat.digitChar (n % 10)] := by
  have h' : ¬ n < 10 := by omega
  unfold decimalDigits
  rw [decimalDigitsFuel]
  simp only [h', if_false]
  rw [decimalDigitsFuel_eq n (n / 10 + 1) (n / 10) (by omega) (by omega)]

theorem decimalDigits_length_pos (n : ℕ) : 0 < (decimalDigits n).length := by
  by_cases h : n < 10
  · simp [decimalDigits_of_lt n h]
  · simp [decimalDigits_of_ge n (by omega)]

theorem toFixedLayout_two (n : ℕ) :
    String.mk (toFixedLayout n 2) = twoDecimals n := by
  unfold twoDecimals toFixedLayout
  congr 1
  by_cases h1 : n < 10
  · have h0 : n / 100 = 0 := by omega
    have h2 : n / 10 % 10 = 0 := by omega
    have h3 : n % 10 = n := by omega
    rw [h0, h2, h3, decimalDigits_of_lt n h1, decimalDigits_of_lt 0 (by omega)]
    simp
    rfl
  · by_cases h2 : n < 100
    · have h0 : n / 100 = 0 := by omega
      have h3 : n / 10 % 10 = n / 10 := by omega
      rw [h0, h3, decimalDigits_of_ge n (by omega), decimalDigits_of_lt (n / 10) (by omega),
        decimalDigits_of_lt 0 (by omega)]
      simp
      rfl
    · have e1 := decimalDigits_of_ge n (by omega)
      have e2 := decimalDigits_of_ge (n / 10) (by omega)
      have e3 : n / 10 / 10 = n / 100 := by omega
      rw [e3] at e2
      rw [e1, e2]
      have hpos := decimalDigits_length_pos (n / 100)
      have hlen : ¬ ((decimalDigits (n / 100) ++ [Nat.digitChar (n / 10 % 10)]
          ++ [Nat.digitChar (n % 10)]).length ≤ 2) := by
        simp only [List.length_append, List.length_singleton]; omega
      simp only [hlen, if_false]
      simp [List.take_append_eq_append_take, List.drop_append_eq_append_drop]

theorem toFixedLayout_one (n : ℕ) :
    String.mk (toFixedLayout n 1) = oneDecimal n := by
  unfold oneDecimal toFixedLayout
  congr 1
  by_cases h1 : n < 10
  · have h0 : n / 10 = 0 := by omega
    have h3 : n % 10 = n := by omega
    rw [h0, h3, decimalDigits_of_lt n h1, decimalDigits_of_lt 0 (by omega)]
    simp
    rfl
  · have e1 := decimalDigits_of_ge n (by omega)
    rw [e1]
    have hpos := decimalDigits_length_pos (n / 10)
    have hlen : ¬ ((decimalDigits (n / 10) ++ [Nat.digitChar (n % 10)]).length ≤ 1) := by
      simp only [List.length_append, List.length_singleton]; omega
    simp only [hlen, if_false]
    simp [List.take_append_eq_append_take, List.drop_append_eq_append_drop]

theorem digitValue_digitChar (k : ℕ) (h : k < 10) : digitValue (Nat.digitChar k) = k := by
  have : ∀ k < 10, digitValue (Nat.digitChar k) = k := by decide
  exact this k h

theorem isDigit_digitChar (k : ℕ) (h : k < 10) : isDigit (Nat.digitChar k) = true := by
  have : ∀ k < 10, isDigit (Nat.digitChar k) = true := by decide
  exact this k h

theorem decimalDigits_isDigit (n : ℕ) : ∀ c ∈ decimalDigits n, isDigit c = true := by
  induction n using Nat.strong_induction_on with
  | _ n ih =>
    by_cases h : n < 10
    · rw [decimalDigits_of_lt n h]
      intro c hc
      rw [List.mem_singleton] at hc
      rw [hc]
      exact isDigit_digitChar n h
    · rw [decimalDigits_of_ge n (by omega)]
      intro c hc
      rw [List.mem_append, List.mem_singleton] at hc
      rcases hc with hc | hc
      · exact ih (n / 10) (by omega) c hc
      · rw [hc]
        exact isDigit_digitChar (n % 10) (Nat.mod_lt _ (by omega))

theorem digitsValue_append_singleton (ds : List Char) (c : Char) :
    digitsValue (ds ++ [c]) = digitsValue ds * 10 + digitValue c := by
  simp [digitsValue, List.foldl_append]

theorem digitsValue_decimalDigits (n : ℕ) : digitsValue (decimalDigits n) = n := by
  induction n using Nat.strong_induction_on with
  | _ n ih =>
    by_cases h : n < 10
    · rw [decimalDigits_of_lt n h]
      simp [digitsValue, digitValue_digitChar n h]
    · rw [decimalDigits_of_ge n (by omega), digitsValue_append_singleton,
        ih (n / 10) (by omega), digitValue_digitChar (n % 10) (Nat.mod_lt _ (by omega))]
      omega

theorem decimalDigits_head_ne_minus (n : ℕ) (rest tail : List Char) :
    decimalDigits n ++ rest ≠ '-' :: tail := by
  intro h
  have hpos := decimalDigits_length_pos n
  cases hd : decimalDigits n with
  | nil => rw [hd] at hpos; simp at hpos
  | cons c cs =>
    rw [hd] at h
    have hc : isDigit c = true := decimalDigits_isDigit n c (by rw [hd]; simp)
    simp only [List.cons_append, List.cons.injEq] at h
    rw [h.1] at hc
    exact absurd hc (by decide)

theorem unsignedWrittenNumber_digits_point (n : ℕ) (frac : List Char) :
    unsignedWrittenNumber (decimalDigits n ++ '.' :: frac)
      = (n : ℚ) + (digitsValue frac : ℚ) / (10 ^ frac.length : ℕ) := by
  unfold unsignedWrittenNumber
  have hall : ∀ c ∈ decimalDigits n, isDigit c = true := decimalDigits_isDigit n
  have hdot : ¬ (isDigit '.' = true) := by decide
  rw [List.takeWhile_append_of_pos hall, List.dropWhile_append_of_pos hall,
    List.takeWhile_cons_of_neg hdot, List.dropWhile_cons_of_neg hdot]
  simp [digitsValue_decimalDigits]

theorem writtenNumber_mk_digits (n : ℕ) (frac : List Char) :
    writtenNumber (String.mk (decimalDigits n ++ '.' :: frac))
      = (n : ℚ) + (digitsValue frac : ℚ) / (10 ^ frac.length : ℕ) := by
  unfold writtenNumber
  split
  · next rest heq =>
    exact absurd heq (decimalDigits_head_ne_minus n _ rest)
  · exact unsignedWrittenNumber_digits_point n frac

/-- The numeral with one fraction digit of `n / 10` reads back as `n / 10`. -/
theorem writtenNumber_oneDecimal (n : ℕ) : writtenNumber (oneDecimal n) = (n : ℚ) / 10 := by
  unfold oneDecimal
  rw [writtenNumber_mk_digits]
  have h : digitsValue [Nat.digitChar (n % 10)] = n % 10 := by
    simp [digitsValue, digitValue_digitChar (n % 10) (Nat.mod_lt _ (by omega))]
  rw [h]
  have hn : (n : ℚ) = ((n / 10 : ℕ) : ℚ) * 10 + ((n % 10 : ℕ) : ℚ) := by
    have := Nat.div_add_mod n 10
    exact_mod_cast (by omega : n = n / 10 * 10 + n % 10)
  simp only [List.length_singleton, pow_one]
  rw [hn]
  push_cast
  ring

/-- The rounding step of `toFixed` picks the nearest multiple of `10 ^ (-f)`,
the larger one on a tie. -/
theorem toFixedInt_spec (x : ℚ) (f : ℕ) (h0 : 0 ≤ x) :
    (toFixedInt x f : ℚ) ≤ x * (10 ^ f : ℕ) + 1 / 2 ∧
      x * (10 ^ f : ℕ) + 1 / 2 < (toFixedInt x f : ℚ) + 1 := by
  unfold toFixedInt
  have hnn : (0 : ℤ) ≤ ⌊x * (10 ^ f : ℕ) + 1 / 2⌋ := Int.floor_nonneg.mpr (by positivity)
  have hcast : ((⌊x * (10 ^ f : ℕ) + 1 / 2⌋.toNat : ℕ) : ℚ)
      = ((⌊x * (10 ^ f : ℕ) + 1 / 2⌋ : ℤ) : ℚ) := by
    have := Int.toNat_of_nonneg hnn
    exact_mod_cast this
  rw [hcast]
  exact ⟨Int.floor_le _, Int.lt_floor_add_one _⟩

theorem jsToFixed_of_nonneg (x : ℚ) (f : ℕ) (h0 : 0 ≤ x) (h21 : x < 10 ^ 21) :
    jsToFixed (.fin x) f = String.mk (toFixedLayout (toFixedInt x f) f) := by
  have h1 : ¬ ((10 : ℚ) ^ 21 ≤ |x|) := by
    rw [abs_of_nonneg h0]; exact not_le.mpr h21
  have h2 : ¬ (x < 0) := not_lt.mpr h0
  simp [jsToFixed, h1, h2]

/-! ## Rounding to doubles -/

theorem pow2_eq_zpow (e : ℤ) : pow2 e = (2 : ℚ) ^ e := by
  unfold pow2
  split_ifs with h
  · have : e = (e.toNat : ℤ) := (Int.toNat_of_nonneg h).symm
    conv_rhs => rw [this]
    rw [zpow_natCast]
    push_cast
    rfl
  · have h' : 0 ≤ -e := by omega
    have : e = -((-e).toNat : ℤ) := by rw [Int.toNat_of_nonneg h']; ring
    conv_rhs => rw [this]
    rw [zpow_neg, zpow_natCast]
    push_cast
    rw [one_div]

theorem pow2_pos (e : ℤ) : 0 < pow2 e := by
  rw [pow2_eq_zpow]
  positivity

theorem pow2_natCast (k : ℕ) : pow2 (k : ℤ) = (2 : ℚ) ^ k := by
  rw [pow2_eq_zpow, zpow_natCast]

theorem bitLengthFuel_spec (fuel n : ℕ) (h : n ≤ fuel) (hn : 0 < n) :
    2 ^ (bitLengthFuel fuel n - 1) ≤ n ∧ n < 2 ^ bitLengthFuel fuel n ∧
      0 < bitLengthFuel fuel n := by
  induction fuel generalizing n with
  | zero => omega
  | succ f ih =>
    have hne : ¬ n = 0 := by omega
    simp only [bitLengthFuel, hne, if_false]
    by_cases h1 : n / 2 = 0
    · have hn1 : n = 1 := by omega
      subst hn1
      cases f with
      | zero => simp [bitLengthFuel]
      | succ f' => simp [bitLengthFuel]
    · obtain ⟨a, b, c⟩ := ih (n / 2) (by omega) (by omega)
      refine ⟨?_, ?_, by omega⟩
      · have e : bitLengthFuel f (n / 2) + 1 - 1 = (bitLengthFuel f (n / 2) - 1) + 1 := by omega
        rw [e, pow_succ]
        omega
      · rw [pow_succ]
        omega

theorem bitLength_spec (n : ℕ) (hn : 0 < n) :
    2 ^ (bitLength n - 1) ≤ n ∧ n < 2 ^ bitLength n ∧ 0 < bitLength n :=
  bitLengthFuel_spec n n le_rfl hn

theorem roundHalfEven_intCast (m : ℤ) : roundHalfEven (m : ℚ) = m := by
  simp [roundHalfEven]

theorem roundHalfEven_nonneg (q : ℚ) (h : 0 ≤ q) : 0 ≤ roundHalfEven q := by
  have hf : (0 : ℤ) ≤ ⌊q⌋ := Int.floor_nonneg.mpr h
  unfold roundHalfEven
  split_ifs <;> omega

theorem roundPos_nonneg (q r : ℚ) (h : 0 ≤ q) (hr : roundPos q = .fin r) : 0 ≤ r := by
  unfold roundPos at hr
  split_ifs at hr
  injection hr with hr
  rw [← hr]
  have h1 : 0 ≤ q / quantum q := div_nonneg h (le_of_lt (pow2_pos _))
  have h2 : (0 : ℚ) ≤ (roundHalfEven (q / quantum q) : ℚ) := by
    exact_mod_cast roundHalfEven_nonneg _ h1
  exact mul_nonneg h2 (le_of_lt (pow2_pos _))

theorem roundPos_ne_ninf (q : ℚ) : roundPos q ≠ .ninf := by
  unfold roundPos
  split_ifs <;> simp

theorem roundDouble_notNegative (q : ℚ) (h : 0 ≤ q) : (roundDouble q).notNegative := by
  unfold roundDouble
  split_ifs with h0 hpos
  · simp [JSNum.notNegative]
  · cases hr : roundPos q with
    | fin r => exact roundPos_nonneg q r h hr
    | nan => simp [JSNum.notNegative]
    | pinf => simp [JSNum.notNegative]
    | ninf => exact absurd hr (roundPos_ne_ninf q)
  · exact absurd (lt_of_le_of_ne h (Ne.symm h0)) hpos

theorem jsAdd_notNegative (a b : JSNum) (ha : a.notNegative) (hb : b.notNegative) :
    (jsAdd a b).notNegative := by
  cases a <;> cases b <;> simp_all [jsAdd, JSNum.notNegative]
  exact roundDouble_notNegative _ (add_nonneg ha hb)

theorem jsMul_notNegative (a b : JSNum) (ha : a.notNegative) (hb : b.notNegative) :
    (jsMul a b).notNegative := by
  cases a with
  | fin qa =>
    cases b with
    | fin qb => exact roundDouble_notNegative _ (mul_nonneg ha hb)
    | nan => simp [jsMul, JSNum.notNegative]
    | ninf => exact absurd hb (by simp [JSNum.notNegative])
    | pinf =>
      by_cases h0 : qa = 0
      · simp [jsMul, h0, JSNum.notNegative]
      · have hpos : 0 < qa := lt_of_le_of_ne ha (Ne.symm h0)
        simp [jsMul, h0, hpos, JSNum.notNegative]
  | nan => simp [jsMul, JSNum.notNegative]
  | ninf => exact absurd ha (by simp [JSNum.notNegative])
  | pinf =>
    cases b with
    | fin qb =>
      by_cases h0 : qb = 0
      · simp [jsMul, h0, JSNum.notNegative]
      · have hpos : 0 < qb := lt_of_le_of_ne hb (Ne.symm h0)
        simp [jsMul, h0, hpos, JSNum.notNegative]
    | nan => simp [jsMul, JSNum.notNegative]
    | ninf => exact absurd hb (by simp [JSNum.notNegative])
    | pinf => simp [jsMul, JSNum.notNegative]

theorem jsDiv_notNegative (a b : JSNum) (ha : a.notNegative) (hb : b.notNegative) :
    (jsDiv a b).notNegative := by
  cases a with
  | fin qa =>
    cases b with
    | fin qb =>
      by_cases hb0 : qb = 0
      · by_cases ha0 : qa = 0
        · simp [jsDiv, hb0, ha0, JSNum.notNegative]
        · have hpos : 0 < qa := lt_of_le_of_ne ha (Ne.symm ha0)
          simp [jsDiv, hb0, ha0, hpos, JSNum.notNegative]
      · simp only [jsDiv, hb0, if_false]
        exact roundDouble_notNegative _ (div_nonneg ha hb)
    | nan => simp [jsDiv, JSNum.notNegative]
    | ninf => exact absurd hb (by simp [JSNum.notNegative])
    | pinf => simp [jsDiv, JSNum.notNegative]
  | nan => simp [jsDiv, JSNum.notNegative]
  | ninf => exact absurd ha (by simp [JSNum.notNegative])
  | pinf =>
    cases b with
    | fin qb =>
      have hb' : 0 ≤ qb := hb
      simp [jsDiv, hb', JSNum.notNegative]
    | nan => simp [jsDiv, JSNum.notNegative]
    | ninf => exact absurd hb (by simp [JSNum.notNegative])
    | pinf => simp [jsDiv, JSNum.notNegative]

theorem ilog2_natCast (n : ℕ) (hn : 0 < n) : ilog2 (n : ℚ) = (bitLength n : ℤ) - 1 := by
  obtain ⟨hlo, _, hpos⟩ := bitLength_spec n hn
  have h1 : bitLength 1 = 1 := by decide
  have hk : ((bitLength n : ℤ) - 1) = ((bitLength n - 1 : ℕ) : ℤ) := by omega
  have hle : pow2 ((bitLength n : ℤ) - 1) ≤ (n : ℚ) := by
    rw [hk, pow2_natCast]
    exact_mod_cast hlo
  unfold ilog2
  simp only [Rat.num_natCast, Rat.den_natCast, Int.natAbs_ofNat, h1, Nat.cast_one]
  rw [if_pos hle]

/-- Integers up to `2 ^ 53` are doubles: rounding leaves them as they are. -/
theorem roundDouble_natCast (n : ℕ) (h : n ≤ 2 ^ 53) : roundDouble (n : ℚ) = .fin n := by
  by_cases h0 : n = 0
  · subst h0; simp [roundDouble]
  have hn : 0 < n := Nat.pos_of_ne_zero h0
  have hq : (0 : ℚ) < n := by exact_mod_cast hn
  obtain ⟨hlo, hhi, hpos⟩ := bitLength_spec n hn
  have hB : bitLength n ≤ 54 := by
    by_contra hcon
    have h55 : 55 ≤ bitLength n := by omega
    have : 2 ^ 54 ≤ 2 ^ (bitLength n - 1) := Nat.pow_le_pow_right (by norm_num) (by omega)
    have : (2 : ℕ) ^ 53 < 2 ^ 54 := by norm_num
    omega
  have hquant : quantum (n : ℚ) = pow2 ((bitLength n : ℤ) - 1 - 52) := by
    unfold quantum
    rw [ilog2_natCast n hn, max_eq_left (by omega)]
  have hint : ∃ N : ℤ, (n : ℚ) / pow2 ((bitLength n : ℤ) - 1 - 52) = (N : ℚ) := by
    by_cases h53 : bitLength n ≤ 53
    · refine ⟨(n : ℤ) * 2 ^ (53 - bitLength n), ?_⟩
      have he : ((bitLength n : ℤ) - 1 - 52) = -((53 - bitLength n : ℕ) : ℤ) := by omega
      rw [he, pow2_eq_zpow, zpow_neg, zpow_natCast]
      push_cast
      field_simp
    · have hb54 : bitLength n = 54 := by omega
      have hn53 : n = 2 ^ 53 := by
        rw [hb54] at hlo
        exact le_antisymm h hlo
      refine ⟨2 ^ 52, ?_⟩
      rw [hb54, hn53, pow2_eq_zpow]
      norm_num
  obtain ⟨N, hN⟩ := hint
  have hr : (roundHalfEven ((n : ℚ) / quantum (n : ℚ)) : ℚ) * quantum (n : ℚ) = (n : ℚ) := by
    rw [hquant, hN, roundHalfEven_intCast, ← hN]
    field_simp [ne_of_gt (pow2_pos _)]
  have hsmall : ¬ (pow2 1024 ≤ (n : ℚ)) := by
    rw [not_le, pow2_eq_zpow]
    have h1 : (n : ℚ) ≤ 2 ^ 53 := by exact_mod_cast h
    have h2 : (2 : ℚ) ^ 53 < 2 ^ (1024 : ℤ) := by norm_num
    linarith
  unfold roundDouble
  rw [if_neg (ne_of_gt hq), if_pos hq]
  unfold roundPos
  rw [hr, if_neg hsmall]

/-! ## Sums -/

theorem foldl_jsAdd_natCast (ns : List ℕ) (acc : ℕ) (h : acc + ns.sum ≤ 2 ^ 53) :
    (ns.map (fun n => ((n : ℕ) : ℚ))).foldl (fun sum x => jsAdd sum (.fin x)) (.fin (acc : ℚ))
      = .fin ((acc + ns.sum : ℕ) : ℚ) := by
  induction ns generalizing acc with
  | nil => simp
  | cons n ns ih =>
    simp only [List.map_cons, List.foldl_cons, List.sum_cons] at h ⊢
    have hstep : jsAdd (.fin (acc : ℚ)) (.fin (n : ℚ)) = .fin ((acc + n : ℕ) : ℚ) := by
      show roundDouble ((acc : ℚ) + (n : ℚ)) = _
      rw [← Nat.cast_add]
      exact roundDouble_natCast (acc + n) (by omega)
    rw [hstep, ih (acc + n) (by omega)]
    congr 2
    omega

/-- Whole-number amounts that add up to at most `2 ^ 53` are summed exactly. -/
theorem jsSum_natCast (ns : List ℕ) (h : ns.sum ≤ 2 ^ 53) :
    jsSum (ns.map (fun n => ((n : ℕ) : ℚ))) = .fin ((ns.sum : ℕ) : ℚ) := by
  have := foldl_jsAdd_natCast ns 0 (by omega)
  simpa [jsSum] using this

theorem totalSpendOf_eq_jsSum (analyticsData : AnalyticsData) :
    totalSpendOf analyticsData = jsSum (analyticsData.map (fun entry => entry.2.spend)) := by
  simp [totalSpendOf, objectValues, jsSum, List.foldl_map]

theorem totalSpendOf_whole (analyticsData : AnalyticsData) (amounts : List ℕ)
    (hwhole : analyticsData.map (fun entry => entry.2.spend)
      = amounts.map (fun n => ((n : ℕ) : ℚ)))
    (hsum : amounts.sum ≤ 2 ^ 53) :
    totalSpendOf analyticsData = .fin ((amounts.sum : ℕ) : ℚ) := by
  rw [totalSpendOf_eq_jsSum, hwhole, jsSum_natCast amounts hsum]

theorem totalSpendOf_of_whole (analyticsData : AnalyticsData)
    (hwhole : ∀ entry ∈ analyticsData, ∃ n : ℕ, entry.2.spend = (n : ℚ))
    (hsum : (analyticsData.map (fun entry => entry.2.spend)).sum ≤ 2 ^ 53) :
    totalSpendOf analyticsData = .fin (analyticsData.map (fun entry => entry.2.spend)).sum := by
  have hmap : analyticsData.map (fun entry => entry.2.spend)
      = (analyticsData.map (fun entry => ⌊entry.2.spend⌋.toNat)).map
          (fun n => ((n : ℕ) : ℚ)) := by
    rw [List.map_map]
    apply List.map_congr_left
    intro entry hentry
    obtain ⟨n, hn⟩ := hwhole entry hentry
    simp [hn]
  have hcast : (((analyticsData.map (fun entry => ⌊entry.2.spend⌋.toNat)).sum : ℕ) : ℚ)
      = (analyticsData.map (fun entry => entry.2.spend)).sum := by
    conv_rhs => rw [hmap]
    induction analyticsData.map (fun entry => ⌊entry.2.spend⌋.toNat) with
    | nil => simp
    | cons n ns ih => simp [ih]
  have hle : (analyticsData.map (fun entry => ⌊entry.2.spend⌋.toNat)).sum ≤ 2 ^ 53 := by
    have : (((analyticsData.map (fun entry => ⌊entry.2.spend⌋.toNat)).sum : ℕ) : ℚ)
        ≤ ((2 ^ 53 : ℕ) : ℚ) := by
      rw [hcast]; push_cast; exact hsum
    exact_mod_cast this
  rw [totalSpendOf_whole analyticsData _ hmap hle, hcast]

/-- A count field whose values add up to at most `2 ^ 53` is summed exactly. -/
theorem foldl_jsAdd_count (f : PlatformMetrics → ℕ) (ps : List PlatformMetrics) (acc : ℕ)
    (h : acc + (ps.map f).sum ≤ 2 ^ 53) :
    ps.foldl (fun sum platform => jsAdd sum (.fin ((f platform : ℕ) : ℚ))) (.fin (acc : ℚ))
      = .fin ((acc + (ps.map f).sum : ℕ) : ℚ) := by
  have := foldl_jsAdd_natCast (ps.map f) acc h
  simpa [List.foldl_map] using this

theorem totalImpressionsOf_exact (analyticsData : AnalyticsData)
    (h : (analyticsData.map (fun entry => entry.2.impressions)).sum ≤ 2 ^ 53) :
    totalImpressionsOf analyticsData
      = .fin (((analyticsData.map (fun entry => entry.2.impressions)).sum : ℕ) : ℚ) := by
  have hsum : (analyticsData.map (fun entry => entry.2.impressions))
      = (objectValues analyticsData).map (fun p => p.impressions) := by
    simp [objectValues, List.map_map, Function.comp_def]
  rw [hsum] at h ⊢
  have := foldl_jsAdd_count (fun p => p.impressions) (objectValues analyticsData) 0
    (by simpa using h)
  simpa [totalImpressionsOf] using this

theorem totalClicksOf_exact (analyticsData : AnalyticsData)
    (h : (analyticsData.map (fun entry => entry.2.clicks)).sum ≤ 2 ^ 53) :
    totalClicksOf analyticsData
      = .fin (((analyticsData.map (fun entry => entry.2.clicks)).sum : ℕ) : ℚ) := by
  have hsum : (analyticsData.map (fun entry => entry.2.clicks))
      = (objectValues analyticsData).map (fun p => p.clicks) := by
    simp [objectValues, List.map_map, Function.comp_def]
  rw [hsum] at h ⊢
  have := foldl_jsAdd_count (fun p => p.clicks) (objectValues analyticsData) 0
    (by simpa using h)
  simpa [totalClicksOf] using this

theorem totalConversionsOf_exact (analyticsData : AnalyticsData)
    (h : (analyticsData.map (fun entry => entry.2.conversions)).sum ≤ 2 ^ 53) :
    totalConversionsOf analyticsData
      = .fin (((analyticsData.map (fun entry => entry.2.conversions)).sum : ℕ) : ℚ) := by
  have hsum : (analyticsData.map (fun entry => entry.2.conversions))
      = (objectValues analyticsData).map (fun p => p.conversions) := by
    simp [objectValues, List.map_map, Function.comp_def]
  rw [hsum] at h ⊢
  have := foldl_jsAdd_count (fun p => p.conversions) (objectValues analyticsData) 0
    (by simpa using h)
  simpa [totalConversionsOf] using this

/-- C1 fails.  The totals are sums of doubles, rounded after every addition.
With the spends 0.1, 0.2 and 0.3 the total spend is 0.6000000000000001, which
is not the sum of the three spend values; with `2 ^ 53`, 1 and 1 impressions
the total is `2 ^ 53`, two less than the sum of the three counts. -/
theorem totals_differ_from_sums :
    ((calculateAggregatedMetrics fractionalSpends).totalSpend
        = .fin (5404319552844596 / 9007199254740992) ∧
      (fractionalSpends.map (fun entry => entry.2.spend)).sum
        ≠ 5404319552844596 / 9007199254740992) ∧
    ((calculateAggregatedMetrics largeCounts).totalImpressions = .fin 9007199254740992 ∧
      (largeCounts.map (fun entry => entry.2.impressions)).sum = 9007199254740994) := by
  decide!

/-- C1 (amended): each of the four totals returned by
`calculateAggregatedMetrics` is the sum of its field over all entries of the
mapping whenever the values of that field are whole numbers that add up to at
most `2 ^ 53`: `totalSpend` for whole-number spends, `totalImpressions`,
`totalClicks` and `totalConversions` for the counts of the request. -/
theorem calculateAggregatedMetrics_totals (analyticsData : AnalyticsData) :
    ((∀ entry ∈ analyticsData, ∃ n : ℕ, entry.2.spend = (n : ℚ)) →
      (analyticsData.map (fun entry => entry.2.spend)).sum ≤ 2 ^ 53 →
      (calculateAggregatedMetrics analyticsData).totalSpend
        = .fin (analyticsData.map (fun entry => entry.2.spend)).sum) ∧
    ((analyticsData.map (fun entry => entry.2.impressions)).sum ≤ 2 ^ 53 →
      (calculateAggregatedMetrics analyticsData).totalImpressions
        = .fin (((analyticsData.map (fun entry => entry.2.impressions)).sum : ℕ) : ℚ)) ∧
    ((analyticsData.map (fun entry => entry.2.clicks)).sum ≤ 2 ^ 53 →
      (calculateAggregatedMetrics analyticsData).totalClicks
        = .fin (((analyticsData.map (fun entry => entry.2.clicks)).sum : ℕ) : ℚ)) ∧
    ((analyticsData.map (fun entry => entry.2.conversions)).sum ≤ 2 ^ 53 →
      (calculateAggregatedMetrics analyticsData).totalConversions
        = .fin (((analyticsData.map (fun entry => entry.2.conversions)).sum : ℕ) : ℚ)) :=
  ⟨fun hwhole hsum => totalSpendOf_of_whole analyticsData hwhole hsum,
    totalImpressionsOf_exact analyticsData, totalClicksOf_exact analyticsData,
    totalConversionsOf_exact analyticsData⟩

/-- Witness for C1 (amended): the three platforms of the mock data, with the
spends 12500, 8900 and 7490 and 1000 impressions, 10 clicks and 1 conversion
each. -/
theorem calculateAggregatedMetrics_totals_witness :
    (calculateAggregatedMetrics wholeSpends).totalSpend = .fin 28890 ∧
    (calculateAggregatedMetrics wholeSpends).totalImpressions = .fin 3000 ∧
    (calculateAggregatedMetrics wholeSpends).totalClicks = .fin 30 ∧
    (calculateAggregatedMetrics wholeSpends).totalConversions = .fin 3 := by
  have h := calculateAggregatedMetrics_totals wholeSpends
  refine ⟨?_, ?_, ?_, ?_⟩
  · rw [h.1 (by
      intro entry hentry
      simp only [wholeSpends, spendOnly, List.mem_cons, List.mem_singleton, List.mem_nil_iff,
        or_false] at hentry
      rcases hentry with h | h | h
      · exact ⟨12500, by rw [h]; norm_num⟩
      · exact ⟨8900, by rw [h]; norm_num⟩
      · exact ⟨7490, by rw [h]; norm_num⟩) (by decide!)]
    norm_num [wholeSpends, spendOnly]
  · rw [h.2.1 (by norm_num [wholeSpends, spendOnly])]
    norm_num [wholeSpends, spendOnly]
  · rw [h.2.2.1 (by norm_num [wholeSpends, spendOnly])]
    norm_num [wholeSpends, spendOnly]
  · rw [h.2.2.2 (by norm_num [wholeSpends, spendOnly])]
    norm_num [wholeSpends, spendOnly]

/-! ## Rate limiter -/

theorem resetIfElapsed_of_le (rateLimit : RateLimit) (now : ℤ) (h : now ≤ rateLimit.resetTime) :
    resetIfElapsed rateLimit now = rateLimit := by
  simp [resetIfElapsed, not_lt.mpr h]

theorem checkRateLimit_resetTime_of_le (rateLimit : RateLimit) (now : ℤ)
    (h : now ≤ rateLimit.resetTime) :
    (checkRateLimit rateLimit now).1.resetTime = rateLimit.resetTime := by
  unfold checkRateLimit
  rw [resetIfElapsed_of_le rateLimit now h]
  split_ifs <;> rfl

theorem checkRateLimit_calls_of_le (rateLimit : RateLimit) (now : ℤ)
    (h : now ≤ rateLimit.resetTime) :
    (checkRateLimit rateLimit now).1.callsThisMinute
      = rateLimit.callsThisMinute + (if accepted (checkRateLimit rateLimit now) then 1 else 0) := by
  unfold checkRateLimit accepted
  rw [resetIfElapsed_of_le rateLimit now h]
  split_ifs <;> simp_all

/-- While no call passes the reset time, the counter grows by exactly the
number of accepted calls and the reset time stays put. -/
theorem runCalls_same_window (times : List ℤ) (rateLimit : RateLimit)
    (h : ∀ t ∈ times, t ≤ rateLimit.resetTime) :
    (runCalls rateLimit times).1.callsThisMinute
        = rateLimit.callsThisMinute + (runCalls rateLimit times).2.count true ∧
      (runCalls rateLimit times).1.resetTime = rateLimit.resetTime := by
  induction times generalizing rateLimit with
  | nil => simp [runCalls]
  | cons now rest ih =>
    have hnow : now ≤ rateLimit.resetTime := h now (List.mem_cons_self _ _)
    have hr := checkRateLimit_resetTime_of_le rateLimit now hnow
    have hc := checkRateLimit_calls_of_le rateLimit now hnow
    have hrest : ∀ t ∈ rest, t ≤ (checkRateLimit rateLimit now).1.resetTime := by
      intro t ht
      rw [hr]
      exact h t (List.mem_cons_of_mem _ ht)
    obtain ⟨ih1, ih2⟩ := ih (checkRateLimit rateLimit now).1 hrest
    simp only [runCalls]
    refine ⟨?_, by rw [ih2, hr]⟩
    rw [ih1, hc]
    cases hacc : accepted (checkRateLimit rateLimit now) <;> simp [List.count_cons]; omega

/-- The counter never exceeds the cap. -/
theorem checkRateLimit_calls_le (rateLimit : RateLimit) (now : ℤ)
    (h : rateLimit.callsThisMinute ≤ maxCallsPerMinute) :
    (checkRateLimit rateLimit now).1.callsThisMinute ≤ maxCallsPerMinute := by
  have hreset : (resetIfElapsed rateLimit now).callsThisMinute ≤ maxCallsPerMinute := by
    unfold resetIfElapsed
    split_ifs <;> simp [h]
  unfold checkRateLimit
  split_ifs with h1 h2
  · exact hreset
  · exact hreset
  · simp only
    omega

theorem runCalls_calls_le (times : List ℤ) (rateLimit : RateLimit)
    (h : rateLimit.callsThisMinute ≤ maxCallsPerMinute) :
    (runCalls rateLimit times).1.callsThisMinute ≤ maxCallsPerMinute := by
  induction times generalizing rateLimit with
  | nil => simpa [runCalls] using h
  | cons now rest ih =>
    simp only [runCalls]
    exact ih _ (checkRateLimit_calls_le rateLimit now h)

theorem checkRateLimit_resetTime (rateLimit : RateLimit) (now : ℤ) :
    (checkRateLimit rateLimit now).1.resetTime = (resetIfElapsed rateLimit now).resetTime := by
  unfold checkRateLimit
  split_ifs <;> rfl

theorem checkRateLimit_calls (rateLimit : RateLimit) (now : ℤ) :
    (checkRateLimit rateLimit now).1.callsThisMinute
      = (resetIfElapsed rateLimit now).callsThisMinute
        + (if accepted (checkRateLimit rateLimit now) then 1 else 0) := by
  unfold checkRateLimit accepted
  split_ifs <;> simp_all

/-- The counter after the reset step of the call that opens a window. -/
theorem resetIfElapsed_calls_of_open (rateLimit : RateLimit) (first : ℤ)
    (hopen : rateLimit.callsThisMinute = 0 ∨ first > rateLimit.resetTime) :
    (resetIfElapsed rateLimit first).callsThisMinute = 0 := by
  unfold resetIfElapsed
  split_ifs with h
  · rfl
  · rcases hopen with h0 | h1
    · exact h0
    · exact absurd h1 h

/-- C6: take any state of the rate limiter and any call `first` that starts a
window, either because it comes after the reset time (the call resets the
counter and opens a new window) or because the counter is still at `0`.  Let
any further calls follow, none of them after the reset time of that window.
Once exactly 20 of these calls, the first one included, have been accepted, a
further call made no later than the reset time of the window throws the
rate-limit-exceeded error, is not accepted, and leaves the state as it was. -/
theorem checkRateLimit_rejects_21st (rateLimit : RateLimit) (first : ℤ) (rest : List ℤ)
    (now : ℤ)
    (hopen : rateLimit.callsThisMinute = 0 ∨ first > rateLimit.resetTime)
    (hwindow : ∀ t ∈ rest, t ≤ (checkRateLimit rateLimit first).1.resetTime)
    (h20 : (runCalls rateLimit (first :: rest)).2.count true = 20)
    (hnow : now ≤ (checkRateLimit rateLimit first).1.resetTime) :
    checkRateLimit (runCalls rateLimit (first :: rest)).1 now
        = ((runCalls rateLimit (first :: rest)).1, some capMessage) ∧
      accepted (checkRateLimit (runCalls rateLimit (first :: rest)).1 now) = false := by
  obtain ⟨hc, hr⟩ := runCalls_same_window rest (checkRateLimit rateLimit first).1 hwindow
  have hfirst := checkRateLimit_calls rateLimit first
  rw [resetIfElapsed_calls_of_open rateLimit first hopen] at hfirst
  have hcount : (runCalls rateLimit (first :: rest)).1.callsThisMinute = 20 := by
    simp only [runCalls] at h20 ⊢
    rw [hc, hfirst]
    cases hacc : accepted (checkRateLimit rateLimit first) <;>
      simp [hacc, List.count_cons] at h20 ⊢ <;> omega
  have hnow' : now ≤ (runCalls rateLimit (first :: rest)).1.resetTime := by
    simp only [runCalls]
    rw [hr]
    exact hnow
  have hcheck : checkRateLimit (runCalls rateLimit (first :: rest)).1 now
      = ((runCalls rateLimit (first :: rest)).1, some capMessage) := by
    unfold checkRateLimit
    rw [resetIfElapsed_of_le _ now hnow']
    have : (runCalls rateLimit (first :: rest)).1.callsThisMinute ≥ maxCallsPerMinute := by
      rw [hcount]; decide
    simp [this]
  exact ⟨hcheck, by rw [hcheck]; rfl⟩

/-- Witness for C6: the limiter is created at time 0; the call at 62 s comes
after the reset time 60 s and opens a window that lasts until 122 s; with the 19
calls that follow 2 s apart, 20 calls are accepted in that window; the call at
102 s is rejected. -/
theorem checkRateLimit_rejects_21st_witness :
    checkRateLimit
        (runCalls (initialRateLimit 0)
          (62000 :: (List.range 19).map (fun i => (64000 + 2000 * (i : ℕ) : ℤ)))).1
        102000
      = ((runCalls (initialRateLimit 0)
          (62000 :: (List.range 19).map (fun i => (64000 + 2000 * (i : ℕ) : ℤ)))).1,
          some capMessage) :=
  (checkRateLimit_rejects_21st (initialRateLimit 0) 62000
    ((List.range 19).map (fun i => (64000 + 2000 * (i : ℕ) : ℤ))) 102000
    (by decide!) (by decide!) (by decide!) (by decide!)).1

/-- C7 fails at `now = resetTime`: the window is not reset there, and with 20
calls counted the call is rejected although it is 60 s after the last one. -/
theorem checkRateLimit_no_reset_at_resetTime :
    (60000 : ℤ) ≥ (RateLimit.mk 0 20 60000).resetTime ∧
    (60000 : ℤ) - (RateLimit.mk 0 20 60000).lastCall ≥ 2000 ∧
    resetIfElapsed (RateLimit.mk 0 20 60000) 60000 = RateLimit.mk 0 20 60000 ∧
    checkRateLimit (RateLimit.mk 0 20 60000) 60000
      = (RateLimit.mk 0 20 60000, some capMessage) := by
  decide!

/-- C7 (amended): at every `now > resetTime` the call first sets the counter to
`0` and the reset time to `now + 60000`; so a call at least 2000 ms after
`lastCall` is accepted whatever the counter was, and leaves the counter at 1. -/
theorem checkRateLimit_after_window (rateLimit : RateLimit) (now : ℤ)
    (hnow : now > rateLimit.resetTime) :
    resetIfElapsed rateLimit now
        = { lastCall := rateLimit.lastCall, callsThisMinute := 0, resetTime := now + 60000 } ∧
      (now - rateLimit.lastCall ≥ 2000 →
        checkRateLimit rateLimit now
          = ({ lastCall := now, callsThisMinute := 1, resetTime := now + 60000 }, none)) := by
  have hreset : resetIfElapsed rateLimit now
      = { lastCall := rateLimit.lastCall, callsThisMinute := 0, resetTime := now + 60000 } := by
    simp [resetIfElapsed, hnow]
  refine ⟨hreset, fun hgap => ?_⟩
  unfold checkRateLimit
  rw [hreset]
  have h1 : ¬ (0 ≥ maxCallsPerMinute) := by decide
  have h2 : ¬ (now - rateLimit.lastCall < minInterval) := by
    unfold minInterval; omega
  simp [h1, h2]

/-- Witness for C7 (amended): one millisecond after the reset time of a full window. -/
theorem checkRateLimit_after_window_witness :
    resetIfElapsed (RateLimit.mk 0 20 60000) 60001 = RateLimit.mk 0 0 120001 ∧
      checkRateLimit (RateLimit.mk 0 20 60000) 60001 = (RateLimit.mk 60001 1 120001, none) :=
  ⟨(checkRateLimit_after_window (RateLimit.mk 0 20 60000) 60001 (by decide)).1,
    (checkRateLimit_after_window (RateLimit.mk 0 20 60000) 60001 (by decide)).2 (by decide)⟩

/-- C8: below the window cap, a call less than 2000 ms after `lastCall` throws
"Please wait N seconds before making another request." and the announced
`N` seconds cover the remaining gap: `N * 1000 ≥ 2000 - (now - lastCall)`.
(This holds for every gap below 2000 ms, so in particular for `0 ≤ now - lastCall`.) -/
theorem checkRateLimit_wait_covers_gap (rateLimit : RateLimit) (now : ℤ)
    (hcap : (resetIfElapsed rateLimit now).callsThisMinute < maxCallsPerMinute)
    (hgap : now - rateLimit.lastCall < 2000) :
    ∃ N : ℤ,
      checkRateLimit rateLimit now = (resetIfElapsed rateLimit now, some (waitMessage N)) ∧
      N * 1000 ≥ 2000 - (now - rateLimit.lastCall) := by
  have hlast : (resetIfElapsed rateLimit now).lastCall = rateLimit.lastCall := by
    unfold resetIfElapsed
    split_ifs <;> rfl
  refine ⟨waitSeconds (minInterval - (now - rateLimit.lastCall)), ?_, ?_⟩
  · unfold checkRateLimit
    rw [hlast]
    have h1 : ¬ ((resetIfElapsed rateLimit now).callsThisMinute ≥ maxCallsPerMinute) :=
      not_le.mpr hcap
    have h2 : now - rateLimit.lastCall < minInterval := by unfold minInterval; exact hgap
    simp [h1, h2]
  · unfold waitSeconds minInterval
    have h := Int.le_ceil (((2000 - (now - rateLimit.lastCall) : ℤ) : ℚ) / 1000)
    have h' : ((2000 - (now - rateLimit.lastCall) : ℤ) : ℚ)
        ≤ ((⌈((2000 - (now - rateLimit.lastCall) : ℤ) : ℚ) / 1000⌉ * 1000 : ℤ) : ℚ) := by
      push_cast
      push_cast at h
      linarith
    exact_mod_cast h'

/-- Witness for C8: a call 500 ms after the previous one is told to wait 2 seconds. -/
theorem checkRateLimit_wait_covers_gap_witness :
    ∃ N : ℤ,
      checkRateLimit (RateLimit.mk 10000 3 60000) 10500
        = (resetIfElapsed (RateLimit.mk 10000 3 60000) 10500, some (waitMessage N)) ∧
      N * 1000 ≥ 2000 - (10500 - (RateLimit.mk 10000 3 60000).lastCall) :=
  checkRateLimit_wait_covers_gap (RateLimit.mk 10000 3 60000) 10500
    (by decide) (by decide)

/-- C9 fails: the cap is counted per fixed window.  From the state created at
load time `0`, thirty calls 2 s apart from 22 s to 80 s are all accepted (the
counter is reset after the twentieth), and all thirty lie in the 60 s interval
that starts at 22 s. -/
theorem rolling_cap_violated :
    List.Sorted (· ≤ ·) ((List.range 30).map (fun i => (22000 + 2000 * (i : ℕ) : ℤ))) ∧
    acceptedWithinMinute (initialRateLimit 0)
      ((List.range 30).map (fun i => (22000 + 2000 * (i : ℕ) : ℤ))) 22000 = 30 := by
  decide!

/-! ## Spacing of accepted calls -/

theorem resetIfElapsed_lastCall (rateLimit : RateLimit) (now : ℤ) :
    (resetIfElapsed rateLimit now).lastCall = rateLimit.lastCall := by
  unfold resetIfElapsed
  split_ifs <;> rfl

theorem checkRateLimit_accepted_iff (rateLimit : RateLimit) (now : ℤ)
    (h : accepted (checkRateLimit rateLimit now) = true) :
    rateLimit.lastCall + 2000 ≤ now ∧ (checkRateLimit rateLimit now).1.lastCall = now := by
  by_cases h1 : (resetIfElapsed rateLimit now).callsThisMinute ≥ maxCallsPerMinute
  · simp [checkRateLimit, accepted, h1] at h
  · by_cases h2 : now - (resetIfElapsed rateLimit now).lastCall < minInterval
    · simp [checkRateLimit, accepted, h1, h2] at h
    · constructor
      · rw [resetIfElapsed_lastCall] at h2
        unfold minInterval at h2
        omega
      · simp [checkRateLimit, h1, h2]

theorem checkRateLimit_rejected_lastCall (rateLimit : RateLimit) (now : ℤ)
    (h : accepted (checkRateLimit rateLimit now) = false) :
    (checkRateLimit rateLimit now).1.lastCall = rateLimit.lastCall := by
  by_cases h1 : (resetIfElapsed rateLimit now).callsThisMinute ≥ maxCallsPerMinute
  · simp [checkRateLimit, h1, resetIfElapsed_lastCall]
  · by_cases h2 : now - (resetIfElapsed rateLimit now).lastCall < minInterval
    · have h2' : now - rateLimit.lastCall < minInterval := by
        rw [resetIfElapsed_lastCall] at h2; exact h2
      simp [checkRateLimit, h1, h2', resetIfElapsed_lastCall]
    · simp [checkRateLimit, accepted, h1, h2] at h

/-- Accepted calls are at least 2000 ms apart, the first of them at least
2000 ms after `lastCall`. -/
theorem acceptedTimes_chain (times : List ℤ) (rateLimit : RateLimit) :
    List.Chain (fun a b => a + 2000 ≤ b) rateLimit.lastCall (acceptedTimes rateLimit times) := by
  induction times generalizing rateLimit with
  | nil => exact List.Chain.nil
  | cons now rest ih =>
    unfold acceptedTimes
    cases hacc : accepted (checkRateLimit rateLimit now) with
    | true =>
      obtain ⟨hgap, hlast⟩ := checkRateLimit_accepted_iff rateLimit now hacc
      simp only [if_true]
      refine List.Chain.cons hgap ?_
      have := ih (checkRateLimit rateLimit now).1
      rw [hlast] at this
      exact this
    | false =>
      have hlast := checkRateLimit_rejected_lastCall rateLimit now hacc
      simp only [Bool.false_eq_true, if_false]
      have := ih (checkRateLimit rateLimit now).1
      rw [hlast] at this
      exact this

/-- A chain of clock readings 2000 ms apart has at most 30 members in an
interval of 60000 ms. -/
theorem chain_count_within (l : List ℤ) (a start : ℤ)
    (h : List.Chain (fun a b => a + 2000 ≤ b) a l) :
    (l.filter (fun t => decide (start ≤ t ∧ t < start + 60000))).length = 0 ∨
      2000 * ((l.filter (fun t => decide (start ≤ t ∧ t < start + 60000))).length : ℤ)
        ≤ start + 60000 - max (a + 2000) start + 1999 := by
  induction l generalizing a with
  | nil => left; rfl
  | cons x rest ih =>
    rw [List.chain_cons] at h
    obtain ⟨hax, hrest⟩ := h
    have ih' := ih x hrest
    by_cases hx : start ≤ x ∧ x < start + 60000
    · right
      rw [List.filter_cons_of_pos (by simpa using hx)]
      simp only [List.length_cons, Nat.cast_add, Nat.cast_one]
      rcases ih' with h0 | hle
      · rw [h0]
        simp only [Nat.cast_zero, zero_add, mul_one]
        have : max (a + 2000) start ≤ x := max_le hax hx.1
        omega
      · have e : max (x + 2000) start = x + 2000 := max_eq_left (by omega)
        rw [e] at hle
        have : max (a + 2000) start ≤ x := max_le hax hx.1
        omega
    · rw [List.filter_cons_of_neg (by simpa using hx)]
      rcases ih' with h0 | hle
      · left; exact h0
      · right
        have : max (a + 2000) start ≤ max (x + 2000) start :=
          max_le_max (by omega) le_rfl
        omega

theorem acceptedWithinMinute_le (rateLimit : RateLimit) (times : List ℤ) (start : ℤ) :
    acceptedWithinMinute rateLimit times start ≤ 30 := by
  unfold acceptedWithinMinute
  have hmax : start ≤ max (rateLimit.lastCall + 2000) start := le_max_right _ _
  rcases chain_count_within _ rateLimit.lastCall start (acceptedTimes_chain times rateLimit)
    with h0 | hle
  · omega
  · omega

/-- C9 (amended): the cap of 20 is enforced per fixed window, not per rolling
interval.  For every sequence of `checkRateLimit` calls, as long as no call
passes the reset time (no window reset happens) the calls already counted plus
the calls accepted since never exceed 20; and every interval of 60 s, also one
that straddles a reset, contains at most 30 accepted calls, because accepted
calls are at least 2 s apart. -/
theorem fixed_window_cap (rateLimit : RateLimit) (times : List ℤ) (start : ℤ)
    (hcount : rateLimit.callsThisMinute ≤ maxCallsPerMinute) :
    ((∀ t ∈ times, t ≤ rateLimit.resetTime) →
        rateLimit.callsThisMinute + (runCalls rateLimit times).2.count true ≤ 20) ∧
      acceptedWithinMinute rateLimit times start ≤ 30 := by
  refine ⟨fun hwindow => ?_, acceptedWithinMinute_le rateLimit times start⟩
  have h1 := (runCalls_same_window times rateLimit hwindow).1
  have h2 := runCalls_calls_le times rateLimit hcount
  unfold maxCallsPerMinute at h2
  omega

/-- Witness for C9 (amended): twenty-five calls 2 s apart inside the first
window; only twenty are accepted. -/
theorem fixed_window_cap_witness :
    (initialRateLimit 0).callsThisMinute
        + (runCalls (initialRateLimit 0)
            ((List.range 25).map (fun i => (2000 * (i + 1 : ℕ) : ℤ)))).2.count true ≤ 20 ∧
      acceptedWithinMinute (initialRateLimit 0)
        ((List.range 25).map (fun i => (2000 * (i + 1 : ℕ) : ℤ))) 0 ≤ 30 :=
  ⟨(fixed_window_cap (initialRateLimit 0)
      ((List.range 25).map (fun i => (2000 * (i + 1 : ℕ) : ℤ))) 0 (by decide!)).1 (by decide!),
    (fixed_window_cap (initialRateLimit 0)
      ((List.range 25).map (fun i => (2000 * (i + 1 : ℕ) : ℤ))) 0 (by decide!)).2⟩

/-! ## Completion client and report assembly -/

theorem callChatGPT_without_key (now : ℤ) (api : ApiOutcome) (rateLimit : RateLimit)
    (prompt : String) :
    callChatGPT { apiKey := none, now := now, api := api } rateLimit prompt
      = ((generateStructuredAnalysis prompt).toJson, rateLimit) := by
  simp [callChatGPT, apiKeyMissing]

theorem facebookScenario_totalSpend :
    (calculateAggregatedMetrics facebookScenario).totalSpend = .fin 12500 := by
  decide!

theorem facebookScenario_overallCtr :
    (calculateAggregatedMetrics facebookScenario).overallCtr = "1.20" := by
  decide!

/-- C5: for the one-platform `facebook` request of the end-to-end scenario and no
API key configured, whatever the clock, the provider and the rate-limiter state,
the handler answers 200 with a report whose `summary.totalSpend` is `12500`,
whose `summary.overallCtr` is `"1.20"`, whose `source` is `"mock"`, and which
has exactly 3 insights, 3 recommendations and 3 trends. -/
theorem generateReport_facebook_scenario (now reportTime : ℤ) (api : ApiOutcome)
    (isoTimestamp : String) (rateLimit : RateLimit) :
    ∃ report : List (String × Json),
      generateReport { apiKey := none, now := now, api := api } reportTime isoTimestamp rateLimit
          ["facebook"] "last_30_days" facebookScenario = (.ok (.obj report), rateLimit) ∧
      (getField "summary" report).bind (Json.field? "totalSpend") = some (.num (.fin 12500)) ∧
      (getField "summary" report).bind (Json.field? "overallCtr") = some (.str "1.20") ∧
      getField "source" report = some (.str "mock") ∧
      (getField "insights" report).bind Json.arrayLength? = some 3 ∧
      (getField "recommendations" report).bind Json.arrayLength? = some 3 ∧
      (getField "trends" report).bind Json.arrayLength? = some 3 := by
  refine ⟨setField "source" (.str "mock")
    (parseChatGPTResponse reportTime isoTimestamp
      (generateStructuredAnalysis (generateAnalysisPrompt ["facebook"] "last_30_days"
        facebookScenario (calculateAggregatedMetrics facebookScenario))).toJson
      (calculateAggregatedMetrics facebookScenario) ["facebook"] "last_30_days"),
    ?_, ?_, ?_, ?_, ?_, ?_, ?_⟩
  · simp [generateReport, callChatGPT_without_key, Analysis.toJson, readSource, getField,
      sourceOrOpenai, truthy, generateStructuredAnalysis]
  · simp [parseChatGPTResponse, mergeFields, spreadFields, setField, getField, Json.field?,
      AggregatedMetrics.toJson, Analysis.toJson, facebookScenario_totalSpend]
  · simp [parseChatGPTResponse, mergeFields, spreadFields, setField, getField, Json.field?,
      AggregatedMetrics.toJson, Analysis.toJson, facebookScenario_overallCtr]
  · simp [parseChatGPTResponse, mergeFields, spreadFields, setField, getField, Analysis.toJson]
  · simp [parseChatGPTResponse, mergeFields, spreadFields, setField, getField, Analysis.toJson,
      Json.arrayLength?, generateStructuredAnalysis, mockInsights]
  · simp [parseChatGPTResponse, mergeFields, spreadFields, setField, getField, Analysis.toJson,
      Json.arrayLength?, generateStructuredAnalysis, mockRecommendations]
  · simp [parseChatGPTResponse, mergeFields, spreadFields, setField, getField, Analysis.toJson,
      Json.arrayLength?, generateStructuredAnalysis, mockTrends]

theorem mock_hasCompletionFields (prompt : String) :
    hasCompletionFields (generateStructuredAnalysis prompt).toJson := by
  simp [hasCompletionFields, hasField, Analysis.toJson, getField]

theorem withSourceMock_hasCompletionFields (prompt : String) :
    hasCompletionFields (withSourceMock (generateStructuredAnalysis prompt).toJson) := by
  simp [hasCompletionFields, hasField, Analysis.toJson, getField, withSourceMock, setField]

/-- C10 fails on the success branch: with a key configured, the rate limiter
passing and a provider answer that parses to the expected shape
`{ insights: [], recommendations: [], trends: [] }`, `callChatGPT` returns that
object as it is, without a `source` field. -/
theorem callChatGPT_success_lacks_source :
    (callChatGPT
        { apiKey := some "sk-test", now := 100000,
          api := .parsed (.obj [("insights", .arr []), ("recommendations", .arr []),
            ("trends", .arr [])]) }
        (initialRateLimit 0) "prompt").1
      = .obj [("insights", .arr []), ("recommendations", .arr []), ("trends", .arr [])] ∧
    ¬ hasCompletionFields
      (callChatGPT
        { apiKey := some "sk-test", now := 100000,
          api := .parsed (.obj [("insights", .arr []), ("recommendations", .arr []),
            ("trends", .arr [])]) }
        (initialRateLimit 0) "prompt").1 := by
  have h : (callChatGPT
        { apiKey := some "sk-test", now := 100000,
          api := .parsed (.obj [("insights", .arr []), ("recommendations", .arr []),
            ("trends", .arr [])]) }
        (initialRateLimit 0) "prompt").1
      = .obj [("insights", .arr []), ("recommendations", .arr []), ("trends", .arr [])] := by
    have hrl : (checkRateLimit (initialRateLimit 0) 100000).2 = none := by decide!
    simp [callChatGPT, apiKeyMissing, hrl]
  refine ⟨h, ?_⟩
  rw [h]
  simp [hasCompletionFields, hasField, getField]

/-- C10 (amended): in every fallback branch (no key configured; the local rate
limiter rejects the call; the request fails, with any status or none; the
answer cannot be read; the answer is not parsable JSON) `callChatGPT` returns
an object that contains all four fields `insights`, `recommendations`, `trends`
and `source`.  When a key is configured, the rate limiter passes and the answer
parses as JSON, it returns the parsed value unchanged, which therefore contains
the four fields exactly when the provider sent them. -/
theorem callChatGPT_fields_or_parsed (env : Environment) (rateLimit : RateLimit)
    (prompt : String) :
    ((apiKeyMissing env = true ∨ (checkRateLimit rateLimit env.now).2 ≠ none ∨
        (∀ value, env.api ≠ .parsed value)) →
      hasCompletionFields (callChatGPT env rateLimit prompt).1) ∧
    (∀ value, apiKeyMissing env = false → (checkRateLimit rateLimit env.now).2 = none →
      env.api = .parsed value →
      (callChatGPT env rateLimit prompt).1 = value ∧
        (hasCompletionFields (callChatGPT env rateLimit prompt).1
          ↔ hasCompletionFields value)) := by
  constructor
  · intro h
    unfold callChatGPT
    cases hkey : apiKeyMissing env
    · cases hrl : (checkRateLimit rateLimit env.now).2 with
      | some msg => simpa [hrl] using withSourceMock_hasCompletionFields prompt
      | none =>
        cases hapi : env.api with
        | parsed value =>
          rcases h with h | h | h
          · rw [hkey] at h; exact absurd h (by simp)
          · exact absurd hrl h
          · exact absurd hapi (h value)
        | unparsable => simpa [hrl, hapi] using withSourceMock_hasCompletionFields prompt
        | unreadable => simpa [hrl, hapi] using withSourceMock_hasCompletionFields prompt
        | requestFailed status =>
          simpa [hrl, hapi] using withSourceMock_hasCompletionFields prompt
    · simpa using mock_hasCompletionFields prompt
  · intro value hkey hrl hapi
    have hvalue : (callChatGPT env rateLimit prompt).1 = value := by
      unfold callChatGPT
      simp [hkey, hrl, hapi]
    exact ⟨hvalue, by rw [hvalue]⟩

/-- Witness for C10 (amended): without a key the result has the four fields;
with a key, the limiter passing and the answer `[]`, the result is `[]`. -/
theorem callChatGPT_fields_or_parsed_witness :
    hasCompletionFields
        (callChatGPT { apiKey := none, now := 100000, api := .unreadable }
          (initialRateLimit 0) "").1 ∧
      (callChatGPT { apiKey := some "sk-test", now := 100000, api := .parsed (.arr []) }
          (initialRateLimit 0) "").1 = .arr [] :=
  ⟨(callChatGPT_fields_or_parsed { apiKey := none, now := 100000, api := .unreadable }
      (initialRateLimit 0) "").1 (Or.inl rfl),
    ((callChatGPT_fields_or_parsed
      { apiKey := some "sk-test", now := 100000, api := .parsed (.arr []) }
      (initialRateLimit 0) "").2 (.arr []) (by decide) (by decide!) rfl).1⟩

/-! ## Ratios of the aggregator -/

theorem foldl_jsAdd_notNegative (ps : List PlatformMetrics) (acc : JSNum)
    (hacc : acc.notNegative) (h : ∀ p ∈ ps, 0 ≤ p.spend) :
    (ps.foldl (fun sum platform => jsAdd sum (.fin platform.spend)) acc).notNegative := by
  induction ps generalizing acc with
  | nil => simpa using hacc
  | cons p ps ih =>
    simp only [List.foldl_cons]
    apply ih
    · exact jsAdd_notNegative acc (.fin p.spend) hacc (h p (List.mem_cons_self _ _))
    · intro p' hp'
      exact h p' (List.mem_cons_of_mem _ hp')

theorem totalSpendOf_notNegative (analyticsData : AnalyticsData)
    (h : ∀ entry ∈ analyticsData, 0 ≤ entry.2.spend) :
    (totalSpendOf analyticsData).notNegative := by
  unfold totalSpendOf objectValues
  apply foldl_jsAdd_notNegative
  · simp [JSNum.notNegative]
  · intro p hp
    rw [List.mem_map] at hp
    obtain ⟨entry, hentry, rfl⟩ := hp
    exact h entry hentry

theorem natCast_notNegative (n : ℕ) : (JSNum.fin (n : ℚ)).notNegative := by
  simp [JSNum.notNegative]

theorem foldl_jsAdd_count_notNegative (f : PlatformMetrics → ℕ) (ps : List PlatformMetrics)
    (acc : JSNum) (hacc : acc.notNegative) :
    (ps.foldl (fun sum platform => jsAdd sum (.fin ((f platform : ℕ) : ℚ))) acc).notNegative := by
  induction ps generalizing acc with
  | nil => simpa using hacc
  | cons p ps ih =>
    simp only [List.foldl_cons]
    exact ih _ (jsAdd_notNegative acc _ hacc (natCast_notNegative _))

theorem totalImpressionsOf_notNegative (analyticsData : AnalyticsData) :
    (totalImpressionsOf analyticsData).notNegative :=
  foldl_jsAdd_count_notNegative (fun p => p.impressions) _ _ (by simp [JSNum.notNegative])

theorem totalClicksOf_notNegative (analyticsData : AnalyticsData) :
    (totalClicksOf analyticsData).notNegative :=
  foldl_jsAdd_count_notNegative (fun p => p.clicks) _ _ (by simp [JSNum.notNegative])

theorem totalConversionsOf_notNegative (analyticsData : AnalyticsData) :
    (totalConversionsOf analyticsData).notNegative :=
  foldl_jsAdd_count_notNegative (fun p => p.conversions) _ _ (by simp [JSNum.notNegative])

/-- The formatting of a finite non-negative ratio below `10 ^ 21` by
`toFixed(2)`: two fraction digits, nearest hundredth, ties upward. -/
theorem jsToFixed_two_of_notNegative (v : JSNum) (x : ℚ) (hv : v = .fin x)
    (hnn : v.notNegative) (h21 : x < 10 ^ 21) :
    ∃ n : ℕ, jsToFixed v 2 = twoDecimals n ∧
      (n : ℚ) / 100 - x ≤ 1 / 200 ∧ x - (n : ℚ) / 100 < 1 / 200 := by
  subst hv
  have h0 : 0 ≤ x := hnn
  refine ⟨toFixedInt x 2, ?_, ?_, ?_⟩
  · rw [jsToFixed_of_nonneg x 2 h0 h21, toFixedLayout_two]
  · have := (toFixedInt_spec x 2 h0).1
    push_cast at this
    linarith
  · have := (toFixedInt_spec x 2 h0).2
    push_cast at this
    linarith

/-- C2 fails.  On an exact tie: 201 clicks out of 20000 impressions are exactly
1.005 %, which rounds (ties upward) to `"1.01"`, but the double that
`(201 / 20000) * 100` evaluates to lies just below 1.005 and `toFixed(2)` gives
`"1.00"`.  And from `10 ^ 21` on, `toFixed` switches to exponent notation: a
spend of `10 ^ 21` on one click gives the cost per click `"1e+21"`, a string
without fraction digits. -/
theorem overall_ratio_strings_counterexample :
    ((calculateAggregatedMetrics tieScenario).totalImpressions = .fin 20000 ∧
      (calculateAggregatedMetrics tieScenario).totalClicks = .fin 201 ∧
      (calculateAggregatedMetrics tieScenario).overallCtr = "1.00" ∧
      twoDecimals (toFixedInt ((201 : ℚ) / 20000 * 100) 2) = "1.01") ∧
    ((calculateAggregatedMetrics hugeSpendScenario).totalImpressions = .fin 100 ∧
      (calculateAggregatedMetrics hugeSpendScenario).totalClicks = .fin 1 ∧
      (calculateAggregatedMetrics hugeSpendScenario).overallCpc = "1e+21") := by
  decide!

/-- C2 (amended): for every analyticsData with non-negative spends, whenever the
doubles that `(totalClicks / totalImpressions) * 100`, `totalSpend / totalClicks`
and `(totalConversions / totalClicks) * 100` evaluate to are finite and below
`10 ^ 21` (which needs `totalImpressions > 0` and `totalClicks > 0`),
`overallCtr`, `overallCpc` and `overallConversionRate` are decimal strings with
exactly two fraction digits, obtained by rounding those doubles to the nearest
hundredth, ties upward. -/
theorem overall_ratios_two_decimals (analyticsData : AnalyticsData) (x y z : ℚ)
    (hspend : ∀ entry ∈ analyticsData, 0 ≤ entry.2.spend)
    (hx : overallCtrValue analyticsData = .fin x) (hx21 : x < 10 ^ 21)
    (hy : overallCpcValue analyticsData = .fin y) (hy21 : y < 10 ^ 21)
    (hz : overallConversionRateValue analyticsData = .fin z) (hz21 : z < 10 ^ 21) :
    (∃ n : ℕ, (calculateAggregatedMetrics analyticsData).overallCtr = twoDecimals n ∧
      (n : ℚ) / 100 - x ≤ 1 / 200 ∧ x - (n : ℚ) / 100 < 1 / 200) ∧
    (∃ n : ℕ, (calculateAggregatedMetrics analyticsData).overallCpc = twoDecimals n ∧
      (n : ℚ) / 100 - y ≤ 1 / 200 ∧ y - (n : ℚ) / 100 < 1 / 200) ∧
    (∃ n : ℕ, (calculateAggregatedMetrics analyticsData).overallConversionRate = twoDecimals n ∧
      (n : ℚ) / 100 - z ≤ 1 / 200 ∧ z - (n : ℚ) / 100 < 1 / 200) := by
  refine ⟨?_, ?_, ?_⟩
  · apply jsToFixed_two_of_notNegative _ x hx _ hx21
    exact jsMul_notNegative _ _
      (jsDiv_notNegative _ _ (totalClicksOf_notNegative analyticsData)
        (totalImpressionsOf_notNegative analyticsData))
      (by simp [JSNum.notNegative])
  · apply jsToFixed_two_of_notNegative _ y hy _ hy21
    exact jsDiv_notNegative _ _ (totalSpendOf_notNegative analyticsData hspend)
      (totalClicksOf_notNegative analyticsData)
  · apply jsToFixed_two_of_notNegative _ z hz _ hz21
    exact jsMul_notNegative _ _
      (jsDiv_notNegative _ _ (totalConversionsOf_notNegative analyticsData)
        (totalClicksOf_notNegative analyticsData))
      (by simp [JSNum.notNegative])

/-- Witness for C2 (amended): the end-to-end scenario, whose ratios are the
doubles next to 1.2, 1.7361… and 4.0277…. -/
theorem overall_ratios_two_decimals_witness :
    (∃ n : ℕ, (calculateAggregatedMetrics facebookScenario).overallCtr = twoDecimals n ∧
      (n : ℚ) / 100 - 5404319552844595 / 4503599627370496 ≤ 1 / 200 ∧
      5404319552844595 / 4503599627370496 - (n : ℚ) / 100 < 1 / 200) ∧
    (∃ n : ℕ, (calculateAggregatedMetrics facebookScenario).overallCpc = twoDecimals n ∧
      (n : ℚ) / 100 - 3909374676536889 / 2251799813685248 ≤ 1 / 200 ∧
      3909374676536889 / 2251799813685248 - (n : ℚ) / 100 < 1 / 200) ∧
    (∃ n : ℕ, (calculateAggregatedMetrics facebookScenario).overallConversionRate = twoDecimals n ∧
      (n : ℚ) / 100 - 4534874624782791 / 1125899906842624 ≤ 1 / 200 ∧
      4534874624782791 / 1125899906842624 - (n : ℚ) / 100 < 1 / 200) :=
  overall_ratios_two_decimals facebookScenario _ _ _ (by decide!) (by decide!) (by norm_num)
    (by decide!) (by norm_num) (by decide!) (by norm_num)

/-! ## Order of the entries -/

theorem totalImpressionsOf_perm (d₁ d₂ : AnalyticsData) (h : d₁.Perm d₂)
    (hsum : (d₁.map (fun entry => entry.2.impressions)).sum ≤ 2 ^ 53) :
    totalImpressionsOf d₁ = totalImpressionsOf d₂ := by
  have heq : (d₁.map (fun entry => entry.2.impressions)).sum
      = (d₂.map (fun entry => entry.2.impressions)).sum := (h.map _).sum_eq
  rw [totalImpressionsOf_exact d₁ hsum, totalImpressionsOf_exact d₂ (by rw [← heq]; exact hsum), heq]

theorem totalClicksOf_perm (d₁ d₂ : AnalyticsData) (h : d₁.Perm d₂)
    (hsum : (d₁.map (fun entry => entry.2.clicks)).sum ≤ 2 ^ 53) :
    totalClicksOf d₁ = totalClicksOf d₂ := by
  have heq : (d₁.map (fun entry => entry.2.clicks)).sum
      = (d₂.map (fun entry => entry.2.clicks)).sum := (h.map _).sum_eq
  rw [totalClicksOf_exact d₁ hsum, totalClicksOf_exact d₂ (by rw [← heq]; exact hsum), heq]

theorem totalConversionsOf_perm (d₁ d₂ : AnalyticsData) (h : d₁.Perm d₂)
    (hsum : (d₁.map (fun entry => entry.2.conversions)).sum ≤ 2 ^ 53) :
    totalConversionsOf d₁ = totalConversionsOf d₂ := by
  have heq : (d₁.map (fun entry => entry.2.conversions)).sum
      = (d₂.map (fun entry => entry.2.conversions)).sum := (h.map _).sum_eq
  rw [totalConversionsOf_exact d₁ hsum, totalConversionsOf_exact d₂ (by rw [← heq]; exact hsum), heq]

/-- C4 fails.  With the spends 0.1, 0.2 and 0.3 the total is
0.6000000000000001 in this order and 0.6 in the reverse order, because the
addition of doubles is not associative.  With `2 ^ 53`, 1 and 1 impressions
the total is `2 ^ 53` in this order and `2 ^ 53 + 2` in the reverse order. -/
theorem totalSpend_depends_on_order :
    (fractionalSpends.reverse.Perm fractionalSpends ∧
      (calculateAggregatedMetrics fractionalSpends).totalSpend
        = .fin (5404319552844596 / 9007199254740992) ∧
      (calculateAggregatedMetrics fractionalSpends.reverse).totalSpend
        = .fin (5404319552844595 / 9007199254740992) ∧
      (calculateAggregatedMetrics fractionalSpends.reverse).totalSpend
        ≠ (calculateAggregatedMetrics fractionalSpends).totalSpend) ∧
    (largeCounts.reverse.Perm largeCounts ∧
      (calculateAggregatedMetrics largeCounts).totalImpressions = .fin 9007199254740992 ∧
      (calculateAggregatedMetrics largeCounts.reverse).totalImpressions
        = .fin 9007199254740994 ∧
      (calculateAggregatedMetrics largeCounts.reverse).totalImpressions
        ≠ (calculateAggregatedMetrics largeCounts).totalImpressions) := by
  refine ⟨⟨List.reverse_perm _, ?_, ?_, ?_⟩, ⟨List.reverse_perm _, ?_, ?_, ?_⟩⟩ <;> decide!

/-- C4 (amended): when the spends are whole numbers that add up to at most
`2 ^ 53` and the impressions, the clicks and the conversions each add up to at
most `2 ^ 53` (where the addition of doubles is exact), every permutation of
the entries yields the same four totals and the same three ratio strings, and a
`platformBreakdown` that holds the same records in the permuted order. -/
theorem aggregation_order_independent (d₁ d₂ : AnalyticsData) (hperm : d₁.Perm d₂)
    (hwhole : ∀ entry ∈ d₁, ∃ n : ℕ, entry.2.spend = (n : ℚ))
    (hsum : (d₁.map (fun entry => entry.2.spend)).sum ≤ 2 ^ 53)
    (himpressions : (d₁.map (fun entry => entry.2.impressions)).sum ≤ 2 ^ 53)
    (hclicks : (d₁.map (fun entry => entry.2.clicks)).sum ≤ 2 ^ 53)
    (hconversions : (d₁.map (fun entry => entry.2.conversions)).sum ≤ 2 ^ 53) :
    (calculateAggregatedMetrics d₁).totalSpend = (calculateAggregatedMetrics d₂).totalSpend ∧
    (calculateAggregatedMetrics d₁).totalImpressions
      = (calculateAggregatedMetrics d₂).totalImpressions ∧
    (calculateAggregatedMetrics d₁).totalClicks = (calculateAggregatedMetrics d₂).totalClicks ∧
    (calculateAggregatedMetrics d₁).totalConversions
      = (calculateAggregatedMetrics d₂).totalConversions ∧
    (calculateAggregatedMetrics d₁).overallCtr = (calculateAggregatedMetrics d₂).overallCtr ∧
    (calculateAggregatedMetrics d₁).overallCpc = (calculateAggregatedMetrics d₂).overallCpc ∧
    (calculateAggregatedMetrics d₁).overallConversionRate
      = (calculateAggregatedMetrics d₂).overallConversionRate ∧
    (calculateAggregatedMetrics d₁).platformBreakdown.Perm
      (calculateAggregatedMetrics d₂).platformBreakdown := by
  have hsumeq : (d₁.map (fun entry => entry.2.spend)).sum
      = (d₂.map (fun entry => entry.2.spend)).sum := (hperm.map _).sum_eq
  have hwhole₂ : ∀ entry ∈ d₂, ∃ n : ℕ, entry.2.spend = (n : ℚ) :=
    fun entry hentry => hwhole entry (hperm.mem_iff.mpr hentry)
  have hS : totalSpendOf d₁ = totalSpendOf d₂ := by
    rw [totalSpendOf_of_whole d₁ hwhole hsum,
      totalSpendOf_of_whole d₂ hwhole₂ (by rw [← hsumeq]; exact hsum), hsumeq]
  have hI := totalImpressionsOf_perm d₁ d₂ hperm himpressions
  have hC := totalClicksOf_perm d₁ d₂ hperm hclicks
  have hV := totalConversionsOf_perm d₁ d₂ hperm hconversions
  refine ⟨hS, hI, hC, hV, ?_, ?_, ?_, ?_⟩
  · simp only [calculateAggregatedMetrics, overallCtrValue, hI, hC]
  · simp only [calculateAggregatedMetrics, overallCpcValue, hS, hC]
  · simp only [calculateAggregatedMetrics, overallConversionRateValue, hV, hC]
  · simp only [calculateAggregatedMetrics, hS, hV]
    exact hperm.map _

/-- Witness for C4 (amended): three platforms with the whole-number spends of the
mock data, and the reverse order. -/
theorem aggregation_order_independent_witness :
    (calculateAggregatedMetrics wholeSpends).totalSpend
      = (calculateAggregatedMetrics wholeSpends.reverse).totalSpend ∧
    (calculateAggregatedMetrics wholeSpends).totalImpressions
      = (calculateAggregatedMetrics wholeSpends.reverse).totalImpressions ∧
    (calculateAggregatedMetrics wholeSpends).totalClicks
      = (calculateAggregatedMetrics wholeSpends.reverse).totalClicks ∧
    (calculateAggregatedMetrics wholeSpends).totalConversions
      = (calculateAggregatedMetrics wholeSpends.reverse).totalConversions ∧
    (calculateAggregatedMetrics wholeSpends).overallCtr
      = (calculateAggregatedMetrics wholeSpends.reverse).overallCtr ∧
    (calculateAggregatedMetrics wholeSpends).overallCpc
      = (calculateAggregatedMetrics wholeSpends.reverse).overallCpc ∧
    (calculateAggregatedMetrics wholeSpends).overallConversionRate
      = (calculateAggregatedMetrics wholeSpends.reverse).overallConversionRate ∧
    (calculateAggregatedMetrics wholeSpends).platformBreakdown.Perm
      (calculateAggregatedMetrics wholeSpends.reverse).platformBreakdown :=
  aggregation_order_independent wholeSpends wholeSpends.reverse (List.reverse_perm _).symm
    (by
      intro entry hentry
      simp only [wholeSpends, spendOnly, List.mem_cons, List.mem_singleton, List.mem_nil_iff,
        or_false] at hentry
      rcases hentry with h | h | h
      · exact ⟨12500, by rw [h]; norm_num⟩
      · exact ⟨8900, by rw [h]; norm_num⟩
      · exact ⟨7490, by rw [h]; norm_num⟩)
    (by decide!) (by decide!) (by decide!) (by decide!)

/-! ## Error of one rounding -/

theorem ilog2_le (q : ℚ) (hq : 0 < q) : pow2 (ilog2 q) ≤ q := by
  unfold ilog2
  split_ifs with h
  · exact h
  · have hnum : 0 < q.num := Rat.num_pos.mpr hq
    have hnat : 0 < q.num.natAbs := Int.natAbs_pos.mpr (ne_of_gt hnum)
    obtain ⟨hlo, _, hposA⟩ := bitLength_spec q.num.natAbs hnat
    obtain ⟨_, hhi, hposB⟩ := bitLength_spec q.den q.den_pos
    have hq' : q = (q.num.natAbs : ℚ) / (q.den : ℚ) := by
      have h2 : ((q.num.natAbs : ℕ) : ℚ) = (q.num : ℚ) := by
        rw [Nat.cast_natAbs, abs_of_pos hnum]
      rw [h2]
      exact (Rat.num_div_den q).symm
    have hden : (0 : ℚ) < q.den := by exact_mod_cast q.den_pos
    rw [pow2_eq_zpow]
    have he : ((bitLength q.num.natAbs : ℤ) - (bitLength q.den : ℤ) - 1)
        = ((bitLength q.num.natAbs - 1 : ℕ) : ℤ) - (bitLength q.den : ℤ) := by omega
    rw [he, zpow_sub₀ (by norm_num : (2 : ℚ) ≠ 0), zpow_natCast, zpow_natCast]
    have h1 : ((2 : ℚ) ^ (bitLength q.num.natAbs - 1)) ≤ (q.num.natAbs : ℚ) := by
      exact_mod_cast hlo
    have h2 : (q.den : ℚ) ≤ (2 : ℚ) ^ bitLength q.den := by
      exact_mod_cast le_of_lt hhi
    conv_rhs => rw [hq']
    exact div_le_div₀ (by positivity) h1 hden h2

theorem roundHalfEven_sub_le (y : ℚ) :
    (roundHalfEven y : ℚ) - y ≤ 1 / 2 ∧ y - (roundHalfEven y : ℚ) ≤ 1 / 2 := by
  have h1 := Int.floor_le y
  have h2 := Int.lt_floor_add_one y
  unfold roundHalfEven
  split_ifs with a b c
  · constructor <;> linarith
  · push_cast; constructor <;> linarith
  · constructor <;> linarith
  · push_cast; constructor <;> linarith

/-- The rounding error of a positive number, before the overflow check: at most
`2 ^ (-53)` relative plus `2 ^ (-1075)` absolute. -/
theorem roundPos_raw_error (q : ℚ) (hq : 0 < q) :
    (roundHalfEven (q / quantum q) : ℚ) * quantum q - q ≤ q / 2 ^ 53 + 1 / 2 ^ 1075 ∧
      q - (roundHalfEven (q / quantum q) : ℚ) * quantum q ≤ q / 2 ^ 53 + 1 / 2 ^ 1075 := by
  have hQ : 0 < quantum q := pow2_pos _
  obtain ⟨h1, h2⟩ := roundHalfEven_sub_le (q / quantum q)
  have hhalf : quantum q / 2 ≤ q / 2 ^ 53 + 1 / 2 ^ 1075 := by
    unfold quantum
    rcases le_total (ilog2 q) (-1022) with hle | hge
    · rw [max_eq_right hle]
      have : pow2 (-1022 - 52) = 1 / 2 ^ 1074 := by
        rw [pow2_eq_zpow]; norm_num
      rw [this]
      have : (0 : ℚ) ≤ q / 2 ^ 53 := by positivity
      have e : (1 : ℚ) / 2 ^ 1074 / 2 = 1 / 2 ^ 1075 := by norm_num
      linarith
    · rw [max_eq_left hge]
      have hle := ilog2_le q hq
      rw [pow2_eq_zpow] at hle ⊢
      have e : (2 : ℚ) ^ (ilog2 q - 52) = 2 ^ ilog2 q / 2 ^ 52 := by
        rw [zpow_sub₀ (by norm_num : (2 : ℚ) ≠ 0)]
        norm_num
      rw [e]
      have : (2 : ℚ) ^ ilog2 q / 2 ^ 52 / 2 = 2 ^ ilog2 q / 2 ^ 53 := by ring
      rw [this]
      have h3 : (2 : ℚ) ^ ilog2 q / 2 ^ 53 ≤ q / 2 ^ 53 :=
        div_le_div_of_nonneg_right hle (by positivity)
      have : (0 : ℚ) ≤ 1 / 2 ^ 1075 := by positivity
      linarith
  have e : (roundHalfEven (q / quantum q) : ℚ) * quantum q - q
      = ((roundHalfEven (q / quantum q) : ℚ) - q / quantum q) * quantum q := by
    rw [sub_mul, div_mul_cancel₀ _ (ne_of_gt hQ)]
  constructor
  · rw [e]
    have : ((roundHalfEven (q / quantum q) : ℚ) - q / quantum q) * quantum q
        ≤ 1 / 2 * quantum q := mul_le_mul_of_nonneg_right h1 (le_of_lt hQ)
    linarith
  · have e' : q - (roundHalfEven (q / quantum q) : ℚ) * quantum q
        = (q / quantum q - (roundHalfEven (q / quantum q) : ℚ)) * quantum q := by
      rw [sub_mul, div_mul_cancel₀ _ (ne_of_gt hQ)]
    rw [e']
    have : (q / quantum q - (roundHalfEven (q / quantum q) : ℚ)) * quantum q
        ≤ 1 / 2 * quantum q := mul_le_mul_of_nonneg_right h2 (le_of_lt hQ)
    linarith

/-- Rounding a non-negative number: a finite result is non-negative and within
`2 ^ (-53)` relative plus `2 ^ (-1075)` absolute of the exact value. -/
theorem roundDouble_error (q r : ℚ) (hq : 0 ≤ q) (h : roundDouble q = .fin r) :
    0 ≤ r ∧ r ≤ q + (q / 2 ^ 53 + 1 / 2 ^ 1075) ∧ q - (q / 2 ^ 53 + 1 / 2 ^ 1075) ≤ r := by
  have hnn : (roundDouble q).notNegative := roundDouble_notNegative q hq
  rw [h] at hnn
  refine ⟨hnn, ?_⟩
  by_cases h0 : q = 0
  · subst h0
    simp only [roundDouble, if_true] at h
    injection h with h
    subst h
    norm_num
  · have hpos : 0 < q := lt_of_le_of_ne hq (Ne.symm h0)
    obtain ⟨e1, e2⟩ := roundPos_raw_error q hpos
    simp only [roundDouble, h0, hpos, if_false, if_true] at h
    unfold roundPos at h
    split_ifs at h
    injection h with h
    rw [← h]
    constructor <;> linarith

/-- Rounding a non-negative number below `2 ^ 1023` does not overflow. -/
theorem roundDouble_finite (q : ℚ) (hq : 0 ≤ q) (hlt : q < 2 ^ 1023) :
    ∃ r, roundDouble q = .fin r := by
  by_cases h0 : q = 0
  · exact ⟨0, by simp [roundDouble, h0]⟩
  · have hpos : 0 < q := lt_of_le_of_ne hq (Ne.symm h0)
    obtain ⟨e1, _⟩ := roundPos_raw_error q hpos
    have hsmall : ¬ (pow2 1024 ≤ (roundHalfEven (q / quantum q) : ℚ) * quantum q) := by
      rw [not_le, pow2_eq_zpow]
      have h1 : q / 2 ^ 53 ≤ q := div_le_self hq (by norm_num)
      have h2 : (1 : ℚ) / 2 ^ 1075 ≤ 1 := by
        rw [div_le_one (by positivity)]
        exact one_le_pow₀ (by norm_num)
      have h3 : (2 : ℚ) ^ (1024 : ℤ) = 2 * 2 ^ 1023 := by norm_num
      have h4 : (1 : ℚ) ≤ 2 ^ 1023 := one_le_pow₀ (by norm_num)
      rw [h3]
      nlinarith
    refine ⟨(roundHalfEven (q / quantum q) : ℚ) * quantum q, ?_⟩
    simp only [roundDouble, h0, hpos, if_false, if_true]
    unfold roundPos
    rw [if_neg hsmall]

/-! ## Error of the spend total -/

theorem jsAdd_fin_right_eq_fin (acc : JSNum) (x t : ℚ) (h : jsAdd acc (.fin x) = .fin t) :
    ∃ a, acc = .fin a := by
  cases acc with
  | fin a => exact ⟨a, rfl⟩
  | nan => simp [jsAdd] at h
  | pinf => simp [jsAdd] at h
  | ninf => simp [jsAdd] at h

theorem foldl_jsAdd_eq_fin (ps : List PlatformMetrics) (acc : JSNum) (t : ℚ)
    (h : ps.foldl (fun sum platform => jsAdd sum (.fin platform.spend)) acc = .fin t) :
    ∃ a, acc = .fin a := by
  induction ps generalizing acc with
  | nil => exact ⟨t, by simpa using h⟩
  | cons p ps ih =>
    simp only [List.foldl_cons] at h
    obtain ⟨a', ha'⟩ := ih _ h
    exact jsAdd_fin_right_eq_fin acc p.spend a' ha'

theorem sum_spend_nonneg (ps : List PlatformMetrics) (h : ∀ p ∈ ps, 0 ≤ p.spend) :
    0 ≤ (ps.map (fun p => p.spend)).sum := by
  apply List.sum_nonneg
  intro x hx
  rw [List.mem_map] at hx
  obtain ⟨p, hp, rfl⟩ := hx
  exact h p hp

theorem unitRoundoff_nonneg : 0 ≤ unitRoundoff := by unfold unitRoundoff; positivity

theorem unitRoundoff_le_one : unitRoundoff ≤ 1 := by unfold unitRoundoff; norm_num

theorem underflowUnit_nonneg : 0 ≤ underflowUnit := by unfold underflowUnit; positivity

theorem roundDouble_error_bounds (q r : ℚ) (hq : 0 ≤ q) (h : roundDouble q = .fin r) :
    0 ≤ r ∧ r ≤ q * (1 + unitRoundoff) + underflowUnit ∧
      q * (1 - unitRoundoff) - underflowUnit ≤ r := by
  obtain ⟨h0, h1, h2⟩ := roundDouble_error q r hq h
  unfold unitRoundoff underflowUnit
  refine ⟨h0, ?_, ?_⟩ <;> linarith

/-- The total of non-negative spends, summed in doubles from `acc`, against the
exact sum: each of the `n` additions loses at most `2 ^ (-53)` relative and
`2 ^ (-1075)` absolute. -/
theorem foldl_jsAdd_error (ps : List PlatformMetrics) (acc t : ℚ) (hacc : 0 ≤ acc)
    (hspend : ∀ p ∈ ps, 0 ≤ p.spend)
    (h : ps.foldl (fun sum platform => jsAdd sum (.fin platform.spend)) (.fin acc) = .fin t) :
    (acc + (ps.map (fun p => p.spend)).sum) * (1 - unitRoundoff) ^ ps.length
        - ps.length * underflowUnit ≤ t ∧
      t ≤ (acc + (ps.map (fun p => p.spend)).sum + ps.length * underflowUnit)
        * (1 + unitRoundoff) ^ ps.length := by
  induction ps generalizing acc with
  | nil =>
    simp only [List.foldl_nil] at h
    injection h with h
    subst h
    simp
  | cons p rest ih =>
    simp only [List.foldl_cons] at h
    have hx : 0 ≤ p.spend := hspend p (List.mem_cons_self _ _)
    have hrest : ∀ p' ∈ rest, 0 ≤ p'.spend := fun p' hp' => hspend p' (List.mem_cons_of_mem _ hp')
    obtain ⟨acc', hacc'⟩ := foldl_jsAdd_eq_fin rest _ t h
    have hstep : roundDouble (acc + p.spend) = .fin acc' := hacc'
    obtain ⟨h0, hup, hlo⟩ :=
      roundDouble_error_bounds (acc + p.spend) acc' (add_nonneg hacc hx) hstep
    rw [hacc'] at h
    obtain ⟨ihlo, ihup⟩ := ih acc' h0 hrest h
    have hS : 0 ≤ (rest.map (fun p => p.spend)).sum := sum_spend_nonneg rest hrest
    set S := (rest.map (fun p => p.spend)).sum with hSdef
    set m : ℕ := rest.length with hm
    have hmq : (0 : ℚ) ≤ (m : ℚ) := Nat.cast_nonneg m
    have hu0 := unitRoundoff_nonneg
    have ha0 := underflowUnit_nonneg
    have hu : (0 : ℚ) ≤ 1 - unitRoundoff := by linarith [unitRoundoff_le_one]
    have hu1 : (1 : ℚ) - unitRoundoff ≤ 1 := by linarith
    have hpl : (0 : ℚ) ≤ (1 - unitRoundoff) ^ m := pow_nonneg hu m
    have hpl1 : ((1 : ℚ) - unitRoundoff) ^ m ≤ 1 := pow_le_one₀ hu hu1
    have hpu : (0 : ℚ) ≤ (1 + unitRoundoff) ^ m := pow_nonneg (by linarith) m
    simp only [List.map_cons, List.sum_cons, List.length_cons, Nat.cast_add, Nat.cast_one,
      pow_succ]
    constructor
    · have h1 : (acc + p.spend + S) * (1 - unitRoundoff) - underflowUnit ≤ acc' + S := by
        nlinarith
      have h2 : ((acc + p.spend + S) * (1 - unitRoundoff) - underflowUnit)
            * (1 - unitRoundoff) ^ m
          ≤ (acc' + S) * (1 - unitRoundoff) ^ m := mul_le_mul_of_nonneg_right h1 hpl
      have h3 : underflowUnit * (1 - unitRoundoff) ^ m ≤ underflowUnit := by
        nlinarith
      nlinarith
    · have h1 : acc' + S + m * underflowUnit
          ≤ (acc + p.spend + S + (m + 1) * underflowUnit) * (1 + unitRoundoff) := by
        have : (0 : ℚ) ≤ (m : ℚ) * underflowUnit := mul_nonneg hmq ha0
        nlinarith
      have h2 : (acc' + S + m * underflowUnit) * (1 + unitRoundoff) ^ m
          ≤ (acc + p.spend + S + (m + 1) * underflowUnit) * (1 + unitRoundoff)
            * (1 + unitRoundoff) ^ m := mul_le_mul_of_nonneg_right h1 hpu
      nlinarith

/-! ## Shares of spend -/

theorem unitRoundoff_le : unitRoundoff ≤ 1 / 10 ^ 15 := by
  unfold unitRoundoff
  norm_num

theorem underflowUnit_le : underflowUnit ≤ 1 / 10 ^ 323 := by
  unfold underflowUnit
  apply div_le_div_of_nonneg_left (by norm_num) (by norm_num)
  norm_num

theorem thousand_le_two_pow : (1024 : ℚ) ≤ 2 ^ 1023 := by
  have : (2 : ℚ) ^ 10 ≤ 2 ^ 1023 := pow_le_pow_right₀ (by norm_num) (by norm_num)
  linarith

/-- The percentage `(spend / totalSpend) * 100` of one platform, computed in
doubles, against the exact ratio: finite, between 0 and 101, and within a
relative `10 ^ (-8)` of `100 * spend / total`, up to `10 ^ (-320)`. -/
theorem shareOfSpendValue_bounds (metrics : PlatformMetrics) (t : ℚ) (ht : 0 < t)
    (h0 : 0 ≤ metrics.spend) (hle : metrics.spend ≤ (1 + 1 / 10 ^ 6) * t) :
    ∃ p : ℚ, shareOfSpendValue (.fin t) metrics = .fin p ∧ 0 ≤ p ∧ p ≤ 101 ∧
      p ≤ (100 + 1 / 10 ^ 6) * (metrics.spend / t) + 1 / 10 ^ 320 ∧
      (100 - 1 / 10 ^ 6) * (metrics.spend / t) - 1 / 10 ^ 320 ≤ p := by
  have hq0 : 0 ≤ metrics.spend / t := div_nonneg h0 (le_of_lt ht)
  have hq1 : metrics.spend / t ≤ 1 + 1 / 10 ^ 6 := by
    rw [div_le_iff₀ ht]; exact hle
  have hbig := thousand_le_two_pow
  have hu0 := unitRoundoff_nonneg
  have hu := unitRoundoff_le
  have ha0 := underflowUnit_nonneg
  have ha := underflowUnit_le
  obtain ⟨r, hr⟩ := roundDouble_finite (metrics.spend / t) hq0 (by linarith)
  obtain ⟨hr0, hrup, hrlo⟩ := roundDouble_error_bounds (metrics.spend / t) r hq0 hr
  have hr2 : r ≤ 2 := by nlinarith
  have hr100 : 0 ≤ r * 100 := mul_nonneg hr0 (by norm_num)
  obtain ⟨p, hp⟩ := roundDouble_finite (r * 100) hr100 (by linarith)
  obtain ⟨hp0, hpup, hplo⟩ := roundDouble_error_bounds (r * 100) p hr100 hp
  have hval : shareOfSpendValue (.fin t) metrics = .fin p := by
    unfold shareOfSpendValue
    simp only [jsDiv, ne_of_gt ht, if_false, hr, jsMul, hp]
  generalize metrics.spend / t = q at *
  generalize unitRoundoff = u at *
  generalize underflowUnit = a at *
  refine ⟨p, hval, hp0, ?_, ?_, ?_⟩
  · nlinarith
  · nlinarith
  · nlinarith

theorem unitRoundoff_le_fine : unitRoundoff ≤ 1 / (9 * 10 ^ 15) := by
  unfold unitRoundoff
  norm_num

theorem one_sub_mul_le_pow_unitRoundoff (n : ℕ) :
    1 - (n : ℚ) * unitRoundoff ≤ (1 - unitRoundoff) ^ n := by
  have h := one_add_mul_le_pow (show (-2 : ℚ) ≤ -unitRoundoff by
    linarith [unitRoundoff_le_one]) n
  have e1 : (1 : ℚ) + (n : ℚ) * -unitRoundoff = 1 - (n : ℚ) * unitRoundoff := by ring
  have e2 : (1 : ℚ) + -unitRoundoff = 1 - unitRoundoff := by ring
  rw [e1, e2] at h
  exact h

theorem pow_mul_one_sub_le_one (n : ℕ) :
    (1 + unitRoundoff) ^ n * (1 - (n : ℚ) * unitRoundoff) ≤ 1 := by
  have hu0 := unitRoundoff_nonneg
  have hu1 := unitRoundoff_le_one
  have h1 : (1 + unitRoundoff) ^ n * (1 - unitRoundoff) ^ n ≤ 1 := by
    rw [← mul_pow]
    apply pow_le_one₀
    · nlinarith
    · nlinarith
  have h2 := one_sub_mul_le_pow_unitRoundoff n
  have h3 : (0 : ℚ) ≤ (1 + unitRoundoff) ^ n := pow_nonneg (by linarith) n
  calc (1 + unitRoundoff) ^ n * (1 - (n : ℚ) * unitRoundoff)
      ≤ (1 + unitRoundoff) ^ n * (1 - unitRoundoff) ^ n := mul_le_mul_of_nonneg_left h2 h3
    _ ≤ 1 := h1

/-- The total of non-negative spends computed in doubles is within a relative
`10 ^ (-6)` of the exact sum, for up to `10 ^ 9` platforms and a total of at
least `10 ^ (-300)`. -/
theorem totalSpendOf_near_sum (analyticsData : AnalyticsData) (t : ℚ)
    (hspend : ∀ entry ∈ analyticsData, 0 ≤ entry.2.spend)
    (ht : totalSpendOf analyticsData = .fin t) (hmin : 1 / 10 ^ 300 ≤ t)
    (hn : analyticsData.length ≤ 10 ^ 9) :
    (1 - 1 / 10 ^ 6) * t ≤ (analyticsData.map (fun entry => entry.2.spend)).sum ∧
      (analyticsData.map (fun entry => entry.2.spend)).sum ≤ (1 + 1 / 10 ^ 6) * t := by
  have hspend' : ∀ p ∈ analyticsData.map Prod.snd, 0 ≤ p.spend := by
    intro p hp
    rw [List.mem_map] at hp
    obtain ⟨entry, hentry, rfl⟩ := hp
    exact hspend entry hentry
  obtain ⟨lo, hi⟩ := foldl_jsAdd_error (analyticsData.map Prod.snd) 0 t le_rfl hspend' ht
  have hA : 0 ≤ ((analyticsData.map Prod.snd).map (fun p => p.spend)).sum :=
    sum_spend_nonneg _ hspend'
  have hmap : ((analyticsData.map Prod.snd).map (fun p => p.spend))
      = analyticsData.map (fun entry => entry.2.spend) := by
    rw [List.map_map]; rfl
  rw [hmap] at lo hi hA
  rw [List.length_map] at lo hi
  rw [zero_add] at lo hi
  have hnq : ((analyticsData.length : ℕ) : ℚ) ≤ 10 ^ 9 := by exact_mod_cast hn
  have hn0 : (0 : ℚ) ≤ ((analyticsData.length : ℕ) : ℚ) := Nat.cast_nonneg _
  have hu0 := unitRoundoff_nonneg
  have hu := unitRoundoff_le_fine
  have ha0 := underflowUnit_nonneg
  have ha := underflowUnit_le
  have hnu : ((analyticsData.length : ℕ) : ℚ) * unitRoundoff ≤ 1 / (9 * 10 ^ 6) := by
    calc ((analyticsData.length : ℕ) : ℚ) * unitRoundoff
        ≤ 10 ^ 9 * (1 / (9 * 10 ^ 15)) := mul_le_mul hnq hu hu0 (by norm_num)
      _ = 1 / (9 * 10 ^ 6) := by norm_num
  have hna : ((analyticsData.length : ℕ) : ℚ) * underflowUnit ≤ t / 10 ^ 14 := by
    calc ((analyticsData.length : ℕ) : ℚ) * underflowUnit
        ≤ 10 ^ 9 * (1 / 10 ^ 323) := mul_le_mul hnq ha ha0 (by norm_num)
      _ = 1 / 10 ^ 300 / 10 ^ 14 := by norm_num
      _ ≤ t / 10 ^ 14 := div_le_div_of_nonneg_right hmin (by norm_num)
  have hna0 : 0 ≤ ((analyticsData.length : ℕ) : ℚ) * underflowUnit := mul_nonneg hn0 ha0
  have hB := one_sub_mul_le_pow_unitRoundoff analyticsData.length
  have hP := pow_mul_one_sub_le_one analyticsData.length
  have ht0 : 0 < t := lt_of_lt_of_le (by norm_num) hmin
  generalize (analyticsData.map (fun entry => entry.2.spend)).sum = A at *
  generalize ((analyticsData.length : ℕ) : ℚ) * unitRoundoff = X at *
  generalize ((analyticsData.length : ℕ) : ℚ) * underflowUnit = Y at *
  generalize (1 - unitRoundoff) ^ analyticsData.length = L at *
  generalize (1 + unitRoundoff) ^ analyticsData.length = U at *
  constructor
  · -- t * (1 - X) ≤ (A + Y) * U * (1 - X) ≤ A + Y
    have h1 : t * (1 - X) ≤ (A + Y) * U * (1 - X) :=
      mul_le_mul_of_nonneg_right hi (by linarith)
    have h2 : (A + Y) * U * (1 - X) ≤ A + Y := by
      have : (A + Y) * (U * (1 - X)) ≤ (A + Y) * 1 :=
        mul_le_mul_of_nonneg_left hP (by linarith)
      linarith
    nlinarith
  · -- A * (1 - X) ≤ A * L ≤ t + Y
    have h1 : A * (1 - X) ≤ A * L := mul_le_mul_of_nonneg_left hB hA
    nlinarith

/-- One `shareOfSpend` string, read back: a multiple `k / 10` of a tenth, with
`k` within a half of ten times the exact percentage (up to the rounding of the
percentage itself). -/
theorem shareOfSpend_entry (entry : String × PlatformMetrics) (t : ℚ) (conversions : JSNum)
    (ht : 0 < t) (h0 : 0 ≤ entry.2.spend) (hle : entry.2.spend ≤ (1 + 1 / 10 ^ 6) * t) :
    ∃ k : ℕ,
      writtenNumber (breakdownRecord (.fin t) conversions entry).shareOfSpend = (k : ℚ) / 10 ∧
      (k : ℚ) ≤ 10 * ((100 + 1 / 10 ^ 6) * (entry.2.spend / t) + 1 / 10 ^ 320) + 1 / 2 ∧
      10 * ((100 - 1 / 10 ^ 6) * (entry.2.spend / t) - 1 / 10 ^ 320) - 1 / 2 ≤ (k : ℚ) := by
  obtain ⟨p, hp, hp0, hp101, hup, hlo⟩ := shareOfSpendValue_bounds entry.2 t ht h0 hle
  obtain ⟨k1, k2⟩ := toFixedInt_spec p 1 hp0
  refine ⟨toFixedInt p 1, ?_, ?_, ?_⟩
  · simp only [breakdownRecord]
    rw [hp, jsToFixed_of_nonneg p 1 hp0 (by linarith), toFixedLayout_one,
      writtenNumber_oneDecimal]
  · simp only [pow_one, Nat.cast_ofNat] at k1
    linarith
  · simp only [pow_one, Nat.cast_ofNat] at k2
    linarith

/-- The sum of the `shareOfSpend` strings of a list of entries, read back. -/
theorem shareOfSpend_entries (entries : List (String × PlatformMetrics)) (t : ℚ)
    (conversions : JSNum) (ht : 0 < t)
    (h : ∀ entry ∈ entries, 0 ≤ entry.2.spend ∧ entry.2.spend ≤ (1 + 1 / 10 ^ 6) * t) :
    ∃ K : ℕ,
      ((entries.map (breakdownRecord (.fin t) conversions)).map
        (fun record => writtenNumber record.shareOfSpend)).sum = (K : ℚ) / 10 ∧
      (K : ℚ) ≤ 10 * (100 + 1 / 10 ^ 6) * ((entries.map (fun entry => entry.2.spend)).sum / t)
        + entries.length * (1 / 10 ^ 319 + 1 / 2) ∧
      10 * (100 - 1 / 10 ^ 6) * ((entries.map (fun entry => entry.2.spend)).sum / t)
        - entries.length * (1 / 10 ^ 319 + 1 / 2) ≤ (K : ℚ) := by
  induction entries with
  | nil => exact ⟨0, by simp, by simp, by simp⟩
  | cons entry rest ih =>
    obtain ⟨hs0, hsle⟩ := h entry (List.mem_cons_self _ _)
    obtain ⟨k, hk, hkup, hklo⟩ := shareOfSpend_entry entry t conversions ht hs0 hsle
    obtain ⟨K, hK, hKup, hKlo⟩ := ih (fun e he => h e (List.mem_cons_of_mem _ he))
    refine ⟨k + K, ?_, ?_, ?_⟩
    · simp only [List.map_cons, List.sum_cons]
      rw [hk, hK]
      push_cast
      ring
    · simp only [List.map_cons, List.sum_cons, List.length_cons]
      push_cast
      rw [add_div]
      have e : (1 : ℚ) / 10 ^ 319 = 10 * (1 / 10 ^ 320) := by norm_num
      rw [e]
      linarith
    · simp only [List.map_cons, List.sum_cons, List.length_cons]
      push_cast
      rw [add_div]
      have e : (1 : ℚ) / 10 ^ 319 = 10 * (1 / 10 ^ 320) := by norm_num
      rw [e]
      linarith

/-- C3 fails from a handful of platforms on: six platforms with the same spend
get the share `"16.7"` each, and the six shares add up to 100.2. -/
theorem shareOfSpend_sum_counterexample :
    (∀ entry ∈ sixEqualSpends, 0 ≤ entry.2.spend) ∧
    (calculateAggregatedMetrics sixEqualSpends).totalSpend = .fin 6 ∧
    (calculateAggregatedMetrics sixEqualSpends).platformBreakdown.map
        (fun record => record.shareOfSpend) = ["16.7", "16.7", "16.7", "16.7", "16.7", "16.7"] ∧
    shareOfSpendSum (calculateAggregatedMetrics sixEqualSpends) = 1002 / 10 ∧
    ¬ (|shareOfSpendSum (calculateAggregatedMetrics sixEqualSpends) - 100| ≤ 1 / 10) := by
  decide!

/-- C3 (amended): for every analyticsData with at most `10 ^ 9` platforms,
non-negative spends and a finite totalSpend of at least `10 ^ (-300)`, the sum
over all `platformBreakdown` records of `shareOfSpend`, each read back as a
number, differs from 100.0 by at most 0.1 for every two platforms:
`|sum - 100| ≤ ⌊n / 2⌋ / 10` for `n` platforms.  So the sum is exactly 100.0 for
one platform and within 0.1 for two or three. -/
theorem shareOfSpend_sum_near_100 (analyticsData : AnalyticsData) (t : ℚ)
    (hspend : ∀ entry ∈ analyticsData, 0 ≤ entry.2.spend)
    (ht : (calculateAggregatedMetrics analyticsData).totalSpend = .fin t)
    (hmin : 1 / 10 ^ 300 ≤ t) (hn : analyticsData.length ≤ 10 ^ 9) :
    |shareOfSpendSum (calculateAggregatedMetrics analyticsData) - 100|
      ≤ ((analyticsData.length / 2 : ℕ) : ℚ) / 10 := by
  have ht' : totalSpendOf analyticsData = .fin t := ht
  have ht0 : 0 < t := lt_of_lt_of_le (by norm_num) hmin
  obtain ⟨hAlo, hAup⟩ := totalSpendOf_near_sum analyticsData t hspend ht' hmin hn
  have hentry : ∀ entry ∈ analyticsData,
      0 ≤ entry.2.spend ∧ entry.2.spend ≤ (1 + 1 / 10 ^ 6) * t := by
    intro entry hentry
    refine ⟨hspend entry hentry, le_trans ?_ hAup⟩
    apply List.single_le_sum
    · intro x hx
      rw [List.mem_map] at hx
      obtain ⟨e, he, rfl⟩ := hx
      exact hspend e he
    · exact List.mem_map_of_mem _ hentry
  obtain ⟨K, hK, hKup, hKlo⟩ :=
    shareOfSpend_entries analyticsData t (totalConversionsOf analyticsData) ht0 hentry
  have hsum : shareOfSpendSum (calculateAggregatedMetrics analyticsData) = (K : ℚ) / 10 := by
    unfold shareOfSpendSum
    simp only [calculateAggregatedMetrics]
    rw [ht']
    exact hK
  have hr1 : (analyticsData.map (fun entry => entry.2.spend)).sum / t ≤ 1 + 1 / 10 ^ 6 := by
    rw [div_le_iff₀ ht0]; exact hAup
  have hr0 : 1 - 1 / 10 ^ 6 ≤ (analyticsData.map (fun entry => entry.2.spend)).sum / t := by
    rw [le_div_iff₀ ht0]; exact hAlo
  have hnq : ((analyticsData.length : ℕ) : ℚ) ≤ 10 ^ 9 := by exact_mod_cast hn
  have hn0 : (0 : ℚ) ≤ ((analyticsData.length : ℕ) : ℚ) := Nat.cast_nonneg _
  have hsmall : ((analyticsData.length : ℕ) : ℚ) * (1 / 10 ^ 319) ≤ 1 / 10 ^ 310 := by
    calc ((analyticsData.length : ℕ) : ℚ) * (1 / 10 ^ 319)
        ≤ 10 ^ 9 * (1 / 10 ^ 319) := mul_le_mul_of_nonneg_right hnq (by positivity)
      _ = 1 / 10 ^ 310 := by norm_num
  generalize (analyticsData.map (fun entry => entry.2.spend)).sum / t = ρ at *
  -- integer bounds on K
  have hup : (2 * K : ℚ) < ((2001 + analyticsData.length : ℕ) : ℚ) := by
    push_cast
    nlinarith
  have hlo : ((1999 : ℕ) : ℚ) < ((2 * K + analyticsData.length : ℕ) : ℚ) := by
    push_cast
    nlinarith
  have hup' : 2 * K < 2001 + analyticsData.length := by exact_mod_cast hup
  have hlo' : 1999 < 2 * K + analyticsData.length := by exact_mod_cast hlo
  have h1 : K ≤ 1000 + analyticsData.length / 2 := by omega
  have h2 : 1000 ≤ K + analyticsData.length / 2 := by omega
  have h1q : (K : ℚ) ≤ 1000 + ((analyticsData.length / 2 : ℕ) : ℚ) := by exact_mod_cast h1
  have h2q : (1000 : ℚ) ≤ (K : ℚ) + ((analyticsData.length / 2 : ℕ) : ℚ) := by
    exact_mod_cast h2
  rw [hsum, abs_le]
  constructor <;> linarith

/-- Witness for C3 (amended): the three platforms of the mock data; their
shares add up to within 0.1 of 100. -/
theorem shareOfSpend_sum_near_100_witness :
    |shareOfSpendSum (calculateAggregatedMetrics wholeSpends) - 100|
      ≤ ((wholeSpends.length / 2 : ℕ) : ℚ) / 10 :=
  shareOfSpend_sum_near_100 wholeSpends 28890 (by decide!) (by decide!) (by norm_num)
    (by decide!)

/-! ## Fallback branches of the completion client -/

theorem withSourceMock_mock (prompt : String) :
    withSourceMock (generateStructuredAnalysis prompt).toJson
      = (generateStructuredAnalysis prompt).toJson := by
  simp [withSourceMock, Analysis.toJson, setField, generateStructuredAnalysis]

theorem mock_source (prompt : String) :
    Json.field? "source" (generateStructuredAnalysis prompt).toJson = some (.str "mock") := by
  simp [Json.field?, Analysis.toJson, getField, generateStructuredAnalysis]

/-- C11.  In every fallback branch of `callChatGPT` (the API key is missing,
or `checkRateLimit` throws, or the provider outcome is anything but a parsed
value: a failed request with status 429 or any other or no status, an answer
whose content cannot be read, content that does not parse) the returned value
is `generateStructuredAnalysis(prompt)` for the same prompt, and its `source`
is `"mock"`.  `callChatGPT` is a total function, so in each of these branches
the caller gets this value and no failure. -/
theorem callChatGPT_fallback (env : Environment) (rateLimit : RateLimit) (prompt : String)
    (h : apiKeyMissing env = true ∨ (checkRateLimit rateLimit env.now).2 ≠ none ∨
      ∀ value, env.api ≠ .parsed value) :
    (callChatGPT env rateLimit prompt).1 = (generateStructuredAnalysis prompt).toJson ∧
      Json.field? "source" (callChatGPT env rateLimit prompt).1 = some (.str "mock") := by
  have key : (callChatGPT env rateLimit prompt).1 = (generateStructuredAnalysis prompt).toJson := by
    unfold callChatGPT
    by_cases hkey : apiKeyMissing env = true
    · simp [hkey]
    · simp only [hkey, if_false]
      cases hrl : (checkRateLimit rateLimit env.now).2 with
      | some message => simp [withSourceMock_mock]
      | none =>
        cases hapi : env.api with
        | parsed value =>
          rcases h with h | h | h
          · exact absurd h hkey
          · exact absurd hrl h
          · exact absurd hapi (h value)
        | unparsable => simp [withSourceMock_mock]
        | unreadable => simp [withSourceMock_mock]
        | requestFailed status => simp [withSourceMock_mock]
  exact ⟨key, by rw [key]; exact mock_source prompt⟩

theorem callChatGPT_fallback_witness :
    (apiKeyMissing providerSays429 = true ∨
        (checkRateLimit (initialRateLimit 0) providerSays429.now).2 ≠ none ∨
        ∀ value, providerSays429.api ≠ .parsed value) ∧
      (callChatGPT providerSays429 (initialRateLimit 0) rateAtThresholdPrompt).1
        = (generateStructuredAnalysis rateAtThresholdPrompt).toJson ∧
      Json.field? "source"
          (callChatGPT providerSays429 (initialRateLimit 0) rateAtThresholdPrompt).1
        = some (.str "mock") :=
  ⟨Or.inr (Or.inr (fun _ h => by cases h)),
    callChatGPT_fallback _ _ _ (Or.inr (Or.inr (fun _ h => by cases h)))⟩

/-! ## Field collisions in the report assembler -/

theorem getField_setField (key key' : String) (value : Json) (fields : List (String × Json)) :
    getField key (setField key' value fields)
      = if key' = key then some value else getField key fields := by
  induction fields with
  | nil => simp [setField, getField]
  | cons kv rest ih =>
    obtain ⟨k, v⟩ := kv
    by_cases h1 : k = key'
    · subst h1
      by_cases h2 : k = key
      · simp [setField, getField, h2]
      · simp [setField, getField, h2]
    · by_cases h2 : k = key
      · subst h2
        have h3 : ¬ key' = k := fun h => h1 h.symm
        simp [setField, getField, h1, h3]
      · simp [setField, getField, h1, h2, ih]

theorem getField_append (key : String) (front back : List (String × Json)) :
    getField key (front ++ back)
      = match getField key front with
        | some value => some value
        | none => getField key back := by
  induction front with
  | nil => simp [getField]
  | cons kv rest ih =>
    obtain ⟨k, v⟩ := kv
    by_cases h : k = key
    · simp [getField, h]
    · simp [getField, h, ih]

theorem getField_mergeFields (key : String) (fields more : List (String × Json)) :
    getField key (mergeFields fields more)
      = match lastField key more with
        | some value => some value
        | none => getField key fields := by
  unfold mergeFields lastField
  induction more generalizing fields with
  | nil => simp [getField]
  | cons kv rest ih =>
    obtain ⟨k, v⟩ := kv
    simp only [List.foldl_cons, List.reverse_cons]
    rw [ih, getField_append, getField_setField]
    cases getField key rest.reverse with
    | some value => rfl
    | none =>
      by_cases h : k = key
      · simp [getField, h]
      · simp [getField, h]

/-- C12 fails.  A completion result that carries a `summary` field overwrites
the aggregated metrics: the result is spread after `summary: aggregatedData`,
so the report of the end-to-end scenario ends up with the provider's text as
its `summary`, not with the aggregated object. -/
theorem parseChatGPTResponse_summary_overwritten :
    getField "summary"
        (parseChatGPTResponse 1700000000000 "2023-11-14T22:13:20.000Z" responseWithSummary
          (calculateAggregatedMetrics facebookScenario) ["facebook"] "last_30_days")
      = some (.str "written by the provider") ∧
    Json.str "written by the provider" ≠ (calculateAggregatedMetrics facebookScenario).toJson := by
  constructor
  · simp [parseChatGPTResponse, responseWithSummary, mergeFields, spreadFields, setField, getField]
  · simp [AggregatedMetrics.toJson]

/-- C12, amended.  Every field of the report is the field of that name of the
completion result when the result has one, and the assembler's own field
otherwise; `summary` is no exception.  So `summary` equals `aggregatedData`
whenever the completion result has no `summary` field, and otherwise it is the
result's `summary`, just as `id`, `timestamp`, `timeframe` and `platforms` are
overwritten by fields of these names. -/
theorem parseChatGPTResponse_field (now : ℤ) (isoTimestamp : String)
    (response : Json) (aggregatedData : AggregatedMetrics) (platforms : List String)
    (timeframe : String) :
    (∀ key,
      getField key
          (parseChatGPTResponse now isoTimestamp response aggregatedData platforms timeframe)
        = match lastField key (spreadFields response) with
          | some value => some value
          | none =>
              getField key
                (assemblerFields now isoTimestamp aggregatedData platforms timeframe)) ∧
    getField "summary"
        (parseChatGPTResponse now isoTimestamp response aggregatedData platforms timeframe)
      = match lastField "summary" (spreadFields response) with
        | some value => some value
        | none => some aggregatedData.toJson := by
  have general : ∀ key,
      getField key
          (parseChatGPTResponse now isoTimestamp response aggregatedData platforms timeframe)
        = match lastField key (spreadFields response) with
          | some value => some value
          | none =>
              getField key
                (assemblerFields now isoTimestamp aggregatedData platforms timeframe) := by
    intro key
    unfold parseChatGPTResponse assemblerFields
    exact getField_mergeFields key _ _
  refine ⟨general, ?_⟩
  rw [general "summary"]
  simp [assemblerFields, getField]

/-! ## The deterministic generator -/

/-- C13.  `generateStructuredAnalysis` chooses its wording by the test
`overallConversionRate > 4` on the extracted rate.  When the test fails (the
rate is at most 4) the first insight is titled "Conversion Rate Optimization
Needed" with impact "warning" and the first trend is "down" by "-0.3%"; when it
holds the title is "Strong Conversion Performance" with impact "positive" and
the first trend is "up" by "+0.8%".  For an extracted rate that is a finite
number `x` the test holds exactly when `4 < x`. -/
theorem generateStructuredAnalysis_threshold (prompt : String) :
    (jsGt (extractOverallConversionRate prompt) (.fin 4) = false →
      firstInsightHeading (generateStructuredAnalysis prompt)
          = some ("Conversion Rate Optimization Needed", "warning") ∧
        firstTrendChange (generateStructuredAnalysis prompt) = some ("down", "-0.3%")) ∧
    (jsGt (extractOverallConversionRate prompt) (.fin 4) = true →
      firstInsightHeading (generateStructuredAnalysis prompt)
          = some ("Strong Conversion Performance", "positive") ∧
        firstTrendChange (generateStructuredAnalysis prompt) = some ("up", "+0.8%")) ∧
    (∀ x, extractOverallConversionRate prompt = .fin x →
      (jsGt (extractOverallConversionRate prompt) (.fin 4) = true ↔ 4 < x)) := by
  refine ⟨?_, ?_, ?_⟩
  · intro h
    simp [firstInsightHeading, firstTrendChange, generateStructuredAnalysis, mockInsights,
      mockTrends, h]
  · intro h
    simp [firstInsightHeading, firstTrendChange, generateStructuredAnalysis, mockInsights,
      mockTrends, h]
  · intro x hx
    rw [hx]
    simp [jsGt]

theorem generateStructuredAnalysis_threshold_witness :
    (extractOverallConversionRate rateAtThresholdPrompt = .fin 4 ∧
      firstInsightHeading (generateStructuredAnalysis rateAtThresholdPrompt)
          = some ("Conversion Rate Optimization Needed", "warning") ∧
        firstTrendChange (generateStructuredAnalysis rateAtThresholdPrompt)
          = some ("down", "-0.3%")) ∧
    (extractOverallConversionRate rateAboveThresholdPrompt = .fin (jsonNumber (401 / 100)) ∧
      firstInsightHeading (generateStructuredAnalysis rateAboveThresholdPrompt)
          = some ("Strong Conversion Performance", "positive") ∧
        firstTrendChange (generateStructuredAnalysis rateAboveThresholdPrompt)
          = some ("up", "+0.8%")) :=
  ⟨⟨by decide!, (generateStructuredAnalysis_threshold rateAtThresholdPrompt).1 (by decide!)⟩,
    ⟨by decide!,
      (generateStructuredAnalysis_threshold rateAboveThresholdPrompt).2.1 (by decide!)⟩⟩

/-- C14.  For every prompt text, `generateStructuredAnalysis` returns
`source = "mock"` together with exactly 3 insights, exactly 3 recommendations
and exactly 3 trends. -/
theorem generateStructuredAnalysis_shape (prompt : String) :
    (generateStructuredAnalysis prompt).source = "mock" ∧
      (generateStructuredAnalysis prompt).insights.length = 3 ∧
      (generateStructuredAnalysis prompt).recommendations.length = 3 ∧
      (generateStructuredAnalysis prompt).trends.length = 3 := by
  simp [generateStructuredAnalysis, mockInsights, mockRecommendations, mockTrends]

/-- C16 fails.  Two prompts whose extracted conversion rates, 5 and 6, are both
above the threshold get different outputs: the description of the first
insight quotes the extracted rate. -/
theorem generateStructuredAnalysis_quotes_rate :
    jsGt (extractOverallConversionRate rateFivePrompt) (.fin 4) = true ∧
    jsGt (extractOverallConversionRate rateSixPrompt) (.fin 4) = true ∧
    (generateStructuredAnalysis rateFivePrompt).insights.head?.map (fun i => i.description)
      = some ("Your overall conversion rate of 5% is above industry average (2.5%). " ++
          "This indicates effective targeting and compelling ad messaging.") ∧
    (generateStructuredAnalysis rateSixPrompt).insights.head?.map (fun i => i.description)
      = some ("Your overall conversion rate of 6% is above industry average (2.5%). " ++
          "This indicates effective targeting and compelling ad messaging.") ∧
    generateStructuredAnalysis rateFivePrompt ≠ generateStructuredAnalysis rateSixPrompt := by
  decide!

/-- C16, amended.  For two prompts whose extracted conversion rates fall on the
same side of the threshold 4, the outputs agree in every field except the two
descriptions that quote extracted numbers: the description of the first
insight (the rate) and the description of the second insight (the total
spend).  When the two prompts also give the same rate text and the same spend
text, the outputs are identical. -/
theorem generateStructuredAnalysis_same_variant (p₁ p₂ : String)
    (h : jsGt (extractOverallConversionRate p₁) (.fin 4)
      = jsGt (extractOverallConversionRate p₂) (.fin 4)) :
    (generateStructuredAnalysis p₁).withoutInterpolatedText
        = (generateStructuredAnalysis p₂).withoutInterpolatedText ∧
      (jsNumberToString (extractOverallConversionRate p₁)
          = jsNumberToString (extractOverallConversionRate p₂) →
        jsToLocaleString (extractTotalSpend p₁) = jsToLocaleString (extractTotalSpend p₂) →
        generateStructuredAnalysis p₁ = generateStructuredAnalysis p₂) := by
  constructor
  · simp [Analysis.withoutInterpolatedText, generateStructuredAnalysis, mockInsights,
      mockTrends, h]
  · intro hrate hspend
    simp [generateStructuredAnalysis, mockInsights, mockTrends, h, hrate, hspend]

theorem generateStructuredAnalysis_same_variant_witness :
    jsGt (extractOverallConversionRate rateFivePrompt) (.fin 4)
        = jsGt (extractOverallConversionRate rateSixPrompt) (.fin 4) ∧
      (generateStructuredAnalysis rateFivePrompt).withoutInterpolatedText
        = (generateStructuredAnalysis rateSixPrompt).withoutInterpolatedText :=
  ⟨by decide!, (generateStructuredAnalysis_same_variant rateFivePrompt rateSixPrompt
    (by decide!)).1⟩



/-! ## Ratios without clicks -/

theorem totalClicksOf_eq_zero (analyticsData : AnalyticsData)
    (h : ∀ entry ∈ analyticsData, entry.2.clicks = 0) :
    totalClicksOf analyticsData = .fin 0 := by
  have hsum : (analyticsData.map (fun entry => entry.2.clicks)).sum = 0 := by
    apply List.sum_eq_zero
    intro x hx
    rw [List.mem_map] at hx
    obtain ⟨entry, hentry, rfl⟩ := hx
    exact h entry hentry
  rw [totalClicksOf_exact analyticsData (by rw [hsum]; exact Nat.zero_le _), hsum]
  simp

/-- A number that is not negative, divided by zero: `NaN` or `Infinity`. -/
theorem jsDiv_zero_of_notNegative (a : JSNum) (ha : a.notNegative) :
    jsDiv a (.fin 0) = .nan ∨ jsDiv a (.fin 0) = .pinf := by
  cases a with
  | nan => left; rfl
  | pinf => right; simp [jsDiv]
  | ninf => exact absurd ha (by simp [JSNum.notNegative])
  | fin t =>
    have ht : 0 ≤ t := ha
    by_cases ht0 : t = 0
    · left; simp [jsDiv, ht0]
    · right
      have : 0 < t := lt_of_le_of_ne ht (Ne.symm ht0)
      simp [jsDiv, ht0, this]

/-- C18 fails.  With two platforms of which one has no click, the total of the
clicks is 10, not 0, and both ratios are ordinary decimals: the cost per click
is `"15.00"` and the conversion rate `"10.00"`. -/
theorem zero_click_entry_finite_ratios :
    (∃ entry ∈ oneIdlePlatform, entry.2.clicks = 0) ∧
    (calculateAggregatedMetrics oneIdlePlatform).overallCpc = "15.00" ∧
    (calculateAggregatedMetrics oneIdlePlatform).overallConversionRate = "10.00" := by
  refine ⟨⟨_, List.mem_cons_self _ _, rfl⟩, ?_, ?_⟩
  · decide!
  · decide!

/-- C18, amended.  When every platform entry has `clicks = 0` (so that the
total of the clicks is 0) and no spend is negative, `calculateAggregatedMetrics`
returns an `overallCpc` and an `overallConversionRate` that are each `"NaN"` or
`"Infinity"`. -/
theorem zero_total_clicks_ratios (analyticsData : AnalyticsData)
    (hclicks : ∀ entry ∈ analyticsData, entry.2.clicks = 0)
    (hspend : ∀ entry ∈ analyticsData, 0 ≤ entry.2.spend) :
    ((calculateAggregatedMetrics analyticsData).overallCpc = "NaN" ∨
      (calculateAggregatedMetrics analyticsData).overallCpc = "Infinity") ∧
    ((calculateAggregatedMetrics analyticsData).overallConversionRate = "NaN" ∨
      (calculateAggregatedMetrics analyticsData).overallConversionRate = "Infinity") := by
  have h0 := totalClicksOf_eq_zero analyticsData hclicks
  have hnn := totalSpendOf_notNegative analyticsData hspend
  constructor
  · show jsToFixed (overallCpcValue analyticsData) 2 = "NaN"
      ∨ jsToFixed (overallCpcValue analyticsData) 2 = "Infinity"
    unfold overallCpcValue
    rw [h0]
    rcases jsDiv_zero_of_notNegative _ hnn with h | h <;> rw [h]
    · left; rfl
    · right; rfl
  · show jsToFixed (overallConversionRateValue analyticsData) 2 = "NaN"
      ∨ jsToFixed (overallConversionRateValue analyticsData) 2 = "Infinity"
    unfold overallConversionRateValue
    rw [h0]
    rcases jsDiv_zero_of_notNegative _ (totalConversionsOf_notNegative analyticsData)
      with h | h <;> rw [h]
    · left; rfl
    · right; simp [jsMul, jsToFixed]

theorem zero_total_clicks_ratios_witness :
    (∀ entry ∈ noClicksAtAll, entry.2.clicks = 0) ∧
    (∀ entry ∈ noClicksAtAll, 0 ≤ entry.2.spend) ∧
    ((calculateAggregatedMetrics noClicksAtAll).overallCpc = "NaN" ∨
      (calculateAggregatedMetrics noClicksAtAll).overallCpc = "Infinity") ∧
    ((calculateAggregatedMetrics noClicksAtAll).overallConversionRate = "NaN" ∨
      (calculateAggregatedMetrics noClicksAtAll).overallConversionRate = "Infinity") :=
  ⟨by simp [noClicksAtAll], by simp [noClicksAtAll],
    zero_total_clicks_ratios noClicksAtAll (by simp [noClicksAtAll]) (by simp [noClicksAtAll])⟩

/-! ## The `source` of the report -/

theorem callChatGPT_mock_or_parsed (env : Environment) (rateLimit : RateLimit)
    (prompt : String) :
    (callChatGPT env rateLimit prompt).1 = (generateStructuredAnalysis prompt).toJson ∨
      ∃ value, env.api = .parsed value ∧ (callChatGPT env rateLimit prompt).1 = value := by
  unfold callChatGPT
  by_cases hkey : apiKeyMissing env = true
  · left; simp [hkey]
  · simp only [hkey, if_false]
    cases hrl : (checkRateLimit rateLimit env.now).2 with
    | some message => left; simp [withSourceMock_mock]
    | none =>
      cases hapi : env.api with
      | parsed value => right; exact ⟨value, rfl, rfl⟩
      | unparsable => left; simp [withSourceMock_mock]
      | unreadable => left; simp [withSourceMock_mock]
      | requestFailed status => left; simp [withSourceMock_mock]

theorem field_setField_source (value : Json) (fields : List (String × Json)) :
    Json.field? "source" (.obj (setField "source" value fields)) = some value := by
  simp [Json.field?, getField_setField]

/-- C19 fails.  When the provider's answer parses to an object that has a
`source` field of its own, here `"gpt-3.5-turbo"`, the handler keeps it:
`chatGPTResponse.source || "openai"` is the provider's value, and the report
that is sent has `source = "gpt-3.5-turbo"`, neither `"openai"` nor `"mock"`. -/
theorem generateReport_foreign_source :
    reportSource
        (generateReport providerNamesItself 1700000000000 "2023-11-14T22:13:20.000Z"
          (initialRateLimit 0) ["facebook"] "last_30_days" facebookScenario).1
      = some (.str "gpt-3.5-turbo") := by
  have hcall : ∀ prompt, (callChatGPT providerNamesItself (initialRateLimit 0) prompt).1
      = .obj [("insights", .arr []), ("recommendations", .arr []), ("trends", .arr []),
          ("source", .str "gpt-3.5-turbo")] := by
    intro prompt
    have hrl : (checkRateLimit (initialRateLimit 0) providerNamesItself.now).2 = none := by
      decide
    simp [callChatGPT, apiKeyMissing, providerNamesItself, hrl] at hrl ⊢
  simp only [generateReport, hcall, reportSource]
  simp [readSource, getField, sourceOrOpenai, truthy, Response.body?, field_setField_source]

/-- C19, amended.  For every request that reaches the end of the handler, the
`source` of the report is `"mock"`, or `"openai"`, or else it is the truthy
`source` value that the provider's parsed answer carried.  So it is `"openai"`
or `"mock"` whenever the parsed answer has no truthy `source` of its own. -/
theorem generateReport_source (env : Environment) (reportTime : ℤ) (isoTimestamp : String)
    (rateLimit : RateLimit) (platforms : List String) (timeframe : String)
    (analyticsData : AnalyticsData) (body : Json)
    (h : (generateReport env reportTime isoTimestamp rateLimit platforms timeframe
      analyticsData).1 = .ok body) :
    Json.field? "source" body = some (.str "mock") ∨
      Json.field? "source" body = some (.str "openai") ∨
      ∃ value source, env.api = .parsed value ∧ Json.field? "source" value = some source ∧
        truthy source = true ∧ Json.field? "source" body = some source := by
  unfold generateReport at h
  simp only at h
  rcases callChatGPT_mock_or_parsed env rateLimit
      (generateAnalysisPrompt platforms timeframe analyticsData
        (calculateAggregatedMetrics analyticsData)) with hmock | ⟨value, hapi, hvalue⟩
  · left
    rw [hmock] at h
    simp only [Analysis.toJson, readSource, getField, if_true, sourceOrOpenai,
      generateStructuredAnalysis, truthy] at h
    simp at h
    rw [← h]
    exact field_setField_source _ _
  · rw [hvalue] at h
    cases value with
    | null => simp [readSource] at h
    | obj fields =>
      simp only [readSource] at h
      cases hsrc : getField "source" fields with
      | none =>
        right; left
        rw [hsrc] at h
        simp only [sourceOrOpenai, Response.ok.injEq, Prod.mk.injEq] at h
        rw [← h]
        exact field_setField_source _ _
      | some source =>
        rw [hsrc] at h
        by_cases htruthy : truthy source = true
        · right; right
          refine ⟨.obj fields, source, hapi, by simpa [Json.field?] using hsrc, htruthy, ?_⟩
          simp only [sourceOrOpenai, htruthy, if_true, Response.ok.injEq] at h
          rw [← h]
          exact field_setField_source _ _
        · right; left
          simp only [sourceOrOpenai, htruthy, Response.ok.injEq] at h
          simp at h
          rw [← h]
          exact field_setField_source _ _
    | bool b =>
      right; left
      simp only [readSource, sourceOrOpenai, Response.ok.injEq] at h
      rw [← h]
      exact field_setField_source _ _
    | num x =>
      right; left
      simp only [readSource, sourceOrOpenai, Response.ok.injEq] at h
      rw [← h]
      exact field_setField_source _ _
    | str s =>
      right; left
      simp only [readSource, sourceOrOpenai, Response.ok.injEq] at h
      rw [← h]
      exact field_setField_source _ _
    | arr items =>
      right; left
      simp only [readSource, sourceOrOpenai, Response.ok.injEq] at h
      rw [← h]
      exact field_setField_source _ _

theorem generateReport_source_witness :
    ∃ body,
      (generateReport noKeyConfigured 1700000000000 "2023-11-14T22:13:20.000Z"
        (initialRateLimit 0) ["facebook"] "last_30_days" facebookScenario).1 = .ok body ∧
      (Json.field? "source" body = some (.str "mock") ∨
        Json.field? "source" body = some (.str "openai") ∨
        ∃ value source, noKeyConfigured.api = .parsed value ∧
          Json.field? "source" value = some source ∧
          truthy source = true ∧ Json.field? "source" body = some source) := by
  have hbody :
      (generateReport noKeyConfigured 1700000000000 "2023-11-14T22:13:20.000Z"
        (initialRateLimit 0) ["facebook"] "last_30_days" facebookScenario).1
      = .ok (.obj (setField "source" (.str "mock")
          (parseChatGPTResponse 1700000000000 "2023-11-14T22:13:20.000Z"
            (generateStructuredAnalysis
              (generateAnalysisPrompt ["facebook"] "last_30_days" facebookScenario
                (calculateAggregatedMetrics facebookScenario))).toJson
            (calculateAggregatedMetrics facebookScenario) ["facebook"] "last_30_days"))) := by
    simp [generateReport, callChatGPT, apiKeyMissing, noKeyConfigured, readSource,
      Analysis.toJson, getField, sourceOrOpenai, truthy, generateStructuredAnalysis]
  exact ⟨_, hbody, generateReport_source noKeyConfigured 1700000000000
    "2023-11-14T22:13:20.000Z" (initialRateLimit 0) ["facebook"] "last_30_days"
    facebookScenario _ hbody⟩

/-! ## Pattern search -/

theorem regexCapture_cons (lit : List Char) (cls : Char → Bool) (follow : Option Char)
    (c : Char) (rest : List Char) :
    regexCapture lit cls follow (c :: rest)
      = if lit.isPrefixOf (c :: rest)
            && !(((c :: rest).drop lit.length).takeWhile cls).isEmpty
            && (match follow with
                | none => true
                | some f => (((c :: rest).drop lit.length).dropWhile cls).head? == some f) then
          some (((c :: rest).drop lit.length).takeWhile cls)
        else regexCapture lit cls follow rest := by
  rfl

theorem regexCapture_at (lit : List Char) (cls : Char → Bool) (follow : Option Char)
    (tail : List Char) (hrun : tail.takeWhile cls ≠ [])
    (hfollow : ∀ f, follow = some f → (tail.dropWhile cls).head? = some f) :
    regexCapture lit cls follow (lit ++ tail) = some (tail.takeWhile cls) := by
  have hne : lit ++ tail ≠ [] := by
    intro h
    rw [List.append_eq_nil] at h
    rw [h.2] at hrun
    exact hrun rfl
  obtain ⟨c, rest, hcons⟩ := List.exists_cons_of_ne_nil hne
  have hpre : lit.isPrefixOf (c :: rest) = true := by
    rw [← hcons, List.isPrefixOf_iff_prefix]
    exact List.prefix_append _ _
  have hdrop : (c :: rest).drop lit.length = tail := by
    rw [← hcons, List.drop_left]
  have hempty : (tail.takeWhile cls).isEmpty = false := by
    cases h : tail.takeWhile cls with
    | nil => exact absurd h hrun
    | cons _ _ => rfl
  rw [hcons, regexCapture_cons, hpre, hdrop, hempty]
  cases follow with
  | none => simp
  | some f => simp [hfollow f rfl]

theorem regexCapture_sound (lit : List Char) (cls : Char → Bool) (follow : Option Char)
    (text group : List Char) (h : regexCapture lit cls follow text = some group) :
    ∃ before after, text = before ++ lit ++ group ++ after ∧ group ≠ [] ∧
      (∀ c ∈ group, cls c = true) ∧ ∀ f, follow = some f → after.head? = some f := by
  induction text with
  | nil => simp [regexCapture] at h
  | cons c rest ih =>
    rw [regexCapture_cons] at h
    split at h
    · rename_i hcond
      simp only [Bool.and_eq_true, Bool.not_eq_true', Option.some.injEq] at hcond h
      obtain ⟨⟨hpre, hempty⟩, hfollow⟩ := hcond
      rw [ List.isPrefixOf_iff_prefix, List.prefix_iff_eq_append] at hpre
      refine ⟨[], ((c :: rest).drop lit.length).dropWhile cls, ?_, ?_, ?_, ?_⟩
      · rw [← h, List.nil_append, List.append_assoc, List.takeWhile_append_dropWhile, hpre]
      · rw [← h]
        intro hnil
        rw [hnil] at hempty
        simp at hempty
      · intro x hx
        rw [← h] at hx
        exact List.mem_takeWhile_imp hx
      · intro f hf
        subst hf
        simpa using hfollow
    · obtain ⟨before, after, htext, hrest⟩ := ih h
      exact ⟨c :: before, after, by rw [htext]; simp, hrest⟩

theorem regexCapture_complete (lit : List Char) (cls : Char → Bool) (follow : Option Char)
    (hout : ∀ f, follow = some f → cls f = false)
    (before run after : List Char) (hrun : run ≠ []) (hcls : ∀ c ∈ run, cls c = true)
    (hfollow : ∀ f, follow = some f → after.head? = some f) :
    (regexCapture lit cls follow (before ++ lit ++ run ++ after)).isSome = true := by
  induction before with
  | nil =>
    rw [List.nil_append, List.append_assoc, regexCapture_at]
    · rfl
    · rw [List.takeWhile_append_of_pos hcls]
      intro h
      rw [List.append_eq_nil] at h
      exact hrun h.1
    · intro f hf
      rw [List.dropWhile_append_of_pos hcls]
      have hhead := hfollow f hf
      cases after with
      | nil => simp at hhead
      | cons a more =>
        simp only [List.head?_cons, Option.some.injEq] at hhead
        subst hhead
        simp [List.dropWhile_cons, hout a hf]
  | cons b more ih =>
    simp only [List.cons_append]
    rw [regexCapture_cons]
    split
    · rfl
    · simpa using ih

/-- The pattern search finds a group exactly when the text holds a marker. -/
theorem regexCapture_isSome_iff (lit : List Char) (cls : Char → Bool) (follow : Option Char)
    (hout : ∀ f, follow = some f → cls f = false) (text : List Char) :
    (regexCapture lit cls follow text).isSome = true ↔ hasMarker lit cls follow text := by
  constructor
  · intro h
    obtain ⟨group, hgroup⟩ := Option.isSome_iff_exists.mp h
    obtain ⟨before, after, htext, hne, hcls, hfollow⟩ :=
      regexCapture_sound lit cls follow text group hgroup
    exact ⟨before, group, after, htext, hne, hcls, hfollow⟩
  · rintro ⟨before, run, after, htext, hne, hcls, hfollow⟩
    rw [htext]
    exact regexCapture_complete lit cls follow hout before run after hne hcls hfollow

/-! ## Defaults of the generator -/

/-- C15 fails.  A prompt without a single digit, so without any marker followed
by digits or by a number, still does not get the defaults: in
`- Total Spend: $,` the pattern `[\d,]+` matches the comma and in
`- Overall Conversion Rate: .%` the pattern `[\d.]+` matches the point, so that
both values are `NaN`, not 28890 and 4.2.  The output shows it: the first
insight has the wording for a low rate, where the default 4.2 gives the wording
for a high rate, and the second insight quotes a spend of `$NaN`. -/
theorem digitless_markers_not_defaults :
    (∀ c ∈ digitlessPrompt.toList, isDigit c = false) ∧
    extractTotalSpend digitlessPrompt = .nan ∧
    extractOverallConversionRate digitlessPrompt = .nan ∧
    jsGt (.fin (jsonNumber (42 / 10))) (.fin 4) = true ∧
    firstInsightHeading (generateStructuredAnalysis digitlessPrompt)
      = some ("Conversion Rate Optimization Needed", "warning") ∧
    (generateStructuredAnalysis digitlessPrompt).insights.map (fun i => i.description)
      = ["Your conversion rate of NaN% is below industry average. " ++
          "Focus on improving landing page experience and ad relevance.",
        "Total spend of $NaN across platforms. " ++
          "Monitor cost per acquisition trends and optimize underperforming campaigns.",
        "Multi-platform approach shows good reach distribution. " ++
          "Each platform contributes to overall campaign success."] := by
  decide!

/-! ## Skipping text in which no marker starts -/

theorem isPrefixOf_of_differsFrom (lit s tail : List Char) (h : differsFrom lit s = true) :
    lit.isPrefixOf (s ++ tail) = false := by
  induction lit generalizing s with
  | nil => simp [differsFrom] at h
  | cons a lit ih =>
    cases s with
    | nil => simp [differsFrom] at h
    | cons b s =>
      simp only [differsFrom, Bool.or_eq_true, bne_iff_ne, ne_eq] at h
      simp only [List.cons_append, List.isPrefixOf_cons₂, Bool.and_eq_false_iff]
      by_cases hab : a = b
      · right
        rcases h with h | h
        · exact absurd hab h
        · exact ih s h
      · left
        simpa using hab

theorem regexCapture_skip (lit : List Char) (cls : Char → Bool) (follow : Option Char)
    (skipped tail : List Char) (h : noStartOf lit skipped = true) :
    regexCapture lit cls follow (skipped ++ tail) = regexCapture lit cls follow tail := by
  induction skipped with
  | nil => rfl
  | cons c rest ih =>
    simp only [noStartOf, Bool.and_eq_true] at h
    have hpre := isPrefixOf_of_differsFrom lit (c :: rest) tail h.1
    simp only [List.cons_append] at hpre ⊢
    rw [regexCapture_cons, hpre]
    simpa using ih h.2

theorem noStartOf_of_forall_ne (a : Char) (lit text : List Char)
    (h : ∀ c ∈ text, c ≠ a) : noStartOf (a :: lit) text = true := by
  induction text with
  | nil => rfl
  | cons c rest ih =>
    have hc : a ≠ c := fun hac => h c (List.mem_cons_self _ _) hac.symm
    simp only [noStartOf, differsFrom, Bool.and_eq_true, Bool.or_eq_true, bne_iff_ne, ne_eq]
    exact ⟨Or.inl hc, ih (fun x hx => h x (List.mem_cons_of_mem _ hx))⟩

theorem differsFrom_of_not_isPrefixOf (lit s : List Char) (c : Char)
    (h : lit.isPrefixOf s = false) (hc : c ∉ lit) : differsFrom lit (s ++ [c]) = true := by
  induction lit generalizing s with
  | nil => simp at h
  | cons a lit ih =>
    have hac : a ≠ c := fun hac => hc (by rw [hac]; exact List.mem_cons_self _ _)
    cases s with
    | nil => simp [differsFrom, hac]
    | cons b s =>
      simp only [List.isPrefixOf_cons₂, Bool.and_eq_false_iff] at h
      simp only [List.cons_append, differsFrom, Bool.or_eq_true, bne_iff_ne, ne_eq]
      by_cases hab : a = b
      · right
        rcases h with h | h
        · simp [hab] at h
        · exact ih s h (fun hmem => hc (List.mem_cons_of_mem _ hmem))
      · left; exact hab

theorem noStartOf_append_singleton (lit text : List Char) (c : Char)
    (h : containsText lit text = false) (hc : c ∉ lit) :
    noStartOf lit (text ++ [c]) = true := by
  induction text with
  | nil =>
    cases lit with
    | nil => simp [containsText] at h
    | cons a lit =>
      have hac : a ≠ c := fun hac => hc (by rw [hac]; exact List.mem_cons_self _ _)
      simp [noStartOf, differsFrom, hac]
  | cons b rest ih =>
    simp only [containsText, Bool.or_eq_false_iff] at h
    simp only [List.cons_append, noStartOf, Bool.and_eq_true]
    exact ⟨differsFrom_of_not_isPrefixOf lit (b :: rest) c h.1 hc, ih h.2⟩

theorem regexCapture_skip_text (lit : List Char) (cls : Char → Bool) (follow : Option Char)
    (text tail : List Char) (c : Char) (h : containsText lit text = false) (hc : c ∉ lit) :
    regexCapture lit cls follow (text ++ c :: tail) = regexCapture lit cls follow tail := by
  have : text ++ c :: tail = (text ++ [c]) ++ tail := by simp
  rw [this]
  exact regexCapture_skip lit cls follow _ tail (noStartOf_append_singleton lit text c h hc)

/-! ## Characters of rendered numbers -/

theorem plainChar_of_isDigit (c : Char) (h : isDigit c = true) : plainChar c = true := by
  have hT : c ≠ 'T' := by
    intro hc
    rw [hc] at h
    exact absurd h (by decide)
  have hO : c ≠ 'O' := by
    intro hc
    rw [hc] at h
    exact absurd h (by decide)
  simp [plainChar, hT, hO]

theorem mem_stripTrailingZeros (ds : List Char) (c : Char) (h : c ∈ stripTrailingZeros ds) :
    c ∈ ds := by
  unfold stripTrailingZeros at h
  rw [List.mem_reverse] at h
  exact List.mem_reverse.mp ((List.dropWhile_sublist _).subset h)

theorem mem_groupThousands_fold (l : List (ℕ × Char)) (acc : List Char) (c : Char)
    (h : c ∈ l.foldl
      (fun acc ic => if ic.1 ≠ 0 ∧ ic.1 % 3 = 0 then ic.2 :: ',' :: acc else ic.2 :: acc) acc) :
    c ∈ acc ∨ c = ',' ∨ c ∈ l.map Prod.snd := by
  induction l generalizing acc with
  | nil => left; simpa using h
  | cons ic rest ih =>
    simp only [List.foldl_cons] at h
    rcases ih _ h with h | h | h
    · split at h
      · simp only [List.mem_cons] at h
        rcases h with h | h | h
        · right; right; simp [h]
        · right; left; exact h
        · left; exact h
      · simp only [List.mem_cons] at h
        rcases h with h | h
        · right; right; simp [h]
        · left; exact h
    · right; left; exact h
    · right; right; simp [h]

theorem mem_groupThousands (ds : List Char) (c : Char) (h : c ∈ groupThousands ds) :
    c = ',' ∨ c ∈ ds := by
  unfold groupThousands at h
  rcases mem_groupThousands_fold _ _ _ h with h | h | h
  · simp at h
  · left; exact h
  · right
    rw [List.enum_map_snd] at h
    exact List.mem_reverse.mp h

theorem plainChar_fractionDigits3 (n : ℕ) : ∀ c ∈ fractionDigits3 n, plainChar c = true := by
  intro c hc
  have hmem := mem_stripTrailingZeros _ _ hc
  simp only [List.mem_cons, List.mem_singleton, List.not_mem_nil, or_false] at hmem
  apply plainChar_of_isDigit
  rcases hmem with h | h | h
  · rw [h]; exact isDigit_digitChar _ (by omega)
  · rw [h]; exact isDigit_digitChar _ (by omega)
  · rw [h]; exact isDigit_digitChar _ (by omega)

theorem plainChar_jsToLocaleString (x : JSNum) :
    ∀ c ∈ (jsToLocaleString x).toList, plainChar c = true := by
  cases x with
  | nan => decide
  | pinf => decide
  | ninf => decide
  | fin q =>
    intro c hc
    simp only [jsToLocaleString, String.toList, List.mem_append] at hc
    rcases hc with (hc | hc) | hc
    · split at hc
      · simp only [List.mem_singleton] at hc
        rw [hc]; decide
      · simp at hc
    · rcases mem_groupThousands _ _ hc with h | h
      · rw [h]; decide
      · exact plainChar_of_isDigit c (decimalDigits_isDigit _ c h)
    · split at hc
      · simp at hc
      · simp only [List.mem_cons] at hc
        rcases hc with h | h
        · rw [h]; decide
        · exact plainChar_fractionDigits3 _ c h

theorem plainChar_decimalDigits (n : ℕ) : ∀ c ∈ decimalDigits n, plainChar c = true :=
  fun c hc => plainChar_of_isDigit c (decimalDigits_isDigit n c hc)

theorem plainChar_shortestDecimal (a : ℚ) : ∀ c ∈ (shortestDecimal a).1, plainChar c = true := by
  intro c hc
  unfold shortestDecimal at hc
  split at hc
  · exact plainChar_decimalDigits _ c (mem_stripTrailingZeros _ _ hc)
  · exact plainChar_decimalDigits _ c (mem_stripTrailingZeros _ _ hc)

theorem plainChar_layoutDecimal (ds : List Char) (n : ℤ) (hds : ∀ c ∈ ds, plainChar c = true) :
    ∀ c ∈ layoutDecimal ds n, plainChar c = true := by
  intro c hc
  have hexp : ∀ c ∈ ('e' :: (if 0 ≤ n - 1 then '+' else '-') :: decimalDigits (n - 1).natAbs),
      plainChar c = true := by
    intro c hc
    simp only [List.mem_cons] at hc
    rcases hc with h | h | h
    · rw [h]; decide
    · rw [h]; split <;> decide
    · exact plainChar_decimalDigits _ c h
  unfold layoutDecimal at hc
  simp only at hc
  split at hc
  · rw [List.mem_append] at hc
    rcases hc with h | h
    · exact hds c h
    · rw [List.eq_of_mem_replicate h]; decide
  · split at hc
    · rw [List.mem_append, List.mem_cons] at hc
      rcases hc with h | h | h
      · exact hds c (List.mem_of_mem_take h)
      · rw [h]; decide
      · exact hds c (List.mem_of_mem_drop h)
    · split at hc
      · simp only [List.mem_cons, List.mem_append] at hc
        rcases hc with h | h | h | h
        · rw [h]; decide
        · rw [h]; decide
        · rw [List.eq_of_mem_replicate h]; decide
        · exact hds c h
      · split at hc
        · rw [List.mem_append] at hc
          rcases hc with h | h
          · exact hds c h
          · exact hexp c h
        · rw [List.mem_append, List.mem_cons, List.mem_append] at hc
          rcases hc with h | h | h | h
          · exact hds c (List.mem_of_mem_take h)
          · rw [h]; decide
          · exact hds c (List.mem_of_mem_drop h)
          · exact hexp c h

theorem plainChar_jsNumberToString (x : JSNum) :
    ∀ c ∈ (jsNumberToString x).toList, plainChar c = true := by
  cases x with
  | nan => decide
  | pinf => decide
  | ninf => decide
  | fin q =>
    intro c hc
    unfold jsNumberToString at hc
    simp only at hc
    split at hc
    · revert c; decide
    · split at hc
      · simp only [String.toList, List.mem_cons] at hc
        rcases hc with h | h
        · rw [h]; decide
        · exact plainChar_layoutDecimal _ _ (plainChar_shortestDecimal _) c h
      · exact plainChar_layoutDecimal _ _ (plainChar_shortestDecimal _) c hc

theorem plainChar_toFixedLayout (n f : ℕ) : ∀ c ∈ toFixedLayout n f, plainChar c = true := by
  intro c hc
  have hpad : ∀ c ∈ (if (decimalDigits n).length ≤ f
      then List.replicate (f + 1 - (decimalDigits n).length) '0' ++ decimalDigits n
      else decimalDigits n), plainChar c = true := by
    intro c hc
    split at hc
    · rw [List.mem_append] at hc
      rcases hc with h | h
      · rw [List.eq_of_mem_replicate h]; decide
      · exact plainChar_decimalDigits n c h
    · exact plainChar_decimalDigits n c hc
  unfold toFixedLayout at hc
  simp only at hc
  split at hc
  · exact hpad c hc
  · rw [List.mem_append, List.mem_cons] at hc
    rcases hc with h | h | h
    · exact hpad c (List.mem_of_mem_take h)
    · rw [h]; decide
    · exact hpad c (List.mem_of_mem_drop h)

theorem plainChar_jsToFixed (x : JSNum) (f : ℕ) :
    ∀ c ∈ (jsToFixed x f).toList, plainChar c = true := by
  cases x with
  | nan => show ∀ c ∈ "NaN".toList, plainChar c = true; decide
  | pinf => show ∀ c ∈ "Infinity".toList, plainChar c = true; decide
  | ninf => show ∀ c ∈ "-Infinity".toList, plainChar c = true; decide
  | fin q =>
    intro c hc
    unfold jsToFixed at hc
    simp only at hc
    split at hc
    · exact plainChar_jsNumberToString _ c hc
    · split at hc
      · simp only [String.toList, List.mem_cons] at hc
        rcases hc with h | h
        · rw [h]; decide
        · exact plainChar_toFixedLayout _ _ c h
      · exact plainChar_toFixedLayout _ _ c hc

/-! ## Grouped whole numbers -/

theorem removeCommas_append (front back : List Char) :
    removeCommas (front ++ back) = removeCommas front ++ removeCommas back := by
  simp [removeCommas]

theorem removeCommas_groupThousands_fold (l : List (ℕ × Char)) (acc : List Char) :
    removeCommas (l.foldl
      (fun acc ic => if ic.1 ≠ 0 ∧ ic.1 % 3 = 0 then ic.2 :: ',' :: acc else ic.2 :: acc) acc)
      = removeCommas (l.map Prod.snd).reverse ++ removeCommas acc := by
  induction l generalizing acc with
  | nil => simp [removeCommas]
  | cons ic rest ih =>
    simp only [List.foldl_cons, List.map_cons, List.reverse_cons]
    rw [ih, removeCommas_append, List.append_assoc]
    congr 1
    split
    · have hsplit : ic.2 :: ',' :: acc = [ic.2] ++ ([','] ++ acc) := rfl
      have hcomma : removeCommas [','] = [] := by decide
      rw [hsplit, removeCommas_append, removeCommas_append, hcomma, List.nil_append]
    · have hsplit : ic.2 :: acc = [ic.2] ++ acc := rfl
      rw [hsplit, removeCommas_append]

theorem removeCommas_of_digits (ds : List Char) (h : ∀ c ∈ ds, isDigit c = true) :
    removeCommas ds = ds := by
  unfold removeCommas
  rw [List.filter_eq_self]
  intro c hc
  have hne : c ≠ ',' := by
    intro hcomma
    have := h c hc
    rw [hcomma] at this
    exact absurd this (by decide)
  simpa using hne

theorem removeCommas_groupThousands (ds : List Char) (h : ∀ c ∈ ds, isDigit c = true) :
    removeCommas (groupThousands ds) = ds := by
  unfold groupThousands
  rw [removeCommas_groupThousands_fold, List.enum_map_snd, List.reverse_reverse,
    removeCommas_of_digits ds h]
  simp [removeCommas]

theorem groupThousands_ne_nil (ds : List Char) (h : ∀ c ∈ ds, isDigit c = true)
    (hne : ds ≠ []) : groupThousands ds ≠ [] := by
  intro hnil
  have := removeCommas_groupThousands ds h
  rw [hnil] at this
  exact hne (by simpa [removeCommas] using this.symm)

theorem decimalDigits_ne_nil (n : ℕ) : decimalDigits n ≠ [] := by
  intro h
  have := decimalDigits_length_pos n
  rw [h] at this
  simp at this

theorem toFixedInt_natCast (n f : ℕ) : toFixedInt (n : ℚ) f = n * 10 ^ f := by
  unfold toFixedInt
  have h : ((n : ℚ) * ((10 ^ f : ℕ) : ℚ) + 1 / 2) = (((n * 10 ^ f : ℕ) : ℤ) : ℚ) + 1 / 2 := by
    push_cast
    ring
  rw [h, Int.floor_int_add]
  have h2 : ⌊(1 / 2 : ℚ)⌋ = 0 := by
    rw [Int.floor_eq_iff]
    norm_num
  rw [h2, add_zero]
  exact Int.toNat_natCast _

theorem fractionDigits3_of_whole (n : ℕ) : fractionDigits3 (n * 1000) = [] := by
  unfold fractionDigits3
  have h1 : n * 1000 % 1000 / 100 = 0 := by omega
  have h2 : n * 1000 % 100 / 10 = 0 := by omega
  have h3 : n * 1000 % 10 = 0 := by omega
  rw [h1, h2, h3]
  decide

/-- A whole number below `2 ^ 53` is printed by `toLocaleString` as its digits
with grouping commas. -/
theorem jsToLocaleString_natCast (n : ℕ) (h : n < 2 ^ 53) :
    jsToLocaleString (.fin (n : ℚ)) = String.mk (groupThousands (decimalDigits n)) := by
  have hnn : ¬ ((n : ℚ) < 0) := by
    have : (0 : ℚ) ≤ n := Nat.cast_nonneg n
    linarith
  have habs : |(n : ℚ)| = n := abs_of_nonneg (Nat.cast_nonneg n)
  have hlt : (n : ℚ) < 2 ^ 53 := by exact_mod_cast h
  have hval : shortestDecimalValue (n : ℚ) = n := by
    unfold shortestDecimalValue
    rw [if_pos ⟨Rat.den_natCast n, hlt⟩]
  unfold jsToLocaleString
  simp only [hnn, if_false, habs, hval, toFixedInt_natCast, List.nil_append]
  have hdiv : n * 10 ^ 3 / 1000 = n := by omega
  have hfrac : fractionDigits3 (n * 10 ^ 3) = [] := fractionDigits3_of_whole n
  rw [hdiv, hfrac]
  simp

/-! ## Reading numerals with `parseFloat` -/

theorem isWhiteSpace_of_isDigit (c : Char) (h : isDigit c = true) : isWhiteSpace c = false := by
  have hrange : 48 ≤ c.toNat ∧ c.toNat ≤ 57 := by
    simpa [isDigit] using h
  have hne : ∀ d : Char, (d.toNat < 48 ∨ 57 < d.toNat) → c ≠ d := by
    intro d hd hcd
    rw [hcd] at hrange
    omega
  have h1 := hne ' ' (by decide)
  have h2 := hne '\t' (by decide)
  have h3 := hne '\n' (by decide)
  have h4 := hne '\r' (by decide)
  simp only [isWhiteSpace, Bool.or_eq_false_iff, beq_eq_false_iff_ne, ne_eq]
  refine ⟨⟨⟨⟨⟨⟨⟨⟨⟨h1, h2⟩, h3⟩, h4⟩, ?_⟩, ?_⟩, ?_⟩, ?_⟩, ?_⟩, ?_⟩ <;> omega

theorem not_infinity_of_digit (d : Char) (rest : List Char) (h : isDigit d = true) :
    "Infinity".toList.isPrefixOf (d :: rest) = false := by
  have hne : 'I' ≠ d := by
    intro hd
    rw [← hd] at h
    exact absurd h (by decide)
  show ('I' :: "nfinity".toList).isPrefixOf (d :: rest) = false
  rw [List.isPrefixOf_cons₂]
  simp [hne]

theorem parseUnsigned_digits (ds : List Char) (hne : ds ≠ [])
    (hds : ∀ c ∈ ds, isDigit c = true) :
    parseUnsigned ds = roundDouble (digitsValue ds : ℚ) := by
  obtain ⟨d, rest, hcons⟩ := List.exists_cons_of_ne_nil hne
  have hd : isDigit d = true := hds d (by rw [hcons]; exact List.mem_cons_self _ _)
  have htake : ds.takeWhile isDigit = ds := List.takeWhile_eq_self_iff.mpr hds
  have hdrop : ds.dropWhile isDigit = [] := List.dropWhile_eq_nil_iff.mpr hds
  have hinf : "Infinity".toList.isPrefixOf ds = false := by
    rw [hcons]; exact not_infinity_of_digit d rest hd
  have hempty : ds.isEmpty = false := by rw [hcons]; rfl
  unfold parseUnsigned
  simp only [hinf, htake, hdrop, hempty]
  simp [exponentPart, pow10]

theorem parseUnsigned_digits_point (ds frac : List Char) (hne : ds ≠ [])
    (hds : ∀ c ∈ ds, isDigit c = true) (hfrac : ∀ c ∈ frac, isDigit c = true) :
    parseUnsigned (ds ++ '.' :: frac)
      = roundDouble ((digitsValue (ds ++ frac) : ℚ) * pow10 (-(frac.length : ℤ))) := by
  obtain ⟨d, rest, hcons⟩ := List.exists_cons_of_ne_nil hne
  have hd : isDigit d = true := hds d (by rw [hcons]; exact List.mem_cons_self _ _)
  have hdot : ¬ (isDigit '.' = true) := by decide
  have htake : (ds ++ '.' :: frac).takeWhile isDigit = ds := by
    rw [List.takeWhile_append_of_pos hds, List.takeWhile_cons_of_neg hdot, List.append_nil]
  have hdrop : (ds ++ '.' :: frac).dropWhile isDigit = '.' :: frac := by
    rw [List.dropWhile_append_of_pos hds, List.dropWhile_cons_of_neg hdot]
  have hinf : "Infinity".toList.isPrefixOf (ds ++ '.' :: frac) = false := by
    rw [hcons]; exact not_infinity_of_digit d _ hd
  have hempty : ds.isEmpty = false := by rw [hcons]; rfl
  have hftake : frac.takeWhile isDigit = frac := List.takeWhile_eq_self_iff.mpr hfrac
  have hfdrop : frac.dropWhile isDigit = [] := List.dropWhile_eq_nil_iff.mpr hfrac
  unfold parseUnsigned
  simp only [hinf, htake, hdrop, hempty, hftake, hfdrop]
  simp [exponentPart]

theorem jsParseFloat_of_digit_head (d : Char) (rest : List Char) (hd : isDigit d = true) :
    jsParseFloat (String.mk (d :: rest)) = parseUnsigned (d :: rest) := by
  have hws : ¬ (isWhiteSpace d = true) := by
    rw [isWhiteSpace_of_isDigit d hd]; simp
  unfold jsParseFloat
  simp only [String.toList, List.dropWhile_cons_of_neg hws]
  split
  · next tail heq =>
    simp only [List.cons.injEq] at heq
    rw [heq.1] at hd
    exact absurd hd (by decide)
  · next tail heq =>
    simp only [List.cons.injEq] at heq
    rw [heq.1] at hd
    exact absurd hd (by decide)
  · rfl

/-- `parseFloat` reads the digits of a whole number of at most `2 ^ 53` back as
that number. -/
theorem jsParseFloat_decimalDigits (n : ℕ) (h : n ≤ 2 ^ 53) :
    jsParseFloat (String.mk (decimalDigits n)) = .fin (n : ℚ) := by
  obtain ⟨d, rest, hcons⟩ := List.exists_cons_of_ne_nil (decimalDigits_ne_nil n)
  have hd : isDigit d = true :=
    decimalDigits_isDigit n d (by rw [hcons]; exact List.mem_cons_self _ _)
  rw [hcons, jsParseFloat_of_digit_head d rest hd, ← hcons,
    parseUnsigned_digits _ (decimalDigits_ne_nil n) (decimalDigits_isDigit n),
    digitsValue_decimalDigits, roundDouble_natCast n h]

theorem writtenNumber_twoDecimals (n : ℕ) : writtenNumber (twoDecimals n) = (n : ℚ) / 100 := by
  unfold twoDecimals
  rw [writtenNumber_mk_digits]
  have h : digitsValue [Nat.digitChar (n / 10 % 10), Nat.digitChar (n % 10)]
      = n / 10 % 10 * 10 + n % 10 := by
    simp [digitsValue, digitValue_digitChar (n / 10 % 10) (Nat.mod_lt _ (by omega)),
      digitValue_digitChar (n % 10) (Nat.mod_lt _ (by omega))]
  rw [h]
  have hn : (n : ℚ) = ((n / 100 : ℕ) : ℚ) * 100 + ((n / 10 % 10 * 10 + n % 10 : ℕ) : ℚ) := by
    exact_mod_cast (by omega : n = n / 100 * 100 + (n / 10 % 10 * 10 + n % 10))
  simp only [List.length_cons, List.length_singleton, List.length_nil]
  rw [hn]
  push_cast
  ring

/-- `parseFloat` reads a numeral with two fraction digits as the double nearest
to the number that it writes. -/
theorem jsParseFloat_twoDecimals (n : ℕ) :
    jsParseFloat (twoDecimals n) = roundDouble (writtenNumber (twoDecimals n)) := by
  rw [writtenNumber_twoDecimals]
  obtain ⟨d, rest, hcons⟩ := List.exists_cons_of_ne_nil (decimalDigits_ne_nil (n / 100))
  have hd : isDigit d = true :=
    decimalDigits_isDigit (n / 100) d (by rw [hcons]; exact List.mem_cons_self _ _)
  have hfrac : ∀ c ∈ [Nat.digitChar (n / 10 % 10), Nat.digitChar (n % 10)],
      isDigit c = true := by
    intro c hc
    simp only [List.mem_cons, List.mem_singleton, List.not_mem_nil, or_false] at hc
    rcases hc with hc | hc
    · rw [hc]; exact isDigit_digitChar _ (Nat.mod_lt _ (by omega))
    · rw [hc]; exact isDigit_digitChar _ (Nat.mod_lt _ (by omega))
  have hvalue : digitsValue (decimalDigits (n / 100)
      ++ [Nat.digitChar (n / 10 % 10), Nat.digitChar (n % 10)]) = n := by
    have happ : decimalDigits (n / 100) ++ [Nat.digitChar (n / 10 % 10), Nat.digitChar (n % 10)]
        = (decimalDigits (n / 100) ++ [Nat.digitChar (n / 10 % 10)])
          ++ [Nat.digitChar (n % 10)] := by simp
    rw [happ, digitsValue_append_singleton, digitsValue_append_singleton,
      digitsValue_decimalDigits, digitValue_digitChar _ (Nat.mod_lt _ (by omega)),
      digitValue_digitChar _ (Nat.mod_lt _ (by omega))]
    omega
  unfold twoDecimals
  have hlist : decimalDigits (n / 100) ++ ['.', Nat.digitChar (n / 10 % 10),
      Nat.digitChar (n % 10)] = d :: (rest ++ ['.', Nat.digitChar (n / 10 % 10),
      Nat.digitChar (n % 10)]) := by rw [hcons]; rfl
  rw [hlist, jsParseFloat_of_digit_head d _ hd, ← hlist,
    parseUnsigned_digits_point _ _ (decimalDigits_ne_nil _) (decimalDigits_isDigit _) hfrac,
    hvalue]
  congr 1
  simp [pow10]
  ring

/-! ## The value of the first marker -/

theorem foldl_digits (fs : List Char) (a : ℕ) :
    fs.foldl (fun acc c => acc * 10 + digitValue c) a
      = a * 10 ^ fs.length + fs.foldl (fun acc c => acc * 10 + digitValue c) 0 := by
  induction fs generalizing a with
  | nil => simp
  | cons c fs ih =>
    simp only [List.foldl_cons, List.length_cons]
    rw [ih (a * 10 + digitValue c), ih (0 * 10 + digitValue c)]
    ring

theorem digitsValue_append (ds fs : List Char) :
    digitsValue (ds ++ fs) = digitsValue ds * 10 ^ fs.length + digitsValue fs := by
  unfold digitsValue
  rw [List.foldl_append, foldl_digits]

theorem pow10_neg_natCast (n : ℕ) : pow10 (-(n : ℤ)) = 1 / ((10 ^ n : ℕ) : ℚ) := by
  unfold pow10
  by_cases hn : n = 0
  · subst hn; simp
  · have hneg : ¬ (0 ≤ -(n : ℤ)) := by omega
    rw [if_neg hneg]
    simp

theorem jsParseFloat_digits (ds : List Char) (hne : ds ≠ [])
    (hds : ∀ c ∈ ds, isDigit c = true) :
    jsParseFloat (String.mk ds) = roundDouble (digitsValue ds : ℚ) := by
  obtain ⟨d, rest, hcons⟩ := List.exists_cons_of_ne_nil hne
  have hd : isDigit d = true := hds d (by rw [hcons]; exact List.mem_cons_self _ _)
  rw [hcons, jsParseFloat_of_digit_head d rest hd, ← hcons, parseUnsigned_digits ds hne hds]

/-- `parseFloat` reads a plain numeral as the double nearest to the number that
it writes. -/
theorem jsParseFloat_plainNumeral (run : List Char) (h : plainNumeral run) :
    jsParseFloat (String.mk run) = roundDouble (unsignedWrittenNumber run) := by
  obtain ⟨ds, fs, hne, hds, hfs, hrun | hrun⟩ := h
  · subst hrun
    rw [jsParseFloat_digits run hne hds]
    unfold unsignedWrittenNumber
    rw [List.takeWhile_eq_self_iff.mpr hds, List.dropWhile_eq_nil_iff.mpr hds]
    simp [digitsValue]
  · subst hrun
    obtain ⟨d, rest, hcons⟩ := List.exists_cons_of_ne_nil hne
    have hd : isDigit d = true := hds d (by rw [hcons]; exact List.mem_cons_self _ _)
    have hdot : ¬ (isDigit '.' = true) := by decide
    have hlist : ds ++ '.' :: fs = d :: (rest ++ '.' :: fs) := by rw [hcons]; rfl
    rw [hlist, jsParseFloat_of_digit_head d _ hd, ← hlist,
      parseUnsigned_digits_point ds fs hne hds hfs]
    unfold unsignedWrittenNumber
    rw [List.takeWhile_append_of_pos hds, List.takeWhile_cons_of_neg hdot, List.append_nil,
      List.dropWhile_append_of_pos hds, List.dropWhile_cons_of_neg hdot, List.drop_one,
      List.tail_cons, digitsValue_append, pow10_neg_natCast]
    congr 1
    have hpos : ((10 ^ fs.length : ℕ) : ℚ) ≠ 0 := by positivity
    push_cast
    field_simp

/-- The search passes over the text in front of the first occurrence of the
literal. -/
theorem regexCapture_first (lit : List Char) (cls : Char → Bool) (follow : Option Char)
    (before tail : List Char)
    (hfirst : ∀ before' tail', before ++ lit ++ tail = before' ++ lit ++ tail' →
      before.length ≤ before'.length) :
    regexCapture lit cls follow (before ++ lit ++ tail)
      = regexCapture lit cls follow (lit ++ tail) := by
  induction before with
  | nil => rfl
  | cons c b ih =>
    have hpre : lit.isPrefixOf (c :: (b ++ lit ++ tail)) = false := by
      by_contra hcon
      rw [Bool.not_eq_false, List.isPrefixOf_iff_prefix, List.prefix_iff_eq_append] at hcon
      have := hfirst [] ((c :: (b ++ lit ++ tail)).drop lit.length)
        (by simpa [List.append_assoc] using hcon.symm)
      simp at this
    have hstep : regexCapture lit cls follow (c :: b ++ lit ++ tail)
        = regexCapture lit cls follow (b ++ lit ++ tail) := by
      show regexCapture lit cls follow (c :: (b ++ lit ++ tail)) = _
      rw [regexCapture_cons, hpre]
      simp
    rw [hstep]
    apply ih
    intro before' tail' heq
    have := hfirst (c :: before') tail' (by simp [List.append_assoc] at heq ⊢; exact heq)
    simpa using this

/-- What the pattern captures when the first occurrence of the literal is
followed by a run of the class that ends where the text ends or where a
character outside the class stands. -/
theorem regexCapture_first_run (lit : List Char) (cls : Char → Bool) (follow : Option Char)
    (text before run after : List Char)
    (htext : text = before ++ lit ++ run ++ after)
    (hfirst : firstOccurrence lit before text)
    (hne : run ≠ []) (hcls : ∀ c ∈ run, cls c = true)
    (hend : ∀ c, after.head? = some c → cls c = false)
    (hfollow : ∀ f, follow = some f → after.head? = some f) :
    regexCapture lit cls follow text = some run := by
  have htake : (run ++ after).takeWhile cls = run := by
    rw [List.takeWhile_append_of_pos hcls]
    cases after with
    | nil => simp
    | cons a rest =>
      have : ¬ (cls a = true) := by rw [hend a rfl]; simp
      rw [List.takeWhile_cons_of_neg this, List.append_nil]
  have hdrop : (run ++ after).dropWhile cls = after := by
    rw [List.dropWhile_append_of_pos hcls]
    cases after with
    | nil => simp
    | cons a rest =>
      have : ¬ (cls a = true) := by rw [hend a rfl]; simp
      rw [List.dropWhile_cons_of_neg this]
  have hshape : text = before ++ lit ++ (run ++ after) := by
    rw [htext]; simp [List.append_assoc]
  rw [hshape, regexCapture_first lit cls follow before (run ++ after)
    (by rw [← hshape]; exact hfirst.2), regexCapture_at, htake]
  · rw [htake]; exact hne
  · intro f hf
    rw [hdrop]
    exact hfollow f hf

theorem plainNumeral_ne_nil (run : List Char) (h : plainNumeral run) : run ≠ [] := by
  obtain ⟨ds, fs, hne, -, -, hrun | hrun⟩ := h
  · rw [hrun]; exact hne
  · rw [hrun]; simp

theorem plainNumeral_chars (run : List Char) (h : plainNumeral run) :
    ∀ c ∈ run, (isDigit c || c == '.') = true := by
  obtain ⟨ds, fs, -, hds, hfs, hrun | hrun⟩ := h
  · intro c hc
    rw [hrun] at hc
    simp [hds c hc]
  · intro c hc
    rw [hrun, List.mem_append, List.mem_cons] at hc
    rcases hc with hc | hc | hc
    · simp [hds c hc]
    · simp [hc]
    · simp [hfs c hc]

/-- C15, amended.  A marker is the literal text followed by a non-empty run of
the characters that the pattern accepts: digits and commas after
`Total Spend: $`; digits and points, closed by `%`, after `Overall CTR: ` and
after `Overall Conversion Rate: `.  For every prompt, each of the three values
is its default (28890, 1.15, 4.2) when the prompt holds no marker of its own
kind, whatever markers of the other kinds it holds.  And when the first
occurrence of a literal in the prompt is followed by a numeral, the value is
the double nearest to the number written: for the spend the numeral is a run of
digits and commas with at least one digit, not followed by a further digit or
comma, and the number is the one written by its digits; for the two rates it is
a plain numeral (digits, optionally a point and further digits) closed by `%`. -/
theorem extract_defaults (prompt : String) :
    (¬ hasMarker "Total Spend: $".toList (fun c => isDigit c || c == ',') none prompt.toList →
      extractTotalSpend prompt = .fin 28890) ∧
    (¬ hasMarker "Overall CTR: ".toList (fun c => isDigit c || c == '.') (some '%')
        prompt.toList →
      extractOverallCtr prompt = .fin (jsonNumber (115 / 100))) ∧
    (¬ hasMarker "Overall Conversion Rate: ".toList (fun c => isDigit c || c == '.') (some '%')
        prompt.toList →
      extractOverallConversionRate prompt = .fin (jsonNumber (42 / 10))) ∧
    (∀ before run after : List Char,
      prompt.toList = before ++ "Total Spend: $".toList ++ run ++ after →
      firstOccurrence "Total Spend: $".toList before prompt.toList →
      (∀ c ∈ run, (isDigit c || c == ',') = true) → (∃ c ∈ run, isDigit c = true) →
      (∀ c, after.head? = some c → (isDigit c || c == ',') = false) →
      extractTotalSpend prompt = roundDouble (digitsValue (removeCommas run) : ℚ)) ∧
    (∀ before run after : List Char,
      prompt.toList = before ++ "Overall CTR: ".toList ++ run ++ '%' :: after →
      firstOccurrence "Overall CTR: ".toList before prompt.toList →
      plainNumeral run →
      extractOverallCtr prompt = roundDouble (unsignedWrittenNumber run)) ∧
    (∀ before run after : List Char,
      prompt.toList = before ++ "Overall Conversion Rate: ".toList ++ run ++ '%' :: after →
      firstOccurrence "Overall Conversion Rate: ".toList before prompt.toList →
      plainNumeral run →
      extractOverallConversionRate prompt = roundDouble (unsignedWrittenNumber run)) := by
  have hspend := regexCapture_isSome_iff "Total Spend: $".toList
    (fun c => isDigit c || c == ',') none (by simp) prompt.toList
  have hctr := regexCapture_isSome_iff "Overall CTR: ".toList
    (fun c => isDigit c || c == '.') (some '%') (by intro f hf; cases hf; decide) prompt.toList
  have hrate := regexCapture_isSome_iff "Overall Conversion Rate: ".toList
    (fun c => isDigit c || c == '.') (some '%') (by intro f hf; cases hf; decide) prompt.toList
  refine ⟨?_, ?_, ?_, ?_, ?_, ?_⟩
  · intro h
    rw [← hspend] at h
    unfold extractTotalSpend
    cases hc : regexCapture "Total Spend: $".toList (fun c => isDigit c || c == ',') none
        prompt.toList with
    | none => rfl
    | some group => rw [hc] at h; simp at h
  · intro h
    rw [← hctr] at h
    unfold extractOverallCtr
    cases hc : regexCapture "Overall CTR: ".toList (fun c => isDigit c || c == '.') (some '%')
        prompt.toList with
    | none => rfl
    | some group => rw [hc] at h; simp at h
  · intro h
    rw [← hrate] at h
    unfold extractOverallConversionRate
    cases hc : regexCapture "Overall Conversion Rate: ".toList
        (fun c => isDigit c || c == '.') (some '%') prompt.toList with
    | none => rfl
    | some group => rw [hc] at h; simp at h
  · intro before run after htext hfirst hcls hdigit hend
    have hne : run ≠ [] := by
      obtain ⟨c, hc, -⟩ := hdigit
      exact List.ne_nil_of_mem hc
    have hcap := regexCapture_first_run "Total Spend: $".toList
      (fun c => isDigit c || c == ',') none prompt.toList before run after htext hfirst hne
      hcls hend (by simp)
    have hdigits : ∀ c ∈ removeCommas run, isDigit c = true := by
      intro c hc
      unfold removeCommas at hc
      rw [List.mem_filter] at hc
      have h1 := hcls c hc.1
      have h2 : c ≠ ',' := by simpa using hc.2
      simpa [h2] using h1
    have hne' : removeCommas run ≠ [] := by
      obtain ⟨c, hc, hd⟩ := hdigit
      have hcomma : c ≠ ',' := by
        intro h
        rw [h] at hd
        exact absurd hd (by decide)
      have : c ∈ removeCommas run := by
        unfold removeCommas
        rw [List.mem_filter]
        exact ⟨hc, by simpa using hcomma⟩
      exact List.ne_nil_of_mem this
    unfold extractTotalSpend
    rw [hcap]
    exact jsParseFloat_digits _ hne' hdigits
  · intro before run after htext hfirst hnum
    have hcls : ∀ c ∈ run, (isDigit c || c == '.') = true :=
      plainNumeral_chars run hnum
    have hcap := regexCapture_first_run "Overall CTR: ".toList
      (fun c => isDigit c || c == '.') (some '%') prompt.toList before run ('%' :: after)
      htext hfirst (plainNumeral_ne_nil run hnum) hcls
      (by intro c hc; cases hc; decide) (by intro f hf; cases hf; rfl)
    unfold extractOverallCtr
    rw [hcap]
    exact jsParseFloat_plainNumeral run hnum
  · intro before run after htext hfirst hnum
    have hcls : ∀ c ∈ run, (isDigit c || c == '.') = true :=
      plainNumeral_chars run hnum
    have hcap := regexCapture_first_run "Overall Conversion Rate: ".toList
      (fun c => isDigit c || c == '.') (some '%') prompt.toList before run ('%' :: after)
      htext hfirst (plainNumeral_ne_nil run hnum) hcls
      (by intro c hc; cases hc; decide) (by intro f hf; cases hf; rfl)
    unfold extractOverallConversionRate
    rw [hcap]
    exact jsParseFloat_plainNumeral run hnum

theorem extract_defaults_witness :
    extractTotalSpend ctrOnlyPrompt = .fin 28890 ∧
    extractOverallConversionRate ctrOnlyPrompt = .fin (jsonNumber (42 / 10)) ∧
    extractOverallCtr ctrOnlyPrompt = roundDouble (unsignedWrittenNumber "2.5".toList) ∧
    extractTotalSpend spendOnlyPrompt
      = roundDouble (digitsValue (removeCommas "12,500".toList) : ℚ) := by
  have hspend : ¬ hasMarker "Total Spend: $".toList (fun c => isDigit c || c == ',') none
      ctrOnlyPrompt.toList := by
    rw [← regexCapture_isSome_iff _ _ _ (by simp)]
    decide!
  have hrate : ¬ hasMarker "Overall Conversion Rate: ".toList
      (fun c => isDigit c || c == '.') (some '%') ctrOnlyPrompt.toList := by
    rw [← regexCapture_isSome_iff _ _ _ (by intro f hf; cases hf; decide)]
    decide!
  have hfirstCtr : firstOccurrence "Overall CTR: ".toList "- ".toList ctrOnlyPrompt.toList := by
    refine ⟨⟨"2.5%\n".toList, by decide⟩, ?_⟩
    intro before' tail' h
    match before', h with
    | [], h =>
      have h' : (some '-' : Option Char) = some 'O' := congrArg List.head? h
      exact absurd h' (by decide)
    | [x], h =>
      have h' : (some ' ' : Option Char) = some 'O' := congrArg (fun l => l.tail.head?) h
      exact absurd h' (by decide)
    | _ :: _ :: _, _ => simp
  have hfirstSpend : firstOccurrence "Total Spend: $".toList "- ".toList
      spendOnlyPrompt.toList := by
    refine ⟨⟨"12,500\n".toList, by decide⟩, ?_⟩
    intro before' tail' h
    match before', h with
    | [], h =>
      have h' : (some '-' : Option Char) = some 'T' := congrArg List.head? h
      exact absurd h' (by decide)
    | [x], h =>
      have h' : (some ' ' : Option Char) = some 'T' := congrArg (fun l => l.tail.head?) h
      exact absurd h' (by decide)
    | _ :: _ :: _, _ => simp
  exact ⟨(extract_defaults ctrOnlyPrompt).1 hspend,
    (extract_defaults ctrOnlyPrompt).2.2.1 hrate,
    (extract_defaults ctrOnlyPrompt).2.2.2.2.1 "- ".toList "2.5".toList "\n".toList
      (by decide) hfirstCtr
      ⟨"2".toList, "5".toList, by decide, by decide, by decide, Or.inr (by decide)⟩,
    (extract_defaults spendOnlyPrompt).2.2.2.1 "- ".toList "12,500".toList "\n".toList
      (by decide) hfirstSpend (by decide) ⟨'1', by decide, by decide⟩ (by decide)⟩

/-! ## The rendered prompt -/

/-- The prompt as a sequence of fixed texts and rendered values, up to the
percent sign after the overall conversion rate. -/
theorem generateAnalysisPrompt_toList (platforms : List String) (timeframe : String)
    (analyticsData : AnalyticsData) (agg : AggregatedMetrics) :
    ∃ tail, (generateAnalysisPrompt platforms timeframe analyticsData agg).toList =
      promptOpening.toList ++ (timeframe.toList ++ ("\n- Platforms: ".toList ++
      ((joinWith ", " platforms).toList ++ ("\n- ".toList ++ ("Total Spend: $".toList ++
      ((jsToLocaleString agg.totalSpend).toList ++ ("\n- Total Impressions: ".toList ++
      ((jsToLocaleString agg.totalImpressions).toList ++ ("\n- Total Clicks: ".toList ++
      ((jsToLocaleString agg.totalClicks).toList ++ ("\n- Total Conversions: ".toList ++
      ((jsNumberToString agg.totalConversions).toList ++ ("\n- ".toList ++
      ("Overall CTR: ".toList ++ (agg.overallCtr.toList ++ ("%\n- Overall CPC: $".toList ++
      (agg.overallCpc.toList ++ ("\n- ".toList ++ ("Overall Conversion Rate: ".toList ++
      (agg.overallConversionRate.toList ++ ("%".toList ++ tail))))))))))))))))))))) := by
  have e1 : "\n- Total Spend: $" = "\n- " ++ "Total Spend: $" := by decide
  have e2 : "\n- Overall CTR: " = "\n- " ++ "Overall CTR: " := by decide
  have e3 : "\n- Overall Conversion Rate: " = "\n- " ++ "Overall Conversion Rate: " := by
    decide
  have e4 : "%\n\nPLATFORM DATA:\n" = "%" ++ "\n\nPLATFORM DATA:\n" := by decide
  refine ⟨?tail, ?eq⟩
  case eq =>
    unfold generateAnalysisPrompt
    rw [e1, e2, e3, e4]
    simp only [promptOpening, String.toList, String.data_append, List.append_assoc,
      List.append_cancel_left_eq]
    exact Eq.refl _

theorem regexCapture_found (lit : List Char) (cls : Char → Bool) (follow : Option Char)
    (run fixed tail : List Char) (c : Char) (fixed' : List Char) (hfixed : fixed = c :: fixed')
    (hrun : run ≠ []) (hcls : ∀ x ∈ run, cls x = true) (hc : cls c = false)
    (hfollow : ∀ f, follow = some f → c = f) :
    regexCapture lit cls follow (lit ++ (run ++ (fixed ++ tail))) = some run := by
  have hnot : ¬ (cls c = true) := by rw [hc]; simp
  have htake : (run ++ (fixed ++ tail)).takeWhile cls = run := by
    rw [hfixed, List.takeWhile_append_of_pos hcls, List.cons_append,
      List.takeWhile_cons_of_neg hnot, List.append_nil]
  have hdrop : (run ++ (fixed ++ tail)).dropWhile cls = c :: (fixed' ++ tail) := by
    rw [hfixed, List.dropWhile_append_of_pos hcls, List.cons_append,
      List.dropWhile_cons_of_neg hnot]
  rw [regexCapture_at, htake]
  · rw [htake]; exact hrun
  · intro f hf
    rw [hdrop, hfollow f hf]
    rfl

theorem regexCapture_skip_text_then (lit : List Char) (cls : Char → Bool)
    (follow : Option Char) (text fixed tail : List Char) (c : Char) (fixed' : List Char)
    (hfixed : fixed = c :: fixed') (h : containsText lit text = false) (hc : c ∉ lit)
    (hrest : noStartOf lit fixed' = true) :
    regexCapture lit cls follow (text ++ (fixed ++ tail)) = regexCapture lit cls follow tail := by
  rw [hfixed, List.cons_append, regexCapture_skip_text lit cls follow text _ c h hc,
    regexCapture_skip lit cls follow fixed' tail hrest]

theorem noStartOf_of_plain (rest text : List Char) (h : ∀ c ∈ text, plainChar c = true) :
    noStartOf ('O' :: rest) text = true := by
  apply noStartOf_of_forall_ne
  intro c hc hO
  have := h c hc
  rw [hO] at this
  exact absurd this (by decide)

theorem twoDecimals_chars (n : ℕ) :
    (twoDecimals n).toList ≠ [] ∧
      ∀ c ∈ (twoDecimals n).toList, (isDigit c || c == '.') = true := by
  unfold twoDecimals
  simp only [String.toList]
  constructor
  · simp
  · intro c hc
    simp only [List.mem_append, List.mem_cons, List.mem_singleton, List.not_mem_nil,
      or_false] at hc
    rcases hc with h | h | h | h
    · simp [decimalDigits_isDigit _ c h]
    · rw [h]; decide
    · rw [h]; simp [isDigit_digitChar _ (Nat.mod_lt (n / 10) (by omega : 0 < 10))]
    · rw [h]; simp [isDigit_digitChar _ (Nat.mod_lt n (by omega : 0 < 10))]

theorem groupThousands_chars (n : ℕ) :
    groupThousands (decimalDigits n) ≠ [] ∧
      ∀ c ∈ groupThousands (decimalDigits n), (isDigit c || c == ',') = true := by
  constructor
  · exact groupThousands_ne_nil _ (decimalDigits_isDigit n) (decimalDigits_ne_nil n)
  · intro c hc
    rcases mem_groupThousands _ _ hc with h | h
    · rw [h]; decide
    · simp [decimalDigits_isDigit n c h]

/-! ## What the patterns capture in the rendered prompt -/

theorem prompt_capture_spend (platforms : List String) (timeframe : String)
    (analyticsData : AnalyticsData) (agg : AggregatedMetrics)
    (htf : containsText "Total Spend: $".toList timeframe.toList = false)
    (hpl : containsText "Total Spend: $".toList (joinWith ", " platforms).toList = false)
    (hrun : (jsToLocaleString agg.totalSpend).toList ≠ [])
    (hcls : ∀ c ∈ (jsToLocaleString agg.totalSpend).toList, (isDigit c || c == ',') = true) :
    regexCapture "Total Spend: $".toList (fun c => isDigit c || c == ',') none
        (generateAnalysisPrompt platforms timeframe analyticsData agg).toList
      = some (jsToLocaleString agg.totalSpend).toList := by
  obtain ⟨tail, hlist⟩ := generateAnalysisPrompt_toList platforms timeframe analyticsData agg
  rw [hlist,
    regexCapture_skip _ _ _ promptOpening.toList _ (by decide),
    regexCapture_skip_text_then _ _ _ timeframe.toList "\n- Platforms: ".toList _ '\n'
      "- Platforms: ".toList rfl htf (by decide) (by decide),
    regexCapture_skip_text_then _ _ _ (joinWith ", " platforms).toList "\n- ".toList _ '\n'
      "- ".toList rfl hpl (by decide) (by decide)]
  exact regexCapture_found _ _ _ _ "\n- Total Impressions: ".toList _ '\n'
    "- Total Impressions: ".toList rfl hrun hcls (by decide) (by simp)

theorem noStartOf_ctr_of_plain (text : List Char) (h : ∀ c ∈ text, plainChar c = true) :
    noStartOf "Overall CTR: ".toList text = true :=
  noStartOf_of_plain "verall CTR: ".toList text h

theorem noStartOf_rate_of_plain (text : List Char) (h : ∀ c ∈ text, plainChar c = true) :
    noStartOf "Overall Conversion Rate: ".toList text = true :=
  noStartOf_of_plain "verall Conversion Rate: ".toList text h

theorem prompt_capture_ctr (platforms : List String) (timeframe : String)
    (analyticsData : AnalyticsData) (agg : AggregatedMetrics)
    (htf : containsText "Overall CTR: ".toList timeframe.toList = false)
    (hpl : containsText "Overall CTR: ".toList (joinWith ", " platforms).toList = false)
    (hrun : agg.overallCtr.toList ≠ [])
    (hcls : ∀ c ∈ agg.overallCtr.toList, (isDigit c || c == '.') = true) :
    regexCapture "Overall CTR: ".toList (fun c => isDigit c || c == '.') (some '%')
        (generateAnalysisPrompt platforms timeframe analyticsData agg).toList
      = some agg.overallCtr.toList := by
  obtain ⟨tail, hlist⟩ := generateAnalysisPrompt_toList platforms timeframe analyticsData agg
  rw [hlist,
    regexCapture_skip _ _ _ promptOpening.toList _ (by decide),
    regexCapture_skip_text_then _ _ _ timeframe.toList "\n- Platforms: ".toList _ '\n'
      "- Platforms: ".toList rfl htf (by decide) (by decide),
    regexCapture_skip_text_then _ _ _ (joinWith ", " platforms).toList "\n- ".toList _ '\n'
      "- ".toList rfl hpl (by decide) (by decide),
    regexCapture_skip _ _ _ "Total Spend: $".toList _ (by decide),
    regexCapture_skip _ _ _ (jsToLocaleString agg.totalSpend).toList _
      (noStartOf_ctr_of_plain _ (plainChar_jsToLocaleString _)),
    regexCapture_skip _ _ _ "\n- Total Impressions: ".toList _ (by decide),
    regexCapture_skip _ _ _ (jsToLocaleString agg.totalImpressions).toList _
      (noStartOf_ctr_of_plain _ (plainChar_jsToLocaleString _)),
    regexCapture_skip _ _ _ "\n- Total Clicks: ".toList _ (by decide),
    regexCapture_skip _ _ _ (jsToLocaleString agg.totalClicks).toList _
      (noStartOf_ctr_of_plain _ (plainChar_jsToLocaleString _)),
    regexCapture_skip _ _ _ "\n- Total Conversions: ".toList _ (by decide),
    regexCapture_skip _ _ _ (jsNumberToString agg.totalConversions).toList _
      (noStartOf_ctr_of_plain _ (plainChar_jsNumberToString _)),
    regexCapture_skip _ _ _ "\n- ".toList _ (by decide)]
  exact regexCapture_found _ _ _ _ "%\n- Overall CPC: $".toList _ '%'
    "\n- Overall CPC: $".toList rfl hrun hcls (by decide) (by simp)

theorem prompt_capture_rate (platforms : List String) (timeframe : String)
    (analyticsData : AnalyticsData) (agg : AggregatedMetrics)
    (htf : containsText "Overall Conversion Rate: ".toList timeframe.toList = false)
    (hpl : containsText "Overall Conversion Rate: ".toList (joinWith ", " platforms).toList
      = false)
    (hctr : ∀ c ∈ agg.overallCtr.toList, plainChar c = true)
    (hcpc : ∀ c ∈ agg.overallCpc.toList, plainChar c = true)
    (hrun : agg.overallConversionRate.toList ≠ [])
    (hcls : ∀ c ∈ agg.overallConversionRate.toList, (isDigit c || c == '.') = true) :
    regexCapture "Overall Conversion Rate: ".toList (fun c => isDigit c || c == '.') (some '%')
        (generateAnalysisPrompt platforms timeframe analyticsData agg).toList
      = some agg.overallConversionRate.toList := by
  obtain ⟨tail, hlist⟩ := generateAnalysisPrompt_toList platforms timeframe analyticsData agg
  rw [hlist,
    regexCapture_skip _ _ _ promptOpening.toList _ (by decide),
    regexCapture_skip_text_then _ _ _ timeframe.toList "\n- Platforms: ".toList _ '\n'
      "- Platforms: ".toList rfl htf (by decide) (by decide),
    regexCapture_skip_text_then _ _ _ (joinWith ", " platforms).toList "\n- ".toList _ '\n'
      "- ".toList rfl hpl (by decide) (by decide),
    regexCapture_skip _ _ _ "Total Spend: $".toList _ (by decide),
    regexCapture_skip _ _ _ (jsToLocaleString agg.totalSpend).toList _
      (noStartOf_rate_of_plain _ (plainChar_jsToLocaleString _)),
    regexCapture_skip _ _ _ "\n- Total Impressions: ".toList _ (by decide),
    regexCapture_skip _ _ _ (jsToLocaleString agg.totalImpressions).toList _
      (noStartOf_rate_of_plain _ (plainChar_jsToLocaleString _)),
    regexCapture_skip _ _ _ "\n- Total Clicks: ".toList _ (by decide),
    regexCapture_skip _ _ _ (jsToLocaleString agg.totalClicks).toList _
      (noStartOf_rate_of_plain _ (plainChar_jsToLocaleString _)),
    regexCapture_skip _ _ _ "\n- Total Conversions: ".toList _ (by decide),
    regexCapture_skip _ _ _ (jsNumberToString agg.totalConversions).toList _
      (noStartOf_rate_of_plain _ (plainChar_jsNumberToString _)),
    regexCapture_skip _ _ _ "\n- ".toList _ (by decide),
    regexCapture_skip _ _ _ "Overall CTR: ".toList _ (by decide),
    regexCapture_skip _ _ _ agg.overallCtr.toList _
      (noStartOf_rate_of_plain _ hctr),
    regexCapture_skip _ _ _ "%\n- Overall CPC: $".toList _ (by decide),
    regexCapture_skip _ _ _ agg.overallCpc.toList _
      (noStartOf_rate_of_plain _ hcpc),
    regexCapture_skip _ _ _ "\n- ".toList _ (by decide)]
  exact regexCapture_found _ _ _ _ "%".toList _ '%' [] rfl hrun hcls (by decide) (by simp)

/-! ## Round trip through the rendered prompt -/

/-- C17 fails, in two ways.  A timeframe is free text: when it reads
`Total Spend: $1`, the pattern matches inside the `- Timeframe:` line, which
comes first, and the generator extracts 1 where the aggregated total spend is
12500.  And the pattern `[\d,]+` stops at a decimal point: with a spend of
12500.5 the prompt holds `Total Spend: $12,500.5` and the generator extracts
12500.  In both requests the spends are not negative and the totals are
positive. -/
theorem prompt_round_trip_fails :
    (extractTotalSpend (renderedPrompt ["facebook"] "Total Spend: $1" facebookScenario)
        = .fin 1 ∧
      (calculateAggregatedMetrics facebookScenario).totalSpend = .fin 12500) ∧
    (extractTotalSpend (renderedPrompt ["facebook"] "last_30_days" halfDollarScenario)
        = .fin 12500 ∧
      (calculateAggregatedMetrics halfDollarScenario).totalSpend = .fin (25001 / 2)) ∧
    ((calculateAggregatedMetrics facebookScenario).totalImpressions = .fin 600000 ∧
      (calculateAggregatedMetrics facebookScenario).totalClicks = .fin 7200 ∧
      (calculateAggregatedMetrics facebookScenario).totalConversions = .fin 290 ∧
      (calculateAggregatedMetrics halfDollarScenario).totalImpressions = .fin 600000 ∧
      (calculateAggregatedMetrics halfDollarScenario).totalClicks = .fin 7200 ∧
      (calculateAggregatedMetrics halfDollarScenario).totalConversions = .fin 290) := by
  decide!

/-- C17, amended.  When neither the timeframe nor the rendered list of
platforms contains one of the texts `Total Spend: $`, `Overall CTR: `,
`Overall Conversion Rate: `, the aggregated total spend is a whole number below
`2 ^ 53`, and the click-through rate and the conversion rate are finite and
below `10 ^ 21`, then the values that `generateStructuredAnalysis` extracts
from the rendered prompt are: a `totalSpend` equal to the aggregated
`totalSpend`, and an `overallCtr` and `overallConversionRate` equal to the
doubles nearest to the numbers written in the aggregated strings.  No default
is substituted. -/
theorem prompt_round_trip (platforms : List String) (timeframe : String)
    (analyticsData : AnalyticsData) (n : ℕ) (x y : ℚ)
    (htf : ∀ lit ∈ markerTexts, containsText lit timeframe.toList = false)
    (hpl : ∀ lit ∈ markerTexts, containsText lit (joinWith ", " platforms).toList = false)
    (hspend : (calculateAggregatedMetrics analyticsData).totalSpend = .fin (n : ℚ))
    (hn : n < 2 ^ 53)
    (hctr : overallCtrValue analyticsData = .fin x) (hx : x < 10 ^ 21)
    (hrate : overallConversionRateValue analyticsData = .fin y) (hy : y < 10 ^ 21) :
    extractTotalSpend (renderedPrompt platforms timeframe analyticsData)
        = (calculateAggregatedMetrics analyticsData).totalSpend ∧
      extractOverallCtr (renderedPrompt platforms timeframe analyticsData)
        = roundDouble (writtenNumber (calculateAggregatedMetrics analyticsData).overallCtr) ∧
      extractOverallConversionRate (renderedPrompt platforms timeframe analyticsData)
        = roundDouble
          (writtenNumber (calculateAggregatedMetrics analyticsData).overallConversionRate) := by
  have hctrNN : (overallCtrValue analyticsData).notNegative :=
    jsMul_notNegative _ _
      (jsDiv_notNegative _ _ (totalClicksOf_notNegative analyticsData)
        (totalImpressionsOf_notNegative analyticsData))
      (by simp [JSNum.notNegative])
  have hrateNN : (overallConversionRateValue analyticsData).notNegative :=
    jsMul_notNegative _ _
      (jsDiv_notNegative _ _ (totalConversionsOf_notNegative analyticsData)
        (totalClicksOf_notNegative analyticsData))
      (by simp [JSNum.notNegative])
  obtain ⟨m, hm, -, -⟩ := jsToFixed_two_of_notNegative _ x hctr hctrNN hx
  obtain ⟨k, hk, -, -⟩ := jsToFixed_two_of_notNegative _ y hrate hrateNN hy
  have hm' : (calculateAggregatedMetrics analyticsData).overallCtr = twoDecimals m := hm
  have hk' : (calculateAggregatedMetrics analyticsData).overallConversionRate
      = twoDecimals k := hk
  have hlocale : (jsToLocaleString (calculateAggregatedMetrics analyticsData).totalSpend).toList
      = groupThousands (decimalDigits n) := by
    rw [hspend, jsToLocaleString_natCast n hn]
    rfl
  refine ⟨?_, ?_, ?_⟩
  · unfold extractTotalSpend renderedPrompt
    rw [prompt_capture_spend platforms timeframe analyticsData _
      (htf _ (by simp [markerTexts])) (hpl _ (by simp [markerTexts]))
      (by rw [hlocale]; exact (groupThousands_chars n).1)
      (by rw [hlocale]; exact (groupThousands_chars n).2)]
    simp only [hlocale]
    rw [removeCommas_groupThousands _ (decimalDigits_isDigit n),
      jsParseFloat_decimalDigits n (le_of_lt hn), hspend]
  · unfold extractOverallCtr renderedPrompt
    rw [prompt_capture_ctr platforms timeframe analyticsData _
      (htf _ (by simp [markerTexts])) (hpl _ (by simp [markerTexts]))
      (by rw [hm']; exact (twoDecimals_chars m).1)
      (by rw [hm']; exact (twoDecimals_chars m).2)]
    simp only [hm']
    exact jsParseFloat_twoDecimals m
  · unfold extractOverallConversionRate renderedPrompt
    rw [prompt_capture_rate platforms timeframe analyticsData _
      (htf _ (by simp [markerTexts])) (hpl _ (by simp [markerTexts]))
      (plainChar_jsToFixed _ 2) (plainChar_jsToFixed _ 2)
      (by rw [hk']; exact (twoDecimals_chars k).1)
      (by rw [hk']; exact (twoDecimals_chars k).2)]
    simp only [hk']
    exact jsParseFloat_twoDecimals k

theorem prompt_round_trip_witness :
    extractTotalSpend (renderedPrompt ["facebook"] "last_30_days" facebookScenario)
        = (calculateAggregatedMetrics facebookScenario).totalSpend ∧
      extractOverallCtr (renderedPrompt ["facebook"] "last_30_days" facebookScenario)
        = roundDouble (writtenNumber (calculateAggregatedMetrics facebookScenario).overallCtr) ∧
      extractOverallConversionRate (renderedPrompt ["facebook"] "last_30_days" facebookScenario)
        = roundDouble
          (writtenNumber (calculateAggregatedMetrics facebookScenario).overallConversionRate) :=
  prompt_round_trip ["facebook"] "last_30_days" facebookScenario 12500
    (5404319552844595 / 4503599627370496) (4534874624782791 / 1125899906842624)
    (by decide!) (by decide!) (by decide!) (by norm_num) (by decide!) (by norm_num)
    (by decide!) (by norm_num)

/-! ## Contract of `checkRateLimit` -/

theorem resetIfElapsed_calls (rateLimit : RateLimit) (now : ℤ) :
    (resetIfElapsed rateLimit now).callsThisMinute
      = if now > rateLimit.resetTime then 0 else rateLimit.callsThisMinute := by
  unfold resetIfElapsed
  split_ifs <;> rfl

/-- C21.  Every `checkRateLimit` call returns normally or throws.  It returns
normally exactly when, after the reset step, `callsThisMinute < 20` and
`now - lastCall ≥ 2000`; and then it leaves `lastCall = now` and a
`callsThisMinute` that is one more than the count after the reset step: 1 when
the window was just reset, the previous count plus 1 otherwise. -/
theorem checkRateLimit_contract (rateLimit : RateLimit) (now : ℤ) :
    ((checkRateLimit rateLimit now).2 = none ∨ ∃ message, (checkRateLimit rateLimit now).2
      = some message) ∧
    ((checkRateLimit rateLimit now).2 = none ↔
      (resetIfElapsed rateLimit now).callsThisMinute < 20 ∧ now - rateLimit.lastCall ≥ 2000) ∧
    ((checkRateLimit rateLimit now).2 = none →
      (checkRateLimit rateLimit now).1.lastCall = now ∧
      (checkRateLimit rateLimit now).1.callsThisMinute
        = (resetIfElapsed rateLimit now).callsThisMinute + 1 ∧
      (now > rateLimit.resetTime → (checkRateLimit rateLimit now).1.callsThisMinute = 1) ∧
      (¬ now > rateLimit.resetTime →
        (checkRateLimit rateLimit now).1.callsThisMinute = rateLimit.callsThisMinute + 1)) := by
  have hlast := resetIfElapsed_lastCall rateLimit now
  have hcalls := resetIfElapsed_calls rateLimit now
  by_cases h1 : (resetIfElapsed rateLimit now).callsThisMinute ≥ maxCallsPerMinute
  · have h1' : ¬ (resetIfElapsed rateLimit now).callsThisMinute < 20 := by
      unfold maxCallsPerMinute at h1; omega
    simp [checkRateLimit, h1, h1']
  · have h1' : (resetIfElapsed rateLimit now).callsThisMinute < 20 := by
      unfold maxCallsPerMinute at h1; omega
    by_cases h2 : now - (resetIfElapsed rateLimit now).lastCall < minInterval
    · have h2' : ¬ now - rateLimit.lastCall ≥ 2000 := by
        rw [hlast] at h2; unfold minInterval at h2; omega
      simp [checkRateLimit, h1, h2, h2']
    · have h2' : now - rateLimit.lastCall ≥ 2000 := by
        rw [hlast] at h2; unfold minInterval at h2; omega
      simp only [checkRateLimit, h1, h2, if_false, true_and, h1', h2', and_self, true_or,
        forall_true_left, true_iff]
      refine ⟨?_, ?_⟩
      · intro hreset; rw [hcalls, if_pos hreset]
      · intro hreset; rw [hcalls, if_neg hreset]

/-- C23.  The window cap is tested first: whenever the count after the reset
step has reached 20, `checkRateLimit` throws the cap error, whether or not the
minimum spacing is violated as well; and the cap error is not a wait-time
message. -/
theorem checkRateLimit_cap_first (rateLimit : RateLimit) (now : ℤ)
    (hcap : (resetIfElapsed rateLimit now).callsThisMinute ≥ 20) :
    (checkRateLimit rateLimit now).2
        = some "Rate limit exceeded. Please try again in a minute." ∧
      ∀ seconds, (checkRateLimit rateLimit now).2 ≠ some (waitMessage seconds) := by
  have hcap' : (resetIfElapsed rateLimit now).callsThisMinute ≥ maxCallsPerMinute := hcap
  have hresult : (checkRateLimit rateLimit now).2 = some capMessage := by
    simp [checkRateLimit, hcap']
  refine ⟨hresult, ?_⟩
  intro seconds h
  rw [hresult] at h
  have hdata := congrArg (fun s : Option String => s.map (fun t => t.data.head?)) h
  simp [capMessage, waitMessage, String.data_append] at hdata

theorem checkRateLimit_cap_first_witness :
    (resetIfElapsed fullWindowState 1500).callsThisMinute ≥ 20 ∧
    1500 - fullWindowState.lastCall < 2000 ∧
    (checkRateLimit fullWindowState 1500).2
        = some "Rate limit exceeded. Please try again in a minute." ∧
      ∀ seconds, (checkRateLimit fullWindowState 1500).2 ≠ some (waitMessage seconds) :=
  ⟨by decide, by decide, checkRateLimit_cap_first fullWindowState 1500 (by decide)⟩

/-- C27.  In every state that a sequence of `checkRateLimit` calls at arbitrary
clock readings reaches from the state in which the module is loaded,
`callsThisMinute` is at most `maxCallsPerMinute`, which is 20 (and it is a
count, so it is never negative). -/
theorem callsThisMinute_bounded (loadTime : ℤ) (times : List ℤ) :
    0 ≤ (runCalls (initialRateLimit loadTime) times).1.callsThisMinute ∧
      (runCalls (initialRateLimit loadTime) times).1.callsThisMinute ≤ maxCallsPerMinute ∧
      maxCallsPerMinute = 20 :=
  ⟨Nat.zero_le _, runCalls_calls_le times (initialRateLimit loadTime) (Nat.zero_le _), rfl⟩

/-- C28.  A rejected attempt consumes no quota: whenever `checkRateLimit`
throws, it leaves `lastCall` as it was, and `callsThisMinute` either as it was
or, when the window rolled over in this call, at 0. -/
theorem checkRateLimit_rejected_frame (rateLimit : RateLimit) (now : ℤ)
    (h : (checkRateLimit rateLimit now).2 ≠ none) :
    (checkRateLimit rateLimit now).1.lastCall = rateLimit.lastCall ∧
      ((checkRateLimit rateLimit now).1.callsThisMinute = rateLimit.callsThisMinute ∨
        (now > rateLimit.resetTime ∧ (checkRateLimit rateLimit now).1.callsThisMinute = 0)) := by
  have hstate : (checkRateLimit rateLimit now).1 = resetIfElapsed rateLimit now := by
    by_cases h1 : (resetIfElapsed rateLimit now).callsThisMinute ≥ maxCallsPerMinute
    · simp [checkRateLimit, h1]
    · by_cases h2 : now - (resetIfElapsed rateLimit now).lastCall < minInterval
      · simp [checkRateLimit, h1, h2]
      · simp [checkRateLimit, h1, h2] at h
  rw [hstate, resetIfElapsed_lastCall, resetIfElapsed_calls]
  refine ⟨rfl, ?_⟩
  by_cases hreset : now > rateLimit.resetTime
  · right; exact ⟨hreset, by rw [if_pos hreset]⟩
  · left; rw [if_neg hreset]

theorem checkRateLimit_rejected_frame_witness :
    (checkRateLimit threeCallsState 1500).2 ≠ none ∧
    (checkRateLimit threeCallsState 1500).1.lastCall = threeCallsState.lastCall ∧
      ((checkRateLimit threeCallsState 1500).1.callsThisMinute
          = threeCallsState.callsThisMinute ∨
        (1500 > threeCallsState.resetTime ∧
          (checkRateLimit threeCallsState 1500).1.callsThisMinute = 0)) :=
  ⟨by decide, checkRateLimit_rejected_frame threeCallsState 1500 (by decide)⟩

/-- C22.  Without a configured API key `callChatGPT` returns the mock analysis
and does not invoke `checkRateLimit`: the rate-limiter state, `lastCall`,
`callsThisMinute` and `resetTime`, is left as it was. -/
theorem callChatGPT_no_key_frame (env : Environment) (rateLimit : RateLimit)
    (prompt : String) (h : apiKeyMissing env = true) :
    (callChatGPT env rateLimit prompt).1 = (generateStructuredAnalysis prompt).toJson ∧
      (callChatGPT env rateLimit prompt).2 = rateLimit ∧
      (callChatGPT env rateLimit prompt).2.lastCall = rateLimit.lastCall ∧
      (callChatGPT env rateLimit prompt).2.callsThisMinute = rateLimit.callsThisMinute ∧
      (callChatGPT env rateLimit prompt).2.resetTime = rateLimit.resetTime := by
  have hcall : callChatGPT env rateLimit prompt
      = ((generateStructuredAnalysis prompt).toJson, rateLimit) := by
    simp [callChatGPT, h]
  rw [hcall]
  exact ⟨rfl, rfl, rfl, rfl, rfl⟩

theorem callChatGPT_no_key_frame_witness :
    apiKeyMissing noKeyConfigured = true ∧
    (callChatGPT noKeyConfigured threeCallsState rateFivePrompt).1
        = (generateStructuredAnalysis rateFivePrompt).toJson ∧
      (callChatGPT noKeyConfigured threeCallsState rateFivePrompt).2 = threeCallsState ∧
      (callChatGPT noKeyConfigured threeCallsState rateFivePrompt).2.lastCall
        = threeCallsState.lastCall ∧
      (callChatGPT noKeyConfigured threeCallsState rateFivePrompt).2.callsThisMinute
        = threeCallsState.callsThisMinute ∧
      (callChatGPT noKeyConfigured threeCallsState rateFivePrompt).2.resetTime
        = threeCallsState.resetTime :=
  ⟨by decide, callChatGPT_no_key_frame noKeyConfigured threeCallsState rateFivePrompt
    (by decide)⟩

/-- C24.  For every prompt text the output of `generateStructuredAnalysis`
keeps to the enumerations of the data model: every insight has a `type` among
performance, cost, reach, conversion and an `impact` among positive, warning,
negative; every recommendation has a `priority` among high, medium, low and a
`category` among budget_optimization, creative_optimization,
audience_expansion, bidding_strategy; every trend has a `trend` among up,
down. -/
theorem generateStructuredAnalysis_enumerations (prompt : String) :
    (∀ insight ∈ (generateStructuredAnalysis prompt).insights,
      insight.insightType ∈ insightTypes ∧ insight.impact ∈ impactValues) ∧
    (∀ recommendation ∈ (generateStructuredAnalysis prompt).recommendations,
      recommendation.priority ∈ priorityValues ∧ recommendation.category ∈ categoryValues) ∧
    (∀ trend ∈ (generateStructuredAnalysis prompt).trends, trend.trend ∈ trendValues) := by
  refine ⟨?_, ?_, ?_⟩
  · intro insight hmem
    simp only [generateStructuredAnalysis, mockInsights, List.mem_cons, List.mem_singleton,
      List.not_mem_nil, or_false] at hmem
    rcases hmem with h | h | h
    · rw [h]
      cases jsGt (extractOverallConversionRate prompt) (.fin 4) <;>
        simp [insightTypes, impactValues]
    · rw [h]; simp [insightTypes, impactValues]
    · rw [h]; simp [insightTypes, impactValues]
  · intro recommendation hmem
    simp only [generateStructuredAnalysis, mockRecommendations, List.mem_cons,
      List.mem_singleton, List.not_mem_nil, or_false] at hmem
    rcases hmem with h | h | h <;> rw [h] <;> simp [priorityValues, categoryValues]
  · intro trend hmem
    simp only [generateStructuredAnalysis, mockTrends, List.mem_cons, List.mem_singleton,
      List.not_mem_nil, or_false] at hmem
    rcases hmem with h | h | h
    · rw [h]
      cases jsGt (extractOverallConversionRate prompt) (.fin 4) <;> simp [trendValues]
    · rw [h]; simp [trendValues]
    · rw [h]; simp [trendValues]

/-! ## Subscription guard -/

theorem planRank_eq_jsIndexOf (plan : String) (rank : ℕ) (h : planRank plan = some rank) :
    jsIndexOf subscriptionPlans plan = rank := by
  unfold planRank at h
  split at h <;> simp at h <;> subst h <;> decide

theorem jsIndexOf_of_planRank_none (plan : String) (h : planRank plan = none) :
    jsIndexOf subscriptionPlans plan = -1 := by
  have h0 : plan ≠ "free" := by intro e; rw [e] at h; simp [planRank] at h
  have h1 : plan ≠ "basic" := by intro e; rw [e] at h; simp [planRank] at h
  have h2 : plan ≠ "pro" := by intro e; rw [e] at h; simp [planRank] at h
  have h3 : plan ≠ "enterprise" := by intro e; rw [e] at h; simp [planRank] at h
  simp [jsIndexOf, subscriptionPlans, indexOfFrom, Ne.symm h0, Ne.symm h1, Ne.symm h2,
    Ne.symm h3]

theorem planRank_of_mem (plan : String) (h : plan ∈ subscriptionPlans) :
    ∃ rank, planRank plan = some rank := by
  simp only [subscriptionPlans, List.mem_cons, List.mem_singleton, List.not_mem_nil,
    or_false] at h
  rcases h with h | h | h | h <;> subst h
  · exact ⟨0, rfl⟩
  · exact ⟨1, rfl⟩
  · exact ⟨2, rfl⟩
  · exact ⟨3, rfl⟩

theorem requireSubscription_next_iff (plan : String) (rank : ℕ)
    (hrank : planRank plan = some rank) (user : AuthUser) :
    (requireSubscription plan (some user) = .next ↔ planAtLeast user.plan plan) ∧
      (¬ planAtLeast user.plan plan →
        requireSubscription plan (some user)
          = .respond 403 ("This feature requires a " ++ plan ++ " subscription or higher.")) := by
  have hreq := planRank_eq_jsIndexOf plan rank hrank
  cases huser : planRank user.plan with
  | none =>
    have hidx := jsIndexOf_of_planRank_none user.plan huser
    have hnot : ¬ planAtLeast user.plan plan := by
      rintro ⟨a, b, ha, -, -⟩
      rw [huser] at ha
      exact absurd ha (by simp)
    have hlt : (-1 : ℤ) < (rank : ℤ) := by omega
    simp [requireSubscription, hidx, hreq, hlt, hnot]
  | some a =>
    have hidx := planRank_eq_jsIndexOf user.plan a huser
    have hiff : planAtLeast user.plan plan ↔ rank ≤ a := by
      constructor
      · rintro ⟨a', b', ha', hb', hle⟩
        rw [huser] at ha'
        rw [hrank] at hb'
        simp only [Option.some.injEq] at ha' hb'
        omega
      · intro hle
        exact ⟨a, rank, huser, hrank, hle⟩
    by_cases hlt : (a : ℤ) < (rank : ℤ)
    · have hnot : ¬ planAtLeast user.plan plan := by rw [hiff]; omega
      simp [requireSubscription, hidx, hreq, hlt, hnot]
    · have hyes : planAtLeast user.plan plan := by rw [hiff]; omega
      simp [requireSubscription, hidx, hreq, hlt, hyes]

/-- C25 fails for a required plan outside the list.  `indexOf` gives `-1` for
a name that is not one of free, basic, pro, enterprise, and no position of a
user plan is below `-1`: `requireSubscription("gold")` calls `next` for a user
on the free plan, although free is neither gold nor a higher plan. -/
theorem requireSubscription_unlisted_plan :
    "gold" ∉ subscriptionPlans ∧
    jsIndexOf subscriptionPlans "gold" = -1 ∧
    requireSubscription "gold" (some { plan := "free" }) = .next ∧
    ¬ planAtLeast "free" "gold" := by
  refine ⟨by decide, by decide, by decide, ?_⟩
  rintro ⟨a, b, -, hb, -⟩
  simp [planRank] at hb

/-- C25 (amended).  For a required plan that is one of free, basic, pro, enterprise:
without an authenticated user `requireSubscription(plan)` responds 401; with
one it calls `next` exactly when the plan of the user is the required plan or a
higher one in the order free < basic < pro < enterprise, and otherwise it
responds 403 with "This feature requires a <plan> subscription or higher.".
Every route of `routes/ai.js` is guarded with "basic" and so rejects every
user on the free plan. -/
theorem requireSubscription_spec (plan : String) (hplan : plan ∈ subscriptionPlans) :
    requireSubscription plan none = .respond 401 "Authentication required." ∧
    (∀ user : AuthUser,
      (requireSubscription plan (some user) = .next ↔ planAtLeast user.plan plan) ∧
      (¬ planAtLeast user.plan plan →
        requireSubscription plan (some user)
          = .respond 403
            ("This feature requires a " ++ plan ++ " subscription or higher."))) ∧
    (∀ route ∈ aiRoutes, ∀ user : AuthUser, user.plan = "free" →
      requireSubscription route.2 (some user)
        = .respond 403 "This feature requires a basic subscription or higher.") := by
  obtain ⟨rank, hrank⟩ := planRank_of_mem plan hplan
  refine ⟨rfl, fun user => requireSubscription_next_iff plan rank hrank user, ?_⟩
  intro route hroute user hfree
  have hbasic : route.2 = "basic" := by
    simp only [aiRoutes, List.mem_cons, List.mem_singleton, List.not_mem_nil, or_false]
      at hroute
    rcases hroute with h | h | h <;> rw [h]
  have hnot : ¬ planAtLeast user.plan "basic" := by
    rintro ⟨a, b, ha, hb, hle⟩
    rw [hfree] at ha
    simp only [planRank, Option.some.injEq] at ha hb
    omega
  rw [hbasic]
  exact (requireSubscription_next_iff "basic" 1 rfl user).2 hnot

theorem requireSubscription_spec_witness :
    "basic" ∈ subscriptionPlans ∧
    requireSubscription "basic" none = .respond 401 "Authentication required." ∧
    requireSubscription "basic" (some { plan := "pro" }) = .next ∧
    requireSubscription "basic" (some { plan := "free" })
      = .respond 403 "This feature requires a basic subscription or higher." :=
  ⟨by decide, (requireSubscription_spec "basic" (by decide)).1, by decide,
    (requireSubscription_spec "basic" (by decide)).2.2 ("/generate-report", "basic")
      (by decide) { plan := "free" } rfl⟩

/-! ## JSON output of a user -/

theorem getField_deleteField (key key' : String) (fields : List (String × Json)) :
    getField key (deleteField key' fields)
      = if key = key' then none else getField key fields := by
  induction fields with
  | nil => simp [deleteField, getField]
  | cons kv rest ih =>
    obtain ⟨k, v⟩ := kv
    unfold deleteField at ih ⊢
    by_cases hk : k = key'
    · subst hk
      by_cases hkey : key = k
      · subst hkey
        simpa [List.filter_cons] using ih
      · have hkey' : ¬ k = key := fun h => hkey h.symm
        simp only [List.filter_cons, bne_self_eq_false, Bool.false_eq_true, if_false, hkey,
          getField, hkey'] at ih ⊢
        exact ih
    · have hne : (k != key') = true := by simpa using hk
      simp only [List.filter_cons, hne, if_true, getField]
      by_cases hkey : k = key
      · subst hkey
        simp [hk]
      · simp only [hkey, if_false]
        exact ih

/-- C26.  For every user document, the object that `toJSON` returns has no
`password` field and agrees with the plain object of the document on every
other field. -/
theorem userToJSON_removes_password (plainObject : List (String × Json)) :
    getField "password" (userToJSON plainObject) = none ∧
      ∀ key, key ≠ "password" →
        getField key (userToJSON plainObject) = getField key plainObject := by
  unfold userToJSON
  constructor
  · rw [getField_deleteField]; simp
  · intro key hkey
    rw [getField_deleteField]; simp [hkey]

/-! ## Platform analytics -/

theorem platformHandler_status (platform : String) :
    (platformHandler platform).1 = 404 ↔
      platform ∉ ["facebook", "google", "tiktok"] ∧ platform ∉ objectPrototypeNames := by
  unfold platformHandler readPlatform
  by_cases h1 : platform = "facebook"
  · subst h1; simp [platformData, getField]
  by_cases h2 : platform = "google"
  · subst h2; simp [platformData, getField]
  by_cases h3 : platform = "tiktok"
  · subst h3; simp [platformData, getField]
  have hnone : getField platform platformData = none := by
    simp [platformData, getField, Ne.symm h1, Ne.symm h2, Ne.symm h3]
  rw [hnone]
  by_cases hproto : platform ∈ objectPrototypeNames
  · simp [hproto]
  · simp [hproto, h1, h2, h3]

/-- C30 does not hold of the code.  For the platform name `constructor`, which
is none of facebook, google, tiktok, the handler does not respond 404:
`platformData["constructor"]` is the function that the object inherits, which
is truthy, and the response is 200 with the body `{ "success": true }`.  In
general the handler responds 404 exactly for the names that are neither one of
the three platforms nor a member of `Object.prototype`. -/
theorem platformHandler_inherited_name :
    "constructor" ∉ ["facebook", "google", "tiktok"] ∧
    platformHandler "constructor" = (200, .obj [("success", .bool true)]) ∧
    (platformHandler "toString").1 = 200 ∧
    (platformHandler "instagram").1 = 404 ∧
    (∀ platform, (platformHandler platform).1 = 404 ↔
      platform ∉ ["facebook", "google", "tiktok"] ∧ platform ∉ objectPrototypeNames) := by
  refine ⟨by decide, ?_, by decide, by decide, platformHandler_status⟩
  simp [platformHandler, readPlatform, platformData, getField, objectPrototypeNames,
    inheritedBody]

/-! ## The whole rendered prompt -/

/-- The prompt as a sequence of fixed texts and rendered values, to its end. -/
theorem generateAnalysisPrompt_toList_full (platforms : List String) (timeframe : String)
    (analyticsData : AnalyticsData) (agg : AggregatedMetrics) :
    (generateAnalysisPrompt platforms timeframe analyticsData agg).toList =
      promptOpening.toList ++ (timeframe.toList ++ ("\n- Platforms: ".toList ++
      ((joinWith ", " platforms).toList ++ ("\n- ".toList ++ ("Total Spend: $".toList ++
      ((jsToLocaleString agg.totalSpend).toList ++ ("\n- Total Impressions: ".toList ++
      ((jsToLocaleString agg.totalImpressions).toList ++ ("\n- Total Clicks: ".toList ++
      ((jsToLocaleString agg.totalClicks).toList ++ ("\n- Total Conversions: ".toList ++
      ((jsNumberToString agg.totalConversions).toList ++ ("\n- ".toList ++
      ("Overall CTR: ".toList ++ (agg.overallCtr.toList ++ ("%\n- Overall CPC: $".toList ++
      (agg.overallCpc.toList ++ ("\n- ".toList ++ ("Overall Conversion Rate: ".toList ++
      (agg.overallConversionRate.toList ++ ("%\n\nPLATFORM DATA:\n".toList ++
      ((joinWith "\n" (analyticsData.map platformParagraph)).toList ++
        promptTask.toList)))))))))))))))))))))) := by
  have e1 : "\n- Total Spend: $" = "\n- " ++ "Total Spend: $" := by decide
  have e2 : "\n- Overall CTR: " = "\n- " ++ "Overall CTR: " := by decide
  have e3 : "\n- Overall Conversion Rate: " = "\n- " ++ "Overall Conversion Rate: " := by
    decide
  unfold generateAnalysisPrompt
  rw [e1, e2, e3]
  simp only [promptOpening, promptTask, String.toList, String.data_append, List.append_assoc]

/-! ## Text that the search for the conversion-rate pattern skips -/

theorem skippable_of_noStartOf (lit : List Char) (cls : Char → Bool) (follow : Option Char)
    (text : List Char) (h : noStartOf lit text = true) : skippable lit cls follow text :=
  fun tail => regexCapture_skip lit cls follow text tail h

theorem skippable_nil (lit : List Char) (cls : Char → Bool) (follow : Option Char) :
    skippable lit cls follow [] :=
  fun _ => rfl

theorem skippable_append (lit : List Char) (cls : Char → Bool) (follow : Option Char)
    (front back : List Char) (hfront : skippable lit cls follow front)
    (hback : skippable lit cls follow back) : skippable lit cls follow (front ++ back) := by
  intro tail
  rw [List.append_assoc, hfront, hback]

theorem regexCapture_fail_here (lit : List Char) (cls : Char → Bool) (follow : Option Char)
    (c : Char) (lit' tail : List Char) (hlit : lit = c :: lit')
    (hrun : tail.takeWhile cls = []) (hself : noStartOf lit lit' = true) :
    regexCapture lit cls follow (lit ++ tail) = regexCapture lit cls follow tail := by
  have hdrop : (lit ++ tail).drop lit.length = tail := List.drop_left lit tail
  have hcons : lit ++ tail = c :: (lit' ++ tail) := by rw [hlit]; rfl
  have hstep : regexCapture lit cls follow (lit ++ tail)
      = regexCapture lit cls follow (lit' ++ tail) := by
    conv_lhs => rw [hcons, regexCapture_cons, ← hcons, hdrop, hrun]
    simp
  rw [hstep]
  exact regexCapture_skip lit cls follow lit' tail hself

theorem noStartOf_of_second (a b : Char) (lit text : List Char) (c : Char)
    (htext : ∀ x ∈ text, x ≠ b) (hcb : c ≠ b) (hca : c ≠ a) :
    noStartOf (a :: b :: lit) (text ++ [c]) = true := by
  induction text with
  | nil =>
    have : a ≠ c := fun h => hca h.symm
    simp [noStartOf, differsFrom, this]
  | cons x rest ih =>
    have hrest : ∀ y ∈ rest, y ≠ b := fun y hy => htext y (List.mem_cons_of_mem _ hy)
    have hne : rest ++ [c] ≠ [] := by simp
    obtain ⟨y, more, hcons⟩ := List.exists_cons_of_ne_nil hne
    have hy : b ≠ y := by
      have hmem : y ∈ rest ++ [c] := by rw [hcons]; exact List.mem_cons_self _ _
      rw [List.mem_append, List.mem_singleton] at hmem
      rcases hmem with h | h
      · exact fun e => hrest y h e.symm
      · rw [h]; exact fun e => hcb e.symm
    have hih := ih hrest
    have hdiff : differsFrom (a :: b :: lit) (x :: (rest ++ [c])) = true := by
      rw [hcons]
      simp [differsFrom, hy]
    show noStartOf (a :: b :: lit) (x :: (rest ++ [c])) = true
    rw [noStartOf, hdiff, hih]
    rfl

theorem toUpper_ne_v (c : Char) : Char.toUpper c ≠ 'v' := by
  unfold Char.toUpper
  simp only
  split
  · next hrange =>
    have hall : ∀ n, 97 ≤ n → n ≤ 122 → Char.ofNat (n - 32) ≠ 'v' := by
      intro n h1 h2
      interval_cases n <;> decide
    exact hall c.toNat hrange.1 hrange.2
  · next hrange =>
    intro hc
    rw [hc] at hrange
    exact hrange (by decide)

theorem toUpperCase_no_v (s : String) : ∀ c ∈ (toUpperCase s).toList, c ≠ 'v' := by
  intro c hc
  simp only [toUpperCase, String.toList, List.mem_map] at hc
  obtain ⟨x, -, rfl⟩ := hc
  exact toUpper_ne_v x

theorem skippable_rate_plain (text : List Char) (h : ∀ c ∈ text, plainChar c = true) :
    skippable "Overall Conversion Rate: ".toList (fun c => isDigit c || c == '.') (some '%')
      text :=
  skippable_of_noStartOf _ _ _ text (noStartOf_rate_of_plain text h)

theorem skippable_rate_upper (name : String) :
    skippable "Overall Conversion Rate: ".toList (fun c => isDigit c || c == '.') (some '%')
      ((toUpperCase name).toList ++ ":".toList) :=
  skippable_of_noStartOf _ _ _ _
    (noStartOf_of_second 'O' 'v' "erall Conversion Rate: ".toList (toUpperCase name).toList ':'
      (toUpperCase_no_v name) (by decide) (by decide))

theorem platformParagraph_toList (entry : String × PlatformMetrics) :
    (platformParagraph entry).toList =
      "\n".toList ++ (((toUpperCase entry.1).toList ++ ":".toList) ++
      ("\n- Spend: $".toList ++ ((jsToLocaleString (.fin entry.2.spend)).toList ++
      ("\n- Impressions: ".toList ++ ((jsToLocaleString (.fin entry.2.impressions)).toList ++
      ("\n- Clicks: ".toList ++ ((jsToLocaleString (.fin entry.2.clicks)).toList ++
      ("\n- Conversions: ".toList ++ ((jsNumberToString (.fin entry.2.conversions)).toList ++
      ("\n- CTR: ".toList ++ ((jsNumberToString (.fin entry.2.ctr)).toList ++
      ("%\n- CPC: $".toList ++ ((jsNumberToString (.fin entry.2.cpc)).toList ++
      ("\n- CPM: $".toList ++ ((jsNumberToString (.fin entry.2.cpm)).toList ++
      ("\n- Conversion Rate: ".toList ++
      ((jsNumberToString (.fin entry.2.conversion_rate)).toList ++
        "%\n".toList))))))))))))))))) := by
  have e : ":\n- Spend: $" = ":" ++ "\n- Spend: $" := by decide
  unfold platformParagraph
  rw [e]
  simp only [String.toList, String.data_append, List.append_assoc]

/-- No match of the conversion-rate pattern starts in the paragraph of a
platform: its name is in upper case, its labels read `- Conversion Rate: `
without `Overall`, and its numbers hold no letter `O`. -/
theorem skippable_paragraph (entry : String × PlatformMetrics) :
    skippable "Overall Conversion Rate: ".toList (fun c => isDigit c || c == '.') (some '%')
      (platformParagraph entry).toList := by
  rw [platformParagraph_toList]
  refine skippable_append _ _ _ _ _ (skippable_of_noStartOf _ _ _ _ (by decide)) ?_
  refine skippable_append _ _ _ _ _ (skippable_rate_upper entry.1) ?_
  refine skippable_append _ _ _ _ _ (skippable_of_noStartOf _ _ _ _ (by decide)) ?_
  refine skippable_append _ _ _ _ _
    (skippable_rate_plain _ (plainChar_jsToLocaleString _)) ?_
  refine skippable_append _ _ _ _ _ (skippable_of_noStartOf _ _ _ _ (by decide)) ?_
  refine skippable_append _ _ _ _ _
    (skippable_rate_plain _ (plainChar_jsToLocaleString _)) ?_
  refine skippable_append _ _ _ _ _ (skippable_of_noStartOf _ _ _ _ (by decide)) ?_
  refine skippable_append _ _ _ _ _
    (skippable_rate_plain _ (plainChar_jsToLocaleString _)) ?_
  refine skippable_append _ _ _ _ _ (skippable_of_noStartOf _ _ _ _ (by decide)) ?_
  refine skippable_append _ _ _ _ _
    (skippable_rate_plain _ (plainChar_jsNumberToString _)) ?_
  refine skippable_append _ _ _ _ _ (skippable_of_noStartOf _ _ _ _ (by decide)) ?_
  refine skippable_append _ _ _ _ _
    (skippable_rate_plain _ (plainChar_jsNumberToString _)) ?_
  refine skippable_append _ _ _ _ _ (skippable_of_noStartOf _ _ _ _ (by decide)) ?_
  refine skippable_append _ _ _ _ _
    (skippable_rate_plain _ (plainChar_jsNumberToString _)) ?_
  refine skippable_append _ _ _ _ _ (skippable_of_noStartOf _ _ _ _ (by decide)) ?_
  refine skippable_append _ _ _ _ _
    (skippable_rate_plain _ (plainChar_jsNumberToString _)) ?_
  refine skippable_append _ _ _ _ _ (skippable_of_noStartOf _ _ _ _ (by decide)) ?_
  refine skippable_append _ _ _ _ _
    (skippable_rate_plain _ (plainChar_jsNumberToString _)) ?_
  exact skippable_of_noStartOf _ _ _ _ (by decide)

theorem skippable_paragraphs (entries : List (String × PlatformMetrics)) :
    skippable "Overall Conversion Rate: ".toList (fun c => isDigit c || c == '.') (some '%')
      (joinWith "\n" (entries.map platformParagraph)).toList := by
  induction entries with
  | nil => exact skippable_nil _ _ _
  | cons entry rest ih =>
    cases rest with
    | nil => exact skippable_paragraph entry
    | cons next more =>
      have hjoin : (joinWith "\n" ((entry :: next :: more).map platformParagraph)).toList
          = (platformParagraph entry).toList ++ ("\n".toList
            ++ (joinWith "\n" ((next :: more).map platformParagraph)).toList) := by
        simp only [List.map_cons, joinWith, String.toList, String.data_append,
          List.append_assoc]
      rw [hjoin]
      exact skippable_append _ _ _ _ _ (skippable_paragraph entry)
        (skippable_append _ _ _ _ _ (skippable_of_noStartOf _ _ _ _ (by decide)) ih)

theorem regexCapture_promptTask :
    regexCapture "Overall Conversion Rate: ".toList (fun c => isDigit c || c == '.') (some '%')
      promptTask.toList = none := by
  decide!

/-! ## Texts that do not contain the marker -/

theorem isPrefixOf_cons_of_ne (a c : Char) (lit text : List Char) (hac : a ≠ c) :
    (a :: lit).isPrefixOf (c :: text) = false := by
  rw [List.isPrefixOf_cons₂]
  simp [hac]

theorem containsText_of_longer (lit more text : List Char)
    (h : containsText lit text = false) : containsText (lit ++ more) text = false := by
  induction text with
  | nil =>
    cases lit with
    | nil => simp [containsText] at h
    | cons a lit => rfl
  | cons c rest ih =>
    simp only [containsText, Bool.or_eq_false_iff] at h ⊢
    refine ⟨?_, ih h.2⟩
    by_contra hcontra
    have hpre : (lit ++ more).isPrefixOf (c :: rest) = true := by simpa using hcontra
    rw [ List.isPrefixOf_iff_prefix] at hpre
    have hlit : lit.isPrefixOf (c :: rest) = true := by
      rw [ List.isPrefixOf_iff_prefix]
      exact (List.prefix_append lit more).trans hpre
    rw [h.1] at hlit
    exact absurd hlit (by simp)

theorem containsText_append_separator (lit front back : List Char) (c : Char)
    (hfront : containsText lit front = false) (hc : c ∉ lit)
    (hback : containsText lit back = false) :
    containsText lit (front ++ c :: back) = false := by
  induction front with
  | nil =>
    cases lit with
    | nil => simp [containsText] at hfront
    | cons a lit =>
      have hac : a ≠ c := fun e => hc (by rw [e]; exact List.mem_cons_self _ _)
      simp [containsText, hback, isPrefixOf_cons_of_ne a c lit back hac]
  | cons x rest ih =>
    simp only [containsText, Bool.or_eq_false_iff] at hfront
    simp only [List.cons_append, containsText, Bool.or_eq_false_iff]
    refine ⟨?_, ih hfront.2⟩
    have hdiff := differsFrom_of_not_isPrefixOf lit (x :: rest) c hfront.1 hc
    have := isPrefixOf_of_differsFrom lit ((x :: rest) ++ [c]) back hdiff
    simpa using this

theorem containsText_cons_of_ne (a : Char) (lit : List Char) (c : Char) (text : List Char)
    (hac : a ≠ c) (h : containsText (a :: lit) text = false) :
    containsText (a :: lit) (c :: text) = false := by
  simp [containsText, h, isPrefixOf_cons_of_ne a c lit text hac]

theorem containsText_joinWith (a : Char) (lit : List Char) (names : List String)
    (hcomma : ',' ∉ a :: lit) (hspace : a ≠ ' ')
    (h : ∀ name ∈ names, containsText (a :: lit) name.toList = false) :
    containsText (a :: lit) (joinWith ", " names).toList = false := by
  induction names with
  | nil => rfl
  | cons name rest ih =>
    cases rest with
    | nil => exact h name (List.mem_cons_self _ _)
    | cons next more =>
      have hjoin : (joinWith ", " (name :: next :: more)).toList
          = name.toList ++ ',' :: (' ' :: (joinWith ", " (next :: more)).toList) := by
        simp only [joinWith, String.toList, String.data_append, List.append_assoc]
        rfl
      rw [hjoin]
      apply containsText_append_separator _ _ _ _ (h name (List.mem_cons_self _ _)) hcomma
      apply containsText_cons_of_ne a lit ' ' _ hspace
      exact ih (fun n hn => h n (List.mem_cons_of_mem _ hn))

/-! ## A request without clicks -/

theorem overallConversionRate_of_no_clicks (analyticsData : AnalyticsData)
    (h : totalClicksOf analyticsData = .fin 0) :
    (calculateAggregatedMetrics analyticsData).overallConversionRate = "NaN" ∨
      (calculateAggregatedMetrics analyticsData).overallConversionRate = "Infinity" := by
  show jsToFixed (overallConversionRateValue analyticsData) 2 = "NaN"
    ∨ jsToFixed (overallConversionRateValue analyticsData) 2 = "Infinity"
  unfold overallConversionRateValue
  rw [h]
  rcases jsDiv_zero_of_notNegative _ (totalConversionsOf_notNegative analyticsData)
    with hdiv | hdiv <;> rw [hdiv]
  · left; rfl
  · right; simp [jsMul, jsToFixed]

theorem regexCapture_rate_none (platforms : List String) (timeframe : String)
    (analyticsData : AnalyticsData) (agg : AggregatedMetrics)
    (htf : containsText "Overall Conversion Rate: ".toList timeframe.toList = false)
    (hpl : containsText "Overall Conversion Rate: ".toList (joinWith ", " platforms).toList
      = false)
    (hctr : ∀ c ∈ agg.overallCtr.toList, plainChar c = true)
    (hcpc : ∀ c ∈ agg.overallCpc.toList, plainChar c = true)
    (hrate : agg.overallConversionRate = "NaN" ∨ agg.overallConversionRate = "Infinity") :
    regexCapture "Overall Conversion Rate: ".toList (fun c => isDigit c || c == '.') (some '%')
        (generateAnalysisPrompt platforms timeframe analyticsData agg).toList = none := by
  have hplain : ∀ c ∈ agg.overallConversionRate.toList, plainChar c = true := by
    rcases hrate with h | h <;> rw [h] <;> decide
  have hrun : ∀ rest : List Char, (agg.overallConversionRate.toList ++ rest).takeWhile
      (fun c => isDigit c || c == '.') = [] := by
    intro rest
    rcases hrate with h | h <;> rw [h] <;> rfl
  have htail : regexCapture "Overall Conversion Rate: ".toList
      (fun c => isDigit c || c == '.') (some '%')
      ((joinWith "\n" (analyticsData.map platformParagraph)).toList ++ promptTask.toList)
        = none := by
    rw [skippable_paragraphs analyticsData promptTask.toList]
    exact regexCapture_promptTask
  rw [generateAnalysisPrompt_toList_full,
    regexCapture_skip _ _ _ promptOpening.toList _ (by decide),
    regexCapture_skip_text_then _ _ _ timeframe.toList "\n- Platforms: ".toList _ '\n'
      "- Platforms: ".toList rfl htf (by decide) (by decide),
    regexCapture_skip_text_then _ _ _ (joinWith ", " platforms).toList "\n- ".toList _ '\n'
      "- ".toList rfl hpl (by decide) (by decide),
    regexCapture_skip _ _ _ "Total Spend: $".toList _ (by decide),
    regexCapture_skip _ _ _ (jsToLocaleString agg.totalSpend).toList _
      (noStartOf_rate_of_plain _ (plainChar_jsToLocaleString _)),
    regexCapture_skip _ _ _ "\n- Total Impressions: ".toList _ (by decide),
    regexCapture_skip _ _ _ (jsToLocaleString agg.totalImpressions).toList _
      (noStartOf_rate_of_plain _ (plainChar_jsToLocaleString _)),
    regexCapture_skip _ _ _ "\n- Total Clicks: ".toList _ (by decide),
    regexCapture_skip _ _ _ (jsToLocaleString agg.totalClicks).toList _
      (noStartOf_rate_of_plain _ (plainChar_jsToLocaleString _)),
    regexCapture_skip _ _ _ "\n- Total Conversions: ".toList _ (by decide),
    regexCapture_skip _ _ _ (jsNumberToString agg.totalConversions).toList _
      (noStartOf_rate_of_plain _ (plainChar_jsNumberToString _)),
    regexCapture_skip _ _ _ "\n- ".toList _ (by decide),
    regexCapture_skip _ _ _ "Overall CTR: ".toList _ (by decide),
    regexCapture_skip _ _ _ agg.overallCtr.toList _ (noStartOf_rate_of_plain _ hctr),
    regexCapture_skip _ _ _ "%\n- Overall CPC: $".toList _ (by decide),
    regexCapture_skip _ _ _ agg.overallCpc.toList _ (noStartOf_rate_of_plain _ hcpc),
    regexCapture_skip _ _ _ "\n- ".toList _ (by decide),
    regexCapture_fail_here "Overall Conversion Rate: ".toList _ _ 'O'
      "verall Conversion Rate: ".toList _ rfl (hrun _) (by decide),
    regexCapture_skip _ _ _ agg.overallConversionRate.toList _
      (noStartOf_rate_of_plain _ hplain),
    regexCapture_skip _ _ _ "%\n\nPLATFORM DATA:\n".toList _ (by decide)]
  exact htail

theorem containsText_append_left (lit front back : List Char)
    (h : containsText lit back = true) : containsText lit (front ++ back) = true := by
  induction front with
  | nil => exact h
  | cons c rest ih => simp [containsText, ih]

theorem containsText_rendered_rate (platforms : List String) (timeframe : String)
    (analyticsData : AnalyticsData) (agg : AggregatedMetrics)
    (hrate : agg.overallConversionRate = "NaN" ∨ agg.overallConversionRate = "Infinity") :
    containsText "Overall Conversion Rate: NaN%".toList
        (generateAnalysisPrompt platforms timeframe analyticsData agg).toList = true ∨
      containsText "Overall Conversion Rate: Infinity%".toList
        (generateAnalysisPrompt platforms timeframe analyticsData agg).toList = true := by
  rw [generateAnalysisPrompt_toList_full]
  rcases hrate with h | h
  · left
    rw [h]
    iterate 19 apply containsText_append_left
    rfl
  · right
    rw [h]
    iterate 19 apply containsText_append_left
    rfl

/-- C29.  For every analyticsData whose total of the clicks is 0, with a
timeframe and platform names that do not contain the text
`Overall Conversion Rate:`: the
aggregated conversion rate is "NaN" or "Infinity" and the prompt renders it so;
the pattern of the generator finds no match in the prompt; the generator
therefore takes the default 4.2, and it reports the wording for a high rate:
"Strong Conversion Performance" with impact "positive" and the trend "up". -/
theorem no_clicks_default_rate (platforms : List String) (timeframe : String)
    (analyticsData : AnalyticsData)
    (hclicks : (calculateAggregatedMetrics analyticsData).totalClicks = .fin 0)
    (htf : containsText "Overall Conversion Rate:".toList timeframe.toList = false)
    (hpl : ∀ name ∈ platforms,
      containsText "Overall Conversion Rate:".toList name.toList = false) :
    ((calculateAggregatedMetrics analyticsData).overallConversionRate = "NaN" ∨
      (calculateAggregatedMetrics analyticsData).overallConversionRate = "Infinity") ∧
    (containsText "Overall Conversion Rate: NaN%".toList
        (renderedPrompt platforms timeframe analyticsData).toList = true ∨
      containsText "Overall Conversion Rate: Infinity%".toList
        (renderedPrompt platforms timeframe analyticsData).toList = true) ∧
    ¬ hasMarker "Overall Conversion Rate: ".toList (fun c => isDigit c || c == '.')
      (some '%') (renderedPrompt platforms timeframe analyticsData).toList ∧
    extractOverallConversionRate (renderedPrompt platforms timeframe analyticsData)
      = .fin (jsonNumber (42 / 10)) ∧
    firstInsightHeading
        (generateStructuredAnalysis (renderedPrompt platforms timeframe analyticsData))
      = some ("Strong Conversion Performance", "positive") ∧
    firstTrendChange
        (generateStructuredAnalysis (renderedPrompt platforms timeframe analyticsData))
      = some ("up", "+0.8%") := by
  have hrate := overallConversionRate_of_no_clicks analyticsData hclicks
  have htf' : containsText "Overall Conversion Rate: ".toList timeframe.toList = false :=
    containsText_of_longer "Overall Conversion Rate:".toList [' '] _ htf
  have hjoin : containsText "Overall Conversion Rate:".toList
      (joinWith ", " platforms).toList = false :=
    containsText_joinWith 'O' "verall Conversion Rate:".toList platforms (by decide)
      (by decide) hpl
  have hpl' : containsText "Overall Conversion Rate: ".toList
      (joinWith ", " platforms).toList = false :=
    containsText_of_longer "Overall Conversion Rate:".toList [' '] _ hjoin
  have hnone : regexCapture "Overall Conversion Rate: ".toList
      (fun c => isDigit c || c == '.') (some '%')
      (renderedPrompt platforms timeframe analyticsData).toList = none :=
    regexCapture_rate_none platforms timeframe analyticsData _ htf' hpl'
      (plainChar_jsToFixed _ 2) (plainChar_jsToFixed _ 2) hrate
  have hextract : extractOverallConversionRate
      (renderedPrompt platforms timeframe analyticsData) = .fin (jsonNumber (42 / 10)) := by
    unfold extractOverallConversionRate
    rw [hnone]
  have hgt : jsGt (JSNum.fin (jsonNumber (42 / 10))) (.fin 4) = true := by decide!
  refine ⟨hrate, containsText_rendered_rate platforms timeframe analyticsData _ hrate,
    ?_, hextract, ?_, ?_⟩
  · rw [← regexCapture_isSome_iff _ _ _ (by intro f hf; cases hf; decide), hnone]
    simp
  · simp [firstInsightHeading, generateStructuredAnalysis, mockInsights, hextract, hgt]
  · simp [firstTrendChange, generateStructuredAnalysis, mockTrends, hextract, hgt]

theorem no_clicks_default_rate_witness :
    (calculateAggregatedMetrics conversionsWithoutClicks).totalClicks = .fin 0 ∧
    (calculateAggregatedMetrics conversionsWithoutClicks).overallConversionRate = "Infinity" ∧
    extractOverallConversionRate
        (renderedPrompt ["facebook"] "last_30_days" conversionsWithoutClicks)
      = .fin (jsonNumber (42 / 10)) ∧
    firstInsightHeading (generateStructuredAnalysis
        (renderedPrompt ["facebook"] "last_30_days" conversionsWithoutClicks))
      = some ("Strong Conversion Performance", "positive") ∧
    firstTrendChange (generateStructuredAnalysis
        (renderedPrompt ["facebook"] "last_30_days" conversionsWithoutClicks))
      = some ("up", "+0.8%") :=
  ⟨by decide!, by decide!,
    (no_clicks_default_rate ["facebook"] "last_30_days" conversionsWithoutClicks
      (by decide!) (by decide!) (by decide!)).2.2.2⟩
